import Mathlib

/-!
Verification of the DeltaScript toolchain specification against its source.

We shallowly embed the relevant parts of the repository in Lean:
`src/src/transpiler.ts` (the compiler engine `transpileSpark` and its
helpers), `src/src/config.ts` (`loadConfig`), and the CLI helpers
`resolveDsDependencyGraph` and `injectSpectralImports` from the CLI
source.  JavaScript regular expressions are embedded as hand-written
character scanners that implement the exact pattern of the source;
each definition carries a comment naming the source location it embeds.
The vendored ECMAScript parser (acorn), Node's `fs`/`path` modules and
`JSON.parse` are external capabilities and are modelled as parameters
(oracles) of the embedded functions.

Strings are processed as `List Char`.  Machine integers do not occur
(all indices are JavaScript numbers used as exact naturals).
-/

set_option maxRecDepth 8000

namespace DeltaScript

abbrev Chars := List Char

/-- Character code 39 (apostrophe), used when building diagnostic texts. -/
def sq : String := "\x27"

/-- Character code 123, an opening curly brace, used when building program texts. -/
def ob : String := "\x7b"

/-- Character code 125, a closing curly brace, used when building program texts. -/
def cb : String := "\x7d"

/-! ## Character classes (JavaScript regex semantics, ASCII fragment) -/

/-- JS `\s` (ASCII fragment: space, tab, LF, CR, VT, FF). -/
def jsWs (c : Char) : Bool :=
  c = ' ' || c = '\t' || c = '\n' || c = '\r' || c = '\x0b' || c = '\x0c'

/-- JS `\w` : `[A-Za-z0-9_]`. -/
def jsWord (c : Char) : Bool :=
  ('a' ≤ c && c ≤ 'z') || ('A' ≤ c && c ≤ 'Z') || ('0' ≤ c && c ≤ '9') || c = '_'

/-- `[A-Za-z_$]`, the identifier start class used throughout transpiler.ts. -/
def identStart (c : Char) : Bool :=
  ('a' ≤ c && c ≤ 'z') || ('A' ≤ c && c ≤ 'Z') || c = '_' || c = '$'

/-- `[\w$]`, the identifier continuation class used throughout transpiler.ts. -/
def identChar (c : Char) : Bool := jsWord c || c = '$'

/-- `[0-9]`. -/
def digitChar (c : Char) : Bool := '0' ≤ c && c ≤ '9'

/-! ## Scanner primitives -/

/-- Consume the literal `pat`; return the rest on success. -/
def dropLit : Chars → Chars → Option Chars
  | [], s => some s
  | _ :: _, [] => none
  | p :: ps, c :: cs => if c = p then dropLit ps cs else none

/-- Skip `\s*`. -/
def wsSkip (s : Chars) : Chars := s.dropWhile (fun c => jsWs c)

/-- Consume `\s+`. -/
def wsPlus (s : Chars) : Option Chars :=
  match s with
  | c :: cs => if jsWs c then some (wsSkip cs) else none
  | [] => none

/-- Consume `[A-Za-z_$][\w$]*` greedily; return (identifier, rest). -/
def takeIdent (s : Chars) : Option (Chars × Chars) :=
  match s with
  | c :: cs =>
      if identStart c then
        some (c :: cs.takeWhile (fun d => identChar d), cs.dropWhile (fun d => identChar d))
      else none
  | [] => none

/-- Does `s` start with the literal `pat`? -/
def startsWithLit (pat s : Chars) : Bool := (dropLit pat s).isSome

/-- First index of character `c` in `s`, if any (JS `String.indexOf` for one char). -/
def idxOfChar (c : Char) (s : Chars) : Option Nat :=
  match s with
  | [] => none
  | d :: ds => if d = c then some 0 else (idxOfChar c ds).map (· + 1)

/-- First index at which the literal `pat` occurs in `s` (JS `String.indexOf`). -/
def idxOfLit (pat : Chars) (s : Chars) : Option Nat :=
  match s with
  | [] => if pat.isEmpty then some 0 else none
  | _ :: ds =>
      if startsWithLit pat s then some 0
      else (idxOfLit pat ds).map (· + 1)

/-- Does the literal `pat` occur anywhere in `s`? -/
def containsLit (pat : Chars) (s : Chars) : Bool := (idxOfLit pat s).isSome

/-- Number of occurrences of the character `c` in `s`
(embeds JS `(str.match(/c/g) || []).length` for a single-character pattern). -/
def countChar (c : Char) (s : Chars) : Nat := (s.filter (fun d => d = c)).length

/-- `1 +` the number of `'\n'` characters in `s`
(embeds the recurring JS idiom `str.slice(0, i).split("\n").length`). -/
def lineOfPrefix (s : Chars) : Nat := 1 + countChar '\n' s

/-- JS `String.prototype.trim` (ASCII whitespace fragment). -/
def trimChars (s : Chars) : Chars :=
  ((s.dropWhile (fun c => jsWs c)).reverse.dropWhile (fun c => jsWs c)).reverse

/-- Split at every `'\n'`, also eating a `'\r'` directly before it
(embeds JS `str.split(/\r?\n/)`). -/
def splitLines (s : Chars) : List Chars :=
  go s [] where
  go : Chars → Chars → List Chars
    | [], acc => [acc.reverse]
    | '\r' :: '\n' :: rest, acc => acc.reverse :: go rest []
    | '\n' :: rest, acc => acc.reverse :: go rest []
    | c :: rest, acc => go rest (c :: acc)

/-- Join lines with `'\n'` (JS `Array.prototype.join("\n")`). -/
def joinLines : List Chars → Chars
  | [] => []
  | [l] => l
  | l :: ls => l ++ '\n' :: joinLines ls

/-- JS `str.split(sep)` for a single-character separator. -/
def splitOnChar (sep : Char) (s : Chars) : List Chars :=
  go s [] where
  go : Chars → Chars → List Chars
    | [], acc => [acc.reverse]
    | c :: rest, acc =>
        if c = sep then acc.reverse :: go rest [] else go rest (c :: acc)

/-- Is there a JS word boundary before position given that `prev` is the
preceding character (`none` at the start of the string)?  The following
character is assumed to be a word character. -/
def wordBoundaryBefore (prev : Option Char) : Bool :=
  match prev with
  | none => true
  | some c => !(jsWord c)

/-- Is there a JS word boundary after a word character when `next` follows
(`none` at the end of the string)? -/
def wordBoundaryAfter (next : Option Char) : Bool :=
  match next with
  | none => true
  | some c => !(jsWord c)

/-! ## Insertion-ordered maps (embedding JS `Map` / plain objects) -/

/-- JS `Map.get`. -/
def mapGet {α : Type} (m : List (String × α)) (k : String) : Option α :=
  (m.find? (fun p => p.1 = k)).map (·.2)

/-- JS `Map.has`. -/
def mapHas {α : Type} (m : List (String × α)) (k : String) : Bool :=
  (m.find? (fun p => p.1 = k)).isSome

/-- JS `Map.set`: overwrite in place, or append preserving insertion order. -/
def mapSet {α : Type} (m : List (String × α)) (k : String) (v : α) : List (String × α) :=
  match m with
  | [] => [(k, v)]
  | (k', v') :: rest =>
      if k' = k then (k, v) :: rest else (k', v') :: mapSet rest k v

/-- Keys in insertion order (JS `Object.keys` / `Map.keys`). -/
def mapKeys {α : Type} (m : List (String × α)) : List String := m.map (·.1)

/-! ## Data model of transpiler.ts (lines 7–47) -/

/-- transpiler.ts line 16: one declared/observed binding. -/
structure VarInfo where
  name : String
  declaredKind : String            -- "let" | "const"
  declaredType : Option String     -- `SimpleType`, `none` embeds TS `null`
  mutable : Bool
  inmutedAtLine : Option Nat := none
  declaredLine : Nat
  implicit : Bool := false
deriving DecidableEq

/-- transpiler.ts line 26: one declared function. -/
structure FuncParam where
  name : String
  type : Option String
deriving DecidableEq

/-- transpiler.ts line 26: `FuncInfo`. -/
structure FuncInfo where
  name : String
  params : List FuncParam
  declaredLine : Nat
  returnType : Option String := none
  returnTypeCol : Option Nat := none
deriving DecidableEq

/-- transpiler.ts line 34: `InterfaceInfo` (with the phase-0 extras of line 479). -/
structure InterfaceInfo where
  name : String
  fields : List (String × String)
  declaredLine : Nat
  optionalFields : List String
  requiredKeys : List String
deriving DecidableEq

/-- transpiler.ts line 43: a lexical scope (`parent` is implicit in the stack).
The TS field `variables` is called `vars` here (`variables` is a reserved
word in Lean). -/
structure Scope where
  vars : List (String × VarInfo)
  type : String                    -- "global" | "function" | "block" | "class"
deriving DecidableEq

/-- transpiler.ts line 9: the `CompileError` carrier. -/
structure CompileErr where
  file : String
  line : Nat
  column : Nat
  message : String
deriving DecidableEq

/-- The `Error.message` built by the `CompileError` constructor (transpiler.ts line 11):
`${file}:${line}:${column}  ${message}`. -/
def CompileErr.fullMessage (e : CompileErr) : String :=
  e.file ++ ":" ++ toString e.line ++ ":" ++ toString e.column ++ "  " ++ e.message

/-- A diagnostic `{ line, column, message }` (transpiler.ts line 464). -/
structure Diag where
  line : Nat
  column : Nat
  message : String
deriving DecidableEq

/-- The result object of `transpileSpark` (transpiler.ts line 462). -/
structure TranspileResult where
  code : String
  diagnostics : List Diag
deriving DecidableEq

/-! ## ScopeManager (transpiler.ts lines 49–121)

The scope stack is kept top-first; the bottom element is the global scope. -/

/-- `new ScopeManager()` (line 53). -/
def ScopeManager.init : List Scope := [⟨[], "global"⟩]

/-- `enterScope` (line 66). -/
def enterScope (stack : List Scope) (ty : String) : List Scope :=
  ⟨[], ty⟩ :: stack

/-- `exitScope` (line 72): pop unless only the global scope is left. -/
def exitScope (stack : List Scope) : List Scope :=
  match stack with
  | _ :: rest@(_ :: _) => rest
  | s => s

/-- `findVariable` (line 84): search the current scope then its parents. -/
def findVariable (stack : List Scope) (name : String) : Option VarInfo :=
  match stack with
  | [] => none
  | sc :: rest =>
      match mapGet sc.vars name with
      | some v => some v
      | none => findVariable rest name

/-- `hasInCurrentScope` (line 96). -/
def hasInCurrentScope (stack : List Scope) (name : String) : Bool :=
  match stack with
  | [] => false
  | sc :: _ => mapHas sc.vars name

/-- `addVariable` (line 101): insert into the current (top) scope. -/
def addVariable (stack : List Scope) (name : String) (info : VarInfo) : List Scope :=
  match stack with
  | [] => []
  | sc :: rest => { sc with vars := mapSet sc.vars name info } :: rest

/-- Mutate the nearest binding of `name` in place (embeds the TS idiom of
mutating the `VarInfo` object returned by `findVariable`). -/
def updateVariable (stack : List Scope) (name : String) (f : VarInfo → VarInfo) :
    List Scope :=
  match stack with
  | [] => []
  | sc :: rest =>
      if mapHas sc.vars name then
        { sc with vars :=
            match mapGet sc.vars name with
            | some v => mapSet sc.vars name (f v)
            | none => sc.vars } :: rest
      else sc :: updateVariable rest name f

/-- `getAllAccessibleVariables` (line 106): walk from the current scope outwards,
keeping the first (nearest) binding of each name. -/
def getAllAccessibleVariables (stack : List Scope) : List (String × VarInfo) :=
  go stack [] where
  go : List Scope → List (String × VarInfo) → List (String × VarInfo)
    | [], acc => acc
    | sc :: rest, acc =>
        go rest
          (sc.vars.foldl
            (fun a p => if mapHas a p.1 then a else mapSet a p.1 p.2) acc)

/-! ## Small helpers (transpiler.ts lines 125–153) -/

/-- `isStringLiteral` (line 125): trimmed text starts and ends with a matching
quote character (`"`, `'` or a backtick). -/
def isStringLiteral (s : Chars) : Bool :=
  let t := trimChars s
  match t.head?, t.getLast? with
  | some a, some b =>
      (a = '"' && b = '"') || (a = '\x27' && b = '\x27') || (a = '`' && b = '`')
  | _, _ => false

/-- `^-?\d+(\.\d+)?$` on the trimmed text (`isNumberLiteral`, line 131). -/
def isNumberLiteral (s : Chars) : Bool :=
  let t := trimChars s
  let t := match t with
    | '-' :: rest => rest
    | _ => t
  let intPart := t.takeWhile (fun c => digitChar c)
  let rest := t.dropWhile (fun c => digitChar c)
  decide (intPart.length > 0) &&
    (match rest with
     | [] => true
     | '.' :: frac => decide (frac.length > 0) && frac.all (fun c => digitChar c)
     | _ => false)

/-- `isMboolLiteral` (line 132). -/
def isMboolLiteral (s : Chars) : Bool :=
  let t := trimChars s
  t = "(Math.random() < 0.5)".data || t = "true".data || t = "false".data ||
    t = "maybe".data

/-- `extractArrayType` (line 138): `arr<T>` / legacy `arr[]` / anything else. -/
def extractArrayType (declaredType : String) : String × Option String :=
  let s := declaredType.data
  match dropLit "arr<".data s with
  | some inner =>
      -- `^arr<(.+)>$`: at least one character between the brackets, `>` last
      if inner.length ≥ 2 && inner.getLast? = some '>' then
        ("arr", some (String.mk (inner.dropLast)))
      else if s = "arr[]".data then ("arr", none)
      else (declaredType, none)
  | none =>
      if s = "arr[]".data then ("arr", none) else (declaredType, none)

/-- Test `\.toString\s*\(\s*\)\s*$` (accepted anywhere before the end). -/
def endsWithToStringCall (s : Chars) : Bool :=
  go s where
  go : Chars → Bool
    | [] => false
    | c :: rest =>
        (c = '.' &&
          (match dropLit "toString".data rest with
           | some r1 =>
               match wsSkip r1 with
               | '(' :: r2 =>
                   (match wsSkip r2 with
                    | ')' :: r3 => (wsSkip r3).isEmpty
                    | _ => false)
               | _ => false
           | none => false)) || go rest

/-- Test `\.toString\s*\(\s*\)` anywhere in the text. -/
def hasToStringCall (s : Chars) : Bool :=
  go s where
  go : Chars → Bool
    | [] => false
    | c :: rest =>
        (c = '.' &&
          (match dropLit "toString".data rest with
           | some r1 =>
               match wsSkip r1 with
               | '(' :: r2 =>
                   (match wsSkip r2 with
                    | ')' :: _ => true
                    | _ => false)
               | _ => false
           | none => false)) || go rest

/-- Test `/["'`]/`: any quote character occurs. -/
def hasQuoteChar (s : Chars) : Bool :=
  s.any (fun c => c = '"' || c = '\x27' || c = '`')

/-- Match `^new\s+([A-Za-z_$][\w$]*)` and return the class name. -/
def newClassName (s : Chars) : Option String :=
  match dropLit "new".data s with
  | some r =>
      match wsPlus r with
      | some r2 => (takeIdent r2).map (fun p => String.mk p.1)
      | none => none
  | none => none

/-- Test `^[A-Za-z_$][\w$]*\s*\(`. -/
def startsWithCall (s : Chars) : Bool :=
  match takeIdent s with
  | some (_, rest) =>
      match wsSkip rest with
      | '(' :: _ => true
      | _ => false
  | none => false

/-- Test `^[A-Za-z_$][\w$]*$`. -/
def isBareIdent (s : Chars) : Bool :=
  match takeIdent s with
  | some (_, rest) => rest.isEmpty
  | none => false

/-- `inferTypeFromExpr` (transpiler.ts line 156).  `vars` maps identifiers to
their `VarInfo`; `ifaces` is the interface table.  Returns `none` for TS `null`
("unknown").  The TS branch that looks interfaces up (line 196) returns
`varInfo.declaredType` on both of its paths, which the embedding keeps as a
single lookup. -/
def inferTypeFromExpr (expr : Chars) (vars : List (String × VarInfo))
    (ifaces : List (String × InterfaceInfo)) : Option String :=
  let _ := ifaces
  let s := trimChars expr
  if s.isEmpty then none
  else if isStringLiteral s then some "str"
  else if isNumberLiteral s then some "num"
  else if isMboolLiteral s then some "mbool"
  else if endsWithToStringCall s then some "str"
  else if s.contains '+' && (hasQuoteChar s || hasToStringCall s) then some "str"
  else if s.head? = some '[' then some "arr"
  else if s.head? = some '\x7b' then some "obj"
  else if startsWithLit "new ".data s then
    match newClassName s with
    | some cls => some cls
    | none => some "obj"
  else if startsWithCall s then none
  else if isBareIdent s then
    match mapGet vars (String.mk s) with
    | some v => v.declaredType
    | none => none
  else none

/-! ## Array-literal element inference (transpiler.ts lines 209–315) -/

/-- The element splitter of `inferArrayElementTypes` (lines 217–257): split the
bracket contents at commas that are outside strings/template literals and at
square-bracket depth 0 (curly braces are *not* tracked by the source). -/
def splitArrayElems (inner : Chars) : List Chars :=
  go inner 0 false ' ' false [] where
  go : Chars → Nat → Bool → Char → Bool → Chars → List Chars
    | [], _, _, _, _, cur =>
        if (trimChars cur.reverse).isEmpty then [] else [trimChars cur.reverse]
    | c :: rest, depth, inString, stringChar, inTemplate, cur =>
        if (c = '"' || c = '\x27') && !inString && !inTemplate then
          go rest depth true c inTemplate (c :: cur)
        else if inString && c = stringChar &&
            (cur.head?.getD ' ' ≠ '\\' || cur.isEmpty) then
          go rest depth false stringChar inTemplate (c :: cur)
        else if c = '`' && !inString && !inTemplate then
          go rest depth inString stringChar true (c :: cur)
        else if inTemplate && c = '`' && (cur.head?.getD ' ' ≠ '\\' || cur.isEmpty) then
          go rest depth inString stringChar false (c :: cur)
        else if c = '[' && !inString && !inTemplate then
          go rest (depth + 1) inString stringChar inTemplate (c :: cur)
        else if c = ']' && !inString && !inTemplate then
          go rest (depth - 1) inString stringChar inTemplate (c :: cur)
        else if c = ',' && depth = 0 && !inString && !inTemplate then
          trimChars cur.reverse :: go rest depth inString stringChar inTemplate []
        else
          go rest depth inString stringChar inTemplate (c :: cur)

/-- The per-element classifier of `inferArrayElementTypes` (lines 259–311). -/
def classifyArrayElem (e : Chars) (vars : List (String × VarInfo)) : Option String :=
  let t := trimChars e
  if (t.head? = some '"' && t.getLast? = some '"') ||
     (t.head? = some '\x27' && t.getLast? = some '\x27') ||
     (t.head? = some '`' && t.getLast? = some '`') then some "str"
  else if isNumberLiteral t then some "num"
  else if t = "true".data || t = "false".data then some "mbool"
  else if t = "maybe".data then some "mbool"
  else if isBareIdent t then
    match mapGet vars (String.mk t) with
    | some v => v.declaredType
    | none => none
  else if t.head? = some '\x7b' then some "obj"
  else if t.head? = some '[' then some "arr"
  else if startsWithLit "new ".data t then
    match newClassName t with
    | some cls => some cls
    | none => some "obj"
  else none

/-- `inferArrayElementTypes` (line 209). -/
def inferArrayElementTypes (expr : Chars) (vars : List (String × VarInfo)) :
    List (Option String) :=
  let s := trimChars expr
  if s.head? = some '[' then
    let inner := trimChars (s.drop 1).dropLast
    if inner.isEmpty then []
    else (splitArrayElems inner).map (fun e => classifyArrayElem e vars)
  else []

/-- `allElementsSameType` (line 372). -/
def allElementsSameType (elementTypes : List (Option String)) :
    Bool × Option String :=
  let knownTypes := elementTypes.filterMap id
  match knownTypes with
  | [] => (true, none)
  | t :: rest =>
      if rest.all (fun u => u = t) then (true, some t) else (false, none)

/-- `extractObjectContent` (line 318): inner text of the outermost braces
(with the source's fallbacks for unbalanced input). -/
def extractObjectContent (objLiteral : Chars) : Chars :=
  let t := trimChars objLiteral
  if t.head? ≠ some '\x7b' then t
  else
    match go t 0 false ' ' false [] with
    | some content => content
    | none =>
        if t.getLast? = some '\x7d' then trimChars ((t.drop 1).dropLast)
        else trimChars (t.drop 1)
where
  /-- Returns the content between the outermost braces, if the closing
  brace is found; accumulates characters after the first `{` in `acc`. -/
  go : Chars → Nat → Bool → Char → Bool → Chars → Option Chars
    | [], _, _, _, _, _ => none
    | c :: rest, depth, inString, stringChar, inTemplate, acc =>
        if (c = '"' || c = '\x27') && !inString && !inTemplate then
          go rest depth true c inTemplate (if depth > 0 then c :: acc else acc)
        else if inString && c = stringChar && (acc.head?.getD ' ' ≠ '\\' || depth = 0) then
          go rest depth false stringChar inTemplate (if depth > 0 then c :: acc else acc)
        else if c = '`' && !inString && !inTemplate then
          go rest depth inString stringChar true (if depth > 0 then c :: acc else acc)
        else if inTemplate && c = '`' then
          go rest depth inString stringChar false (if depth > 0 then c :: acc else acc)
        else if !inString && !inTemplate && c = '\x7b' then
          go rest (depth + 1) inString stringChar inTemplate
            (if depth > 0 then c :: acc else acc)
        else if !inString && !inTemplate && c = '\x7d' then
          if depth = 1 then some (trimChars acc.reverse)
          else go rest (depth - 1) inString stringChar inTemplate
            (if depth > 1 then c :: acc else acc)
        else
          go rest depth inString stringChar inTemplate
            (if depth > 0 then c :: acc else acc)

/-! ## `objectLiteralHasKeys` (transpiler.ts lines 389–459) -/

/-- The comma-splitting property scan of `objectLiteralHasKeys` (lines 402–444):
collect property names `name:` found at the start of top-level
comma-separated chunks. -/
def propChunks (content : Chars) : List Chars :=
  go content 0 0 false ' ' [] where
  go : Chars → Nat → Nat → Bool → Char → Chars → List Chars
    | [], _, _, _, _, cur =>
        if (trimChars cur.reverse).isEmpty then [] else [cur.reverse]
    | c :: rest, inObject, inArray, inString, stringChar, cur =>
        if (c = '"' || c = '\x27') && !inString then
          go rest inObject inArray true c (c :: cur)
        else if inString && c = stringChar && cur.head?.getD ' ' ≠ '\\' then
          go rest inObject inArray false stringChar (c :: cur)
        else if !inString && c = '\x7b' then
          go rest (inObject + 1) inArray inString stringChar (c :: cur)
        else if !inString && c = '\x7d' then
          go rest (inObject - 1) inArray inString stringChar (c :: cur)
        else if !inString && c = '[' then
          go rest inObject (inArray + 1) inString stringChar (c :: cur)
        else if !inString && c = ']' then
          go rest inObject (inArray - 1) inString stringChar (c :: cur)
        else if !inString && c = ',' && inObject = 0 && inArray = 0 then
          cur.reverse :: go rest inObject inArray inString stringChar []
        else
          go rest inObject inArray inString stringChar (c :: cur)

/-- `^\s*([A-Za-z_$][\w$]*)\s*:` on one property chunk (lines 426, 440). -/
def propHeadName (chunk : Chars) : Option String :=
  match takeIdent (wsSkip chunk) with
  | some (name, rest) =>
      match wsSkip rest with
      | ':' :: _ => some (String.mk name)
      | _ => none
  | none => none

/-- The global `([A-Za-z_$][\w$]*)\s*:` scan of lines 447–451: every identifier
directly followed by optional whitespace and a colon, scanning left to right
and resuming after each match. -/
def propRegexNames (content : Chars) : List String :=
  go content content.length where
  go : Chars → Nat → List String
    | _, 0 => []
    | [], _ => []
    | s@(_ :: rest), fuel + 1 =>
        match takeIdent s with
        | some (name, r) =>
            (match wsSkip r with
             | ':' :: r2 => String.mk name :: go r2 fuel
             | _ => go rest fuel)
        | none => go rest fuel

/-- `objectLiteralHasKeys` (line 389): do the found property names cover
all of `keys`? -/
def objectLiteralHasKeys (objLiteral : Chars) (keys : List String) : Bool :=
  let content :=
    let t := trimChars objLiteral
    if t.head? = some '\x7b' && t.getLast? = some '\x7d' then
      trimChars ((t.drop 1).dropLast)
    else t
  let found := (propChunks content).filterMap propHeadName ++ propRegexNames content
  keys.all (fun k => found.contains k)

/-! ## Helpers local to `transpileSpark` (transpiler.ts lines 724–1003) -/

/-- The chunk splitter of `parseObjectProps` (lines 727–744): split the brace
content at commas outside strings/templates and outside nested `{}`/`[]`. -/
def objPropChunks (content : Chars) : List Chars :=
  go content 0 0 false ' ' false [] where
  go : Chars → Int → Int → Bool → Char → Bool → Chars → List Chars
    | [], _, _, _, _, _, cur =>
        if (trimChars cur.reverse).isEmpty then [] else [cur.reverse]
    | c :: rest, dObj, dArr, inStr, strCh, inTpl, cur =>
        if !inStr && !inTpl && (c = '"' || c = '\x27') then
          go rest dObj dArr true c inTpl (c :: cur)
        else if inStr then
          let closing := c = strCh && cur.head?.getD ' ' ≠ '\\'
          go rest dObj dArr (!closing) strCh inTpl (c :: cur)
        else if !inStr && c = '`' then
          go rest dObj dArr inStr strCh (!inTpl) (c :: cur)
        else if !inStr && !inTpl && c = '\x7b' then
          go rest (dObj + 1) dArr inStr strCh inTpl (c :: cur)
        else if !inStr && !inTpl && c = '\x7d' then
          go rest (dObj - 1) dArr inStr strCh inTpl (c :: cur)
        else if !inStr && !inTpl && c = '[' then
          go rest dObj (dArr + 1) inStr strCh inTpl (c :: cur)
        else if !inStr && !inTpl && c = ']' then
          go rest dObj (dArr - 1) inStr strCh inTpl (c :: cur)
        else if !inStr && !inTpl && dObj = 0 && dArr = 0 && c = ',' then
          cur.reverse :: go rest dObj dArr inStr strCh inTpl []
        else
          go rest dObj dArr inStr strCh inTpl (c :: cur)

/-- `pushProp`’s regex `^\s*([A-Za-z_$][\w$]*)\s*:\s*([\s\S]+)$` (line 729). -/
def propKeyValue (chunk : Chars) : Option (String × String) :=
  match takeIdent (wsSkip chunk) with
  | some (key, rest) =>
      match wsSkip rest with
      | ':' :: value =>
          if value.isEmpty then none
          else some (String.mk key, String.mk (trimChars value))
      | _ => none
  | none => none

/-- `parseObjectProps` (line 724). -/
def parseObjectProps (objLiteral : Chars) : List (String × String) :=
  (objPropChunks (extractObjectContent objLiteral)).filterMap propKeyValue

/-- JS `expected.split('|').map(s => s.trim()).filter(Boolean)`. -/
def splitUnion (s : Chars) : List String :=
  ((splitOnChar '|' s).map (fun p => trimChars p)).filterMap
    (fun p => if p.isEmpty then none else some (String.mk p))

/-- Test `^arr<[^>]+>$` (matchesSimple, line 785). -/
def isArrGenericOpt (t : Chars) : Bool :=
  match dropLit "arr<".data t with
  | some inner =>
      inner.length ≥ 2 && inner.getLast? = some '>' &&
        (inner.dropLast).all (fun c => c ≠ '>')
  | none => false

/-- `resolveAlias` inside `matchesSimple` (line 762). -/
def resolveAlias (aliases : List (String × String)) (name : String) : List String :=
  let n := String.mk (trimChars name.data)
  match mapGet aliases n with
  | some rhs =>
      let r := trimChars rhs.data
      if r.isEmpty then [n]
      else if r.contains '|' then splitUnion r
      else [String.mk r]
  | none => [n]

/-- `checkOne` inside `matchesSimple` (line 772), with fuel against cyclic
aliases (on which the source itself would not terminate). -/
def checkOne (aliases : List (String × String)) (inferredEff : Option String)
    (stringValue : Option String) (isArrayLiteral : Bool) :
    Nat → String → Bool
  | 0, _ => false
  | fuel + 1, opt =>
      let expanded := resolveAlias aliases opt
      match expanded with
      | [] => false
      | [t] =>
          let tc := t.data
          if (tc.head? = some '"' && tc.getLast? = some '"') ||
             (tc.head? = some '\x27' && tc.getLast? = some '\x27') then
            stringValue = some (String.mk (tc.drop 1).dropLast)
          else if isArrGenericOpt tc then
            inferredEff = some "arr" || isArrayLiteral
          else if t = "arr" || t = "obj" || t = "str" || t = "num" || t = "mbool" then
            inferredEff = some t
          else
            inferredEff = some t || inferredEff = some "obj" || inferredEff = none
      | es =>
          es.any (fun e =>
            checkOne aliases inferredEff stringValue isArrayLiteral fuel e)

/-- `matchesSimple` (transpiler.ts line 748). -/
def matchesSimple (aliases : List (String × String)) (expected : String)
    (inferred : Option String) (rawExpr : String) : Bool :=
  let options := splitUnion expected.data
  let exprTrim := trimChars rawExpr.data
  let isArrayLiteral := exprTrim.head? = some '['
  let isStrLit :=
    (exprTrim.head? = some '"' && exprTrim.getLast? = some '"') ||
    (exprTrim.head? = some '\x27' && exprTrim.getLast? = some '\x27') ||
    (exprTrim.head? = some '`' && exprTrim.getLast? = some '`')
  let stringValue : Option String :=
    if isStrLit then some (String.mk (exprTrim.drop 1).dropLast) else none
  let looksLikeStringConcat :=
    exprTrim.contains '+' && (hasQuoteChar exprTrim || hasToStringCall exprTrim)
  let inferredEff := if looksLikeStringConcat then some "str" else inferred
  options.any (fun opt =>
    checkOne aliases inferredEff stringValue isArrayLiteral (aliases.length + 2) opt)

/-- `validateObjectFieldTypes` (transpiler.ts line 801). -/
def validateObjectFieldTypes (filePath : String) (aliases : List (String × String))
    (ifaces : List (String × InterfaceInfo)) (objLiteral : Chars)
    (iface : InterfaceInfo) (accessibleVars : List (String × VarInfo))
    (lineNo : Nat) (varName : String) : Except CompileErr Unit := do
  for p in parseObjectProps objLiteral do
    match mapGet iface.fields p.1 with
    | none => pure ()
    | some expected =>
        let inferred := inferTypeFromExpr p.2.data accessibleVars ifaces
        if !matchesSimple aliases expected inferred p.2 then
          throw ⟨filePath, lineNo, 1,
            "Interface type error: field " ++ sq ++ p.1 ++ sq ++ " of " ++
              sq ++ varName ++ sq ++ " expected " ++ expected⟩
  pure ()

/-- `splitTopLevel` (transpiler.ts line 814). -/
def splitTopLevel (expr : Chars) (sep : Char) : List Chars :=
  go expr 0 0 0 false ' ' false [] [] where
  go : Chars → Int → Int → Int → Bool → Char → Bool → Chars → List Chars →
      List Chars
    | [], _, _, _, _, _, _, cur, out =>
        (out.reverse ++ if (trimChars cur.reverse).isEmpty then []
          else [trimChars cur.reverse])
    | c :: rest, dP, dB, dC, inStr, strCh, inTpl, cur, out =>
        if !inStr && c = '`' then
          go rest dP dB dC inStr strCh (!inTpl) (c :: cur) out
        else if !inTpl && (c = '"' || c = '\x27') && !inStr then
          go rest dP dB dC true c inTpl (c :: cur) out
        else if !inTpl && (c = '"' || c = '\x27') && inStr && c = strCh &&
            cur.head?.getD ' ' ≠ '\\' then
          go rest dP dB dC false strCh inTpl (c :: cur) out
        else if inStr || inTpl then
          go rest dP dB dC inStr strCh inTpl (c :: cur) out
        else if c = '(' then go rest (dP + 1) dB dC inStr strCh inTpl (c :: cur) out
        else if c = ')' then go rest (dP - 1) dB dC inStr strCh inTpl (c :: cur) out
        else if c = '[' then go rest dP (dB + 1) dC inStr strCh inTpl (c :: cur) out
        else if c = ']' then go rest dP (dB - 1) dC inStr strCh inTpl (c :: cur) out
        else if c = '\x7b' then go rest dP dB (dC + 1) inStr strCh inTpl (c :: cur) out
        else if c = '\x7d' then go rest dP dB (dC - 1) inStr strCh inTpl (c :: cur) out
        else if dP = 0 && dB = 0 && dC = 0 && c = sep then
          go rest dP dB dC inStr strCh inTpl [] (trimChars cur.reverse :: out)
        else go rest dP dB dC inStr strCh inTpl (c :: cur) out

/-- The wrap test of `stripParens` (line 850): the trailing `)` matches the
leading `(` (the running balance never returns to 0 before the last index). -/
def parenWrapOk (s : Chars) : Bool :=
  go s 0 0 where
  go : Chars → Int → Nat → Bool
    | [], _, _ => true
    | c :: rest, bal, i =>
        let bal' := if c = '(' then bal + 1 else if c = ')' then bal - 1 else bal
        if bal' = 0 && i + 1 < s.length then false
        else go rest bal' (i + 1)

/-- `stripParens` (transpiler.ts line 846), with fuel (each round removes two
characters, so the length bounds the iteration). -/
def stripParensFuel : Nat → Chars → Chars
  | 0, s => s
  | fuel + 1, s =>
      if s.head? = some '(' && s.getLast? = some ')' then
        if parenWrapOk s then
          stripParensFuel fuel (trimChars ((s.drop 1).dropLast))
        else s
      else s

/-- `stripParens` applied to a trimmed input, as the source does. -/
def stripParens (expr : Chars) : Chars :=
  let s := trimChars expr
  stripParensFuel (s.length + 1) s

/-- `parseTopLevelTernary` (transpiler.ts line 858). -/
def parseTopLevelTernary (s : Chars) : Option (Chars × Chars × Chars) :=
  match go s none 0 0 0 false ' ' false none 0 with
  | some (qIdx, colonIdx) =>
      some (trimChars (s.take qIdx), trimChars ((s.drop (qIdx + 1)).take (colonIdx - qIdx - 1)),
        trimChars (s.drop (colonIdx + 1)))
  | none => none
where
  /-- Returns `(qIdx, colonIdx)` when both are found. -/
  go : Chars → Option Char → Int → Int → Int → Bool → Char → Bool →
      Option Nat → Nat → Option (Nat × Nat)
    | [], _, _, _, _, _, _, _, _, _ => none
    | c :: rest, prev, dP, dB, dC, inStr, strCh, inTpl, qIdx, i =>
        if !inStr && c = '`' then
          go rest (some c) dP dB dC inStr strCh (!inTpl) qIdx (i + 1)
        else if !inTpl && (c = '"' || c = '\x27') && !inStr then
          go rest (some c) dP dB dC true c inTpl qIdx (i + 1)
        else if !inTpl && (c = '"' || c = '\x27') && inStr && c = strCh &&
            prev.getD ' ' ≠ '\\' then
          go rest (some c) dP dB dC false strCh inTpl qIdx (i + 1)
        else if inStr || inTpl then
          go rest (some c) dP dB dC inStr strCh inTpl qIdx (i + 1)
        else if c = '(' then go rest (some c) (dP + 1) dB dC inStr strCh inTpl qIdx (i + 1)
        else if c = ')' then go rest (some c) (dP - 1) dB dC inStr strCh inTpl qIdx (i + 1)
        else if c = '[' then go rest (some c) dP (dB + 1) dC inStr strCh inTpl qIdx (i + 1)
        else if c = ']' then go rest (some c) dP (dB - 1) dC inStr strCh inTpl qIdx (i + 1)
        else if c = '\x7b' then go rest (some c) dP dB (dC + 1) inStr strCh inTpl qIdx (i + 1)
        else if c = '\x7d' then go rest (some c) dP dB (dC - 1) inStr strCh inTpl qIdx (i + 1)
        else if dP = 0 && dB = 0 && dC = 0 then
          if c = '?' && qIdx = none then
            let next := rest.head?
            if next = some '.' || next = some '?' || prev = some '?' then
              go rest (some c) dP dB dC inStr strCh inTpl qIdx (i + 1)
            else
              go rest (some c) dP dB dC inStr strCh inTpl (some i) (i + 1)
          else if c = ':' && qIdx.isSome then
            match qIdx with
            | some q => some (q, i)
            | none => none
          else go rest (some c) dP dB dC inStr strCh inTpl qIdx (i + 1)
        else go rest (some c) dP dB dC inStr strCh inTpl qIdx (i + 1)

/-- The `isTopLevelBool` scanner of `analyzeExprType` (lines 919–952). -/
def isTopLevelBool (s : Chars) : Bool :=
  go s none 0 0 0 false ' ' false where
  go : Chars → Option Char → Int → Int → Int → Bool → Char → Bool → Bool
    | [], _, _, _, _, _, _, _ => false
    | c :: rest, _, dP, dB, dC, inStr, strCh, inTpl =>
        if !inStr && c = '`' then go rest (some c) dP dB dC inStr strCh (!inTpl)
        else if !inTpl && (c = '"' || c = '\x27') && !inStr then
          go rest (some c) dP dB dC true c inTpl
        else if !inTpl && (c = '"' || c = '\x27') && inStr && c = strCh then
          go rest (some c) dP dB dC false strCh inTpl
        else if inStr || inTpl then go rest (some c) dP dB dC inStr strCh inTpl
        else if c = '(' then go rest (some c) (dP + 1) dB dC inStr strCh inTpl
        else if c = ')' then go rest (some c) (dP - 1) dB dC inStr strCh inTpl
        else if c = '[' then go rest (some c) dP (dB + 1) dC inStr strCh inTpl
        else if c = ']' then go rest (some c) dP (dB - 1) dC inStr strCh inTpl
        else if c = '\x7b' then go rest (some c) dP dB (dC + 1) inStr strCh inTpl
        else if c = '\x7d' then go rest (some c) dP dB (dC - 1) inStr strCh inTpl
        else if dP = 0 && dB = 0 && dC = 0 then
          let two := [c] ++ rest.take 1
          let three := [c] ++ rest.take 2
          if three = "===".data || three = "!==".data || two = "==".data ||
             two = "!=".data || two = ">=".data || two = "<=".data ||
             c = '<' || c = '>' then true
          else if c = '!' then true
          else go rest (some c) dP dB dC inStr strCh inTpl
        else go rest (some c) dP dB dC inStr strCh inTpl

/-- Test `^Math\.[A-Za-z_$][\w$]*\s*\(`. -/
def isMathCall (s : Chars) : Bool :=
  match dropLit "Math.".data s with
  | some r => startsWithCall r
  | none => false

/-- Test `^name\s*\(` for a literal `name`. -/
def startsCallOf (name : String) (s : Chars) : Bool :=
  match dropLit name.data s with
  | some r => (wsSkip r).head? = some '('
  | none => false

/-- Test `\.join\s*\(\s*\)` anywhere (line 996). -/
def hasJoinCall (s : Chars) : Bool :=
  go s where
  go : Chars → Bool
    | [] => false
    | c :: rest =>
        (c = '.' &&
          (match dropLit "join".data rest with
           | some r1 =>
               match wsSkip r1 with
               | '(' :: r2 => (wsSkip r2).head? = some ')'
               | _ => false
           | none => false)) || go rest

/-- Test `\.includes\s*\(` anywhere (line 997). -/
def hasIncludesCall (s : Chars) : Bool :=
  go s where
  go : Chars → Bool
    | [] => false
    | c :: rest =>
        (c = '.' &&
          (match dropLit "includes".data rest with
           | some r1 => (wsSkip r1).head? = some '('
           | none => false)) || go rest

/-- `analyzeExprType` (transpiler.ts line 900), with fuel: every recursive call
of the source is on a strictly shorter expression (a ternary branch or a
`+`-operand), so `expr.length + 1` fuel reproduces the source exactly.
The member-call branch (lines 983–993) consults `classMethods`, which the
source never populates (its only `set` site does not exist), so that branch
never produces a type and is embedded as a no-op. -/
def analyzeExprTypeFuel (funcs : List (String × FuncInfo))
    (accessibleVars : List (String × VarInfo))
    (ifaces : List (String × InterfaceInfo)) : Nat → Chars → Option String
  | 0, _ => none
  | fuel + 1, expr =>
      let s0 := stripParens expr
      if s0.isEmpty then none
      else if s0 = "maybe".data || s0 = "true".data || s0 = "false".data then
        some "mbool"
      else
        match parseTopLevelTernary s0 with
        | some (_, whenTrue, whenFalse) =>
            let tA := analyzeExprTypeFuel funcs accessibleVars ifaces fuel whenTrue
            let tB := analyzeExprTypeFuel funcs accessibleVars ifaces fuel whenFalse
            (match tA, tB with
             | some a, some b =>
                 if a = b then some a
                 else if a = "str" || b = "str" then some "str"
                 else if a = "arr" || b = "arr" then some "arr"
                 else some a
             | some a, none => some a
             | none, some b => some b
             | none, none => none)
        | none =>
            if isTopLevelBool s0 then some "mbool"
            else
              match inferTypeFromExpr s0 accessibleVars ifaces with
              | some t => some t
              | none =>
                  if startsCallOf "parseFloat" s0 then some "num"
                  else if startsCallOf "parseInt" s0 then some "num"
                  else if startsCallOf "Number" s0 then some "num"
                  else if startsCallOf "String" s0 then some "str"
                  else if startsCallOf "Boolean" s0 then some "mbool"
                  else if startsCallOf "JSON.stringify" s0 then some "str"
                  else if startsCallOf "Array.isArray" s0 then some "mbool"
                  else if isMathCall s0 then some "num"
                  else
                    let plusRes : Option String :=
                      if s0.contains '+' then
                        let parts := splitTopLevel s0 '+'
                        if parts.length > 1 then
                          if parts.any (fun p =>
                              analyzeExprTypeFuel funcs accessibleVars ifaces fuel p
                                = some "str") then
                            some "str"
                          else if hasQuoteChar s0 || hasToStringCall s0 then some "str"
                          else none
                        else none
                      else none
                    match plusRes with
                    | some t => some t
                    | none =>
                        match takeIdent s0 with
                        | some (fname, r) =>
                            if (wsSkip r).head? = some '(' then
                              match mapGet funcs (String.mk fname) with
                              | some fmeta => fmeta.returnType
                              | none => none
                            else
                              -- member-call branch: `classMethods` is always
                              -- empty in the source, so it yields nothing
                              if endsWithToStringCall s0 then some "str"
                              else if hasJoinCall s0 then some "str"
                              else if hasIncludesCall s0 then some "mbool"
                              else if isBareIdent s0 then
                                match mapGet accessibleVars (String.mk s0) with
                                | some v => v.declaredType
                                | none => none
                              else none
                        | none =>
                            if endsWithToStringCall s0 then some "str"
                            else if hasJoinCall s0 then some "str"
                            else if hasIncludesCall s0 then some "mbool"
                            else none

/-- `analyzeExprType` at adequate fuel. -/
def analyzeExprType (funcs : List (String × FuncInfo))
    (accessibleVars : List (String × VarInfo))
    (ifaces : List (String × InterfaceInfo)) (expr : Chars) : Option String :=
  analyzeExprTypeFuel funcs accessibleVars ifaces (expr.length + 1) expr

/-! ## `cleanExpr` (transpiler.ts lines 1231–1254) -/

/-- The line-comment strip `s.replace(/\/\/.*$/, "")`: remove from the first
`//` that is followed by no newline up to the end of the string. -/
def stripLineCommentAtEnd (s : Chars) : Chars :=
  go s where
  go : Chars → Chars
    | [] => []
    | c :: rest =>
        if c = '/' && rest.head? = some '/' && (c :: rest).all (fun d => d ≠ '\n') then
          []
        else c :: go rest

/-- Signed bracket balance (the `bal` helper of line 1240). -/
def balanceOf (o c : Char) (s : Chars) : Int :=
  s.foldl (fun b ch => if ch = o then b + 1 else if ch = c then b - 1 else b) 0

/-- one `s.replace(/\s*\}\s*$/, '').trim()` step for a closing character. -/
def dropTrailingCloser (cl : Char) (s : Chars) : Chars :=
  let r := s.reverse.dropWhile (fun c => jsWs c)
  match r with
  | c :: rest => if c = cl then trimChars rest.reverse else s
  | [] => s

/-- The trailing-closer loops of `cleanExpr` (lines 1249–1250), with fuel
(the source loops forever when the balance is negative but no trailing
closer exists; the fuel bounds that case). -/
def dropUnmatchedClosers (o cl : Char) : Nat → Chars → Chars
  | 0, s => s
  | fuel + 1, s =>
      if balanceOf o cl s < 0 then
        let s' := dropTrailingCloser cl s
        if s' = s then s else dropUnmatchedClosers o cl fuel s'
      else s

/-- `cleanExpr` (transpiler.ts line 1231). -/
def cleanExpr (expr : Chars) : Chars :=
  let s := trimChars (stripLineCommentAtEnd expr)
  let s := match idxOfChar ';' s with
    | some i => s.take i
    | none => s
  let s := dropUnmatchedClosers '\x7b' '\x7d' (s.length + 1) s
  let s := dropUnmatchedClosers '(' ')' (s.length + 1) s
  trimChars (s.reverse.dropWhile (fun c => c = ';')).reverse

/-! ## Phase 0: interface extraction (transpiler.ts lines 478–547) -/

/-- `reservedTypeNames` (line 482). -/
def reservedTypeNames : List String :=
  ["func", "function", "class", "mut", "inmut", "return", "if", "else", "for",
   "while", "try", "catch", "finally", "switch", "let", "const", "var", "new",
   "throw", "import", "export", "default", "extends", "implements",
   "constructor", "async", "await", "interface", "type"]

/-- `builtinTypes` (line 485). -/
def builtinTypes : List String := ["str", "num", "mbool", "arr", "obj", "void"]

/-- One match of `ifaceKeywordRx` = `interface\s+([A-Za-z_$][\w$]*)\s*\{`
(line 487): try to match at the head; return the name and the number of
characters consumed (up to and including the `{`). -/
def ifaceHeaderAt (s : Chars) : Option (String × Nat) :=
  match dropLit "interface".data s with
  | some r0 =>
      match wsPlus r0 with
      | some r1 =>
          match takeIdent r1 with
          | some (name, r2) =>
              match wsSkip r2 with
              | '\x7b' :: _ =>
                  some (String.mk name, s.length - (wsSkip r2).length + 1)
              | _ => none
          | none => none
      | none => none
  | none => none

/-- Brace-depth matching from the first `{` (lines 498–506): index (relative
to `s`, where `s.head = '{'`) of the matching `}` or `none`. -/
def matchBraceEnd (s : Chars) : Option Nat :=
  go s 0 0 where
  go : Chars → Int → Nat → Option Nat
    | [], _, _ => none
    | c :: rest, depth, i =>
        if c = '\x7b' then go rest (depth + 1) (i + 1)
        else if c = '\x7d' then
          if depth = 1 then some i else go rest (depth - 1) (i + 1)
        else go rest depth (i + 1)

/-- `fieldRx` = `([A-Za-z_$][\w$]*)(\?)?\s*::\s*([^;]+);?` scanned globally
over an interface body (lines 517–527): returns `(name, optional?, rawType)`
triples in match order. -/
def fieldScan (body : Chars) : List (String × Bool × String) :=
  go body body.length where
  go : Chars → Nat → List (String × Bool × String)
    | _, 0 => []
    | [], _ => []
    | s@(_ :: rest), fuel + 1 =>
        match takeIdent s with
        | some (name, r0) =>
            let (isOpt, r1) := match r0 with
              | '?' :: r => (true, r)
              | _ => (false, r0)
            (match dropLit "::".data (wsSkip r1) with
             | some r2 =>
                 let r3 := wsSkip r2
                 let raw := r3.takeWhile (fun c => c ≠ ';')
                 let after := r3.dropWhile (fun c => c ≠ ';')
                 if raw.isEmpty then go rest fuel
                 else
                   let after' := match after with
                     | ';' :: t => t
                     | t => t
                   (String.mk name, isOpt, String.mk (trimChars raw)) ::
                     go after' fuel
             | none => go rest fuel)
        | none => go rest fuel

/-- The fallback `optScan` = `([A-Za-z_$][\w$]*)\?\s*::` (line 530). -/
def optScan (body : Chars) : List String :=
  go body body.length where
  go : Chars → Nat → List String
    | _, 0 => []
    | [], _ => []
    | s@(_ :: rest), fuel + 1 =>
        match takeIdent s with
        | some (name, r0) =>
            (match r0 with
             | '?' :: r1 =>
                 (match dropLit "::".data (wsSkip r1) with
                  | some r2 => String.mk name :: go r2 fuel
                  | none => go rest fuel)
             | _ => go rest fuel)
        | none => go rest fuel

/-- Build one `InterfaceInfo` from a header match (lines 513–538). -/
def buildIface (work : Chars) (start : Nat) (headerLen : Nat) (endIdx : Nat)
    (name : String) : InterfaceInfo :=
  let body := (work.drop (start + headerLen)).take (endIdx - (start + headerLen))
  let fieldTriples := fieldScan body
  let fields := fieldTriples.foldl
    (fun acc t =>
      let raw := t.2.2
      let raw' := if raw.data.length ≥ 2 && raw.data.getLast? = some ']' &&
          (raw.data.dropLast).getLast? = some '[' then "arr" else raw
      mapSet acc t.1 raw') []
  let opts := (fieldTriples.filterMap (fun t => if t.2.1 then some t.1 else none))
      ++ optScan body
  let optionalFields := opts.foldl (fun acc n => if acc.contains n then acc else acc ++ [n]) []
  let declaredLine := lineOfPrefix (work.take start)
  let requiredKeys := (mapKeys fields).filter (fun k => !optionalFields.contains k)
  ⟨name, fields, declaredLine, optionalFields, requiredKeys⟩

/-- The `ifaceKeywordRx` driver loop (lines 492–540): successive matches of the
header pattern; for each, match braces and either record the interface and its
block or raise the hard `CompileError` of line 510. -/
def interfaceLoop (filePath : String) (work : Chars) :
    Nat → Nat → List (String × InterfaceInfo) → List (Nat × Nat) →
    Except CompileErr (List (String × InterfaceInfo) × List (Nat × Nat))
  | 0, _, ifaces, blocks => .ok (ifaces, blocks)
  | fuel + 1, pos, ifaces, blocks =>
      if pos ≥ work.length then .ok (ifaces, blocks)
      else
        match ifaceHeaderAt (work.drop pos) with
        | some (name, headerLen) =>
            (match matchBraceEnd (work.drop (pos + headerLen - 1)) with
             | some rel =>
                 let endIdx := pos + headerLen - 1 + rel
                 let info := buildIface work pos headerLen endIdx name
                 interfaceLoop filePath work fuel (pos + headerLen)
                   (mapSet ifaces name info) (blocks ++ [(pos, endIdx + 1)])
             | none =>
                 .error ⟨filePath, lineOfPrefix (work.take pos), 1,
                   "Malformed interface " ++ sq ++ name ++ sq ++ ", missing " ++
                     sq ++ cb ++ sq⟩)
        | none => interfaceLoop filePath work fuel (pos + 1) ifaces blocks

/-- Phase-0 interface extraction (lines 478–547): the interface table and the
working copy with all interface blocks excised. -/
def extractInterfaces (filePath : String) (work : Chars) :
    Except CompileErr (List (String × InterfaceInfo) × Chars) := do
  let (ifaces, blocks) ← interfaceLoop filePath work (work.length + 1) 0 [] []
  let cleaned := blocks.reverse.foldl
    (fun (acc : Chars) (b : Nat × Nat) => acc.take b.1 ++ acc.drop b.2) work
  return (ifaces, cleaned)

/-- `typeRx` = `\btype\s+([A-Za-z_$][\w$]*)\s*=\s*([^;\n]+)\s*;?` scanned
globally over the source (lines 549–562), with the reserved/builtin/interface
hard errors. -/
def extractTypeAliases (filePath : String) (src : Chars)
    (ifaces : List (String × InterfaceInfo)) :
    Except CompileErr (List (String × String)) :=
  go src none 0 (src.length + 1) [] where
  go : Chars → Option Char → Nat → Nat → List (String × String) →
      Except CompileErr (List (String × String))
    | _, _, _, 0, acc => .ok acc
    | [], _, _, _, acc => .ok acc
    | s@(c :: rest), prev, pos, fuel + 1, acc =>
        if wordBoundaryBefore prev && startsWithLit "type".data s then
          match wsPlus (s.drop 4) with
          | some r1 =>
              (match takeIdent r1 with
               | some (name, r2) =>
                   (match wsSkip r2 with
                    | '=' :: r3 =>
                        let r4 := wsSkip r3
                        let rhsRaw := r4.takeWhile (fun d => d ≠ ';' && d ≠ '\n')
                        if rhsRaw.isEmpty then go rest (some c) (pos + 1) fuel acc
                        else
                          let nameS := String.mk name
                          let declLine := lineOfPrefix (src.take pos)
                          if reservedTypeNames.contains nameS ||
                              builtinTypes.contains nameS then
                            .error ⟨filePath, declLine, 1,
                              "Invalid type alias name " ++ sq ++ nameS ++ sq ++
                                ": reserved"⟩
                          else if mapHas ifaces nameS then
                            .error ⟨filePath, declLine, 1,
                              "Invalid type alias " ++ sq ++ nameS ++ sq ++
                                ": conflicts with interface"⟩
                          else
                            let consumed := s.length - r4.length + rhsRaw.length
                            go (s.drop consumed) (some ' ') (pos + consumed) fuel
                              (mapSet acc nameS (String.mk (trimChars rhsRaw)))
                    | _ => go rest (some c) (pos + 1) fuel acc)
               | none => go rest (some c) (pos + 1) fuel acc)
          | none => go rest (some c) (pos + 1) fuel acc
        else go rest (some c) (pos + 1) fuel acc

/-! ## Phase 1: per-line preprocessing (transpiler.ts lines 567–641) -/

/-- `/^(\.|\/|[A-Za-z]:\\)/` (the already-relative-or-absolute test used by
all the import rewrites, e.g. line 580). -/
def specIsRel (p : Chars) : Bool :=
  match p with
  | '.' :: _ => true
  | '/' :: _ => true
  | a :: ':' :: '\\' :: _ =>
      ('a' ≤ a && a ≤ 'z') || ('A' ≤ a && a ≤ 'Z')
  | _ => false

/-- `(/^(\.|\/|[A-Za-z]:\\)/.test(p) ? p : './' + p) + '.js'`. -/
def specOf (p : Chars) : Chars :=
  (if specIsRel p then p else "./".data ++ p) ++ ".js".data

/-- Find the lazy group of `(.+?)\.ds` followed by the closing quote `q`:
the shortest non-empty newline-free prefix `p` followed by `.ds` and `q`.
Returns `(p, rest-after-closing-quote)`. -/
def findDsSpec (q : Char) (s : Chars) : Option (Chars × Chars) :=
  go s [] where
  go : Chars → Chars → Option (Chars × Chars)
    | [], _ => none
    | c :: rest, acc =>
        if c = '\n' then none
        else
          -- `.+?` needs at least one captured character before `.ds`
          if !acc.isEmpty then
            match dropLit ".ds".data (c :: rest) with
            | some (q' :: r2) =>
                if q' = q then some (acc.reverse, r2) else go rest (c :: acc)
            | _ => go rest (c :: acc)
          else go rest (c :: acc)

/-- `L.replace(/from\s+(['"])(.+?)\.ds\1/g, ...)` (line 579). -/
def rewriteFromDs (s : Chars) : Chars :=
  go s s.length where
  go : Chars → Nat → Chars
    | s, 0 => s
    | [], _ => []
    | s@(c :: rest), fuel + 1 =>
        match dropLit "from".data s with
        | some r0 =>
            (match wsPlus r0 with
             | some (q :: r1) =>
                 if (q = '"' || q = '\x27') then
                   match findDsSpec q r1 with
                   | some (p, r2) => "from ".data ++ q :: specOf p ++ q :: go r2 fuel
                   | none => c :: go rest fuel
                 else c :: go rest fuel
             | _ => c :: go rest fuel)
        | none => c :: go rest fuel

/-- `L.replace(/\bexport\s+[^;]*?\sfrom\s+(['"])(.+?)\.ds\1/g, ...)` (line 583).
The replacement is `_m.replace(p + '.ds', spec)`, i.e. the matched text with
the specifier (its first occurrence) swapped for the `.js` form. -/
def rewriteExportFromDs (s : Chars) : Chars :=
  go s none s.length where
  /-- Scan for `\sfrom\s+<q><p>.ds<q>` crossing no `;`; return the matched
  text with the specifier already rewritten, and the rest of the input. -/
  findFrom : Chars → Nat → Option (Chars × Chars)
    | [], _ => none
    | _, 0 => none
    | c :: rest, fuel + 1 =>
        if c = ';' then none
        else
          let tryHere : Option (Chars × Chars) :=
            if jsWs c && startsWithLit "from".data rest then
              let r0 := rest.drop 4
              let ws2 := r0.takeWhile (fun d => jsWs d)
              if ws2.isEmpty then none
              else
                match r0.drop ws2.length with
                | q :: r1 =>
                    if q = '"' || q = '\x27' then
                      match findDsSpec q r1 with
                      | some (p, r2) =>
                          some (c :: "from".data ++ ws2 ++ q :: specOf p ++ [q], r2)
                      | none => none
                    else none
                | [] => none
            else none
          match tryHere with
          | some pr => some pr
          | none => (findFrom rest fuel).map (fun pr => (c :: pr.1, pr.2))
  go : Chars → Option Char → Nat → Chars
    | s, _, 0 => s
    | [], _, _ => []
    | s@(c :: rest), prev, fuel + 1 =>
        if wordBoundaryBefore prev && startsWithLit "export".data s then
          match wsPlus (s.drop 6) with
          | some r0 =>
              let wsPart := (s.drop 6).take ((s.drop 6).length - r0.length)
              (match findFrom r0 (r0.length + 1) with
               | some (mid, r2) =>
                   "export".data ++ wsPart ++ mid ++ go r2 (some '\x27') fuel
               | none => c :: go rest (some c) fuel)
          | none => c :: go rest (some c) fuel
        else c :: go rest (some c) fuel

/-- `L.replace(/\bimport\s*\(\s*(['"])(.+?)\.ds\1\s*\)/g, ...)` (line 588). -/
def rewriteImportCallDs (s : Chars) : Chars :=
  go s none s.length where
  go : Chars → Option Char → Nat → Chars
    | s, _, 0 => s
    | [], _, _ => []
    | s@(c :: rest), prev, fuel + 1 =>
        let tryHere : Option Chars := do
          if !(wordBoundaryBefore prev && startsWithLit "import".data s) then none
          else
            match wsSkip (s.drop 6) with
            | '(' :: r0 =>
                (match wsSkip r0 with
                 | q :: r1 =>
                     if q = '"' || q = '\x27' then
                       match findDsSpec q r1 with
                       | some (p, r2) =>
                           (match wsSkip r2 with
                            | ')' :: r3 =>
                                some ("import(".data ++ q :: specOf p ++ q :: ')' ::
                                  go r3 (some ')') fuel)
                            | _ => none)
                       | none => none
                     else none
                 | [] => none)
            | _ => none
        match tryHere with
        | some out => out
        | none => c :: go rest (some c) fuel

/-- `L.replace(/\bimport\s+(['"])(.+?)\.ds\1/g, ...)` (line 592). -/
def rewriteImportBareDs (s : Chars) : Chars :=
  go s none s.length where
  go : Chars → Option Char → Nat → Chars
    | s, _, 0 => s
    | [], _, _ => []
    | s@(c :: rest), prev, fuel + 1 =>
        let tryHere : Option Chars :=
          if !(wordBoundaryBefore prev && startsWithLit "import".data s) then none
          else
            match wsPlus (s.drop 6) with
            | some (q :: r1) =>
                if q = '"' || q = '\x27' then
                  match findDsSpec q r1 with
                  | some (p, r2) =>
                      some ("import ".data ++ q :: specOf p ++ q ::
                        go r2 (some q) fuel)
                  | none => none
                else none
            | _ => none
        match tryHere with
        | some out => out
        | none => c :: go rest (some c) fuel

/-- `[A-Za-z_$<>\[\]]`, the character class of type annotations in the
`::`-stripping regexes (e.g. line 603). -/
def typeAnnChar (c : Char) : Bool :=
  identStart c || c = '<' || c = '>' || c = '[' || c = ']'

/-- `L.replace(/([A-Za-z_$][\w$]*)::([A-Za-z_$<>\[\]]+)/g, "$1")` (line 603):
strip `ident::Type` down to `ident`. -/
def stripInlineTypes (s : Chars) : Chars :=
  go s s.length where
  go : Chars → Nat → Chars
    | s, 0 => s
    | [], _ => []
    | s@(c :: rest), fuel + 1 =>
        match takeIdent s with
        | some (name, r0) =>
            (match dropLit "::".data r0 with
             | some r1 =>
                 let run := r1.takeWhile (fun d => typeAnnChar d)
                 if run.isEmpty then c :: go rest fuel
                 else name ++ go (r1.drop run.length) fuel
             | none => c :: go rest fuel)
        | none => c :: go rest fuel

/-- `L.replace(/\bmaybe\b/g, "(Math.random() < 0.5)")` (line 606). -/
def expandMaybe (s : Chars) : Chars :=
  go s none s.length where
  go : Chars → Option Char → Nat → Chars
    | s, _, 0 => s
    | [], _, _ => []
    | s@(c :: rest), prev, fuel + 1 =>
        if wordBoundaryBefore prev && startsWithLit "maybe".data s &&
            wordBoundaryAfter (s.drop 5).head? then
          "(Math.random() < 0.5)".data ++ go (s.drop 5) (some 'e') fuel
        else c :: go rest (some c) fuel

/-- Shared piece of the `func` rewrites: consume `ident\s*\(([^)]*)\)` and
return `(name, params, rest-after-close-paren)`. -/
def identParens (s : Chars) : Option (Chars × Chars × Chars) :=
  match takeIdent s with
  | some (name, r0) =>
      (match wsSkip r0 with
       | '(' :: r1 =>
           let params := r1.takeWhile (fun d => d ≠ ')')
           (match r1.drop params.length with
            | ')' :: r2 => some (name, params, r2)
            | _ => none)
       | _ => none)
  | none => none

/-- The tail `\s*::\s*([^{}]+?)\s*\{` of the same-line `func` return-type
rewrite (line 610): after the close paren, `::` followed by at least one
character before the line's first `{`, with no `}` in between.  Returns the
rest after the `{` on success. -/
def retTailToBrace (r : Chars) : Option Chars :=
  match dropLit "::".data (wsSkip r) with
  | some r1 =>
      let gap := r1.takeWhile (fun d => d ≠ '\x7b')
      if gap.isEmpty then none
      else if gap.any (fun d => d = '\x7d') then none
      else
        match r1.drop gap.length with
        | '\x7b' :: r2 => some r2
        | _ => none
  | none => none

/-- `L.replace(/\bfunc\s+(id)\s*\(([^)]*)\)\s*::\s*([^{}]+?)\s*\{/g,
"function $1($2){")` (line 610); with `asyncKw := true` the `async` variant
of line 611 (matching `\basync\s+func\s+...` and emitting `async function`). -/
def rewriteFuncRetSameLine (asyncKw : Bool) (s : Chars) : Chars :=
  go s none s.length where
  go : Chars → Option Char → Nat → Chars
    | s, _, 0 => s
    | [], _, _ => []
    | s@(c :: rest), prev, fuel + 1 =>
        let tryHere : Option Chars :=
          if !wordBoundaryBefore prev then none
          else
            let afterKw : Option Chars :=
              if asyncKw then
                match dropLit "async".data s with
                | some r => (wsPlus r).bind (fun r1 =>
                    (dropLit "func".data r1).bind (fun r2 => wsPlus r2))
                | none => none
              else
                (dropLit "func".data s).bind (fun r => wsPlus r)
            match afterKw with
            | some r0 =>
                (match identParens r0 with
                 | some (name, params, r2) =>
                     (match retTailToBrace r2 with
                      | some r3 =>
                          some ((if asyncKw then "async function ".data
                              else "function ".data) ++ name ++ '(' :: params ++
                            ')' :: '\x7b' :: go r3 (some '\x7b') fuel)
                      | none => none)
                 | none => none)
            | none => none
        match tryHere with
        | some out => out
        | none => c :: go rest (some c) fuel

/-- The tail `\s*::\s*([^{}\n]+)\s*(?:([\/]{2}.*))?$` of the next-line-brace
`func` rewrites (lines 614–615).  The greedy `[^{}\n]+` also swallows any
line comment, so the comment group never captures; the tail matches iff the
text after `::` is non-empty and free of braces. -/
def retTailToEol (r : Chars) : Bool :=
  match dropLit "::".data (wsSkip r) with
  | some r1 =>
      !r1.isEmpty && r1.all (fun d => d ≠ '\x7b' && d ≠ '\x7d')
  | none => false

/-- Lines 614–615: the anchored next-line-brace `func` header rewrites,
`^\s*(async\s+)?func\s+(id)\s*\(([^)]*)\)\s*::\s*([^{}\n]+)...$` becoming
`(async )function id(params)` (the match covers the whole line, so the
leading whitespace and return type are dropped). -/
def rewriteFuncRetNextLine (asyncKw : Bool) (s : Chars) : Chars :=
  let body := wsSkip s
  let afterKw : Option Chars :=
    if asyncKw then
      match dropLit "async".data body with
      | some r => (wsPlus r).bind (fun r1 =>
          (dropLit "func".data r1).bind (fun r2 => wsPlus r2))
      | none => none
    else (dropLit "func".data body).bind (fun r => wsPlus r)
  match afterKw with
  | some r0 =>
      (match identParens r0 with
       | some (name, params, r2) =>
           if retTailToEol r2 then
             (if asyncKw then "async function ".data else "function ".data) ++
               name ++ '(' :: params ++ [')']
           else s
       | none => s)
  | none => s

/-- `L.replace(/\bfunc\s+([A-Za-z_$][\w$]*)\s*\(/g, "function $1(")`
(line 617). -/
def rewriteGenericFunc (s : Chars) : Chars :=
  go s none s.length where
  go : Chars → Option Char → Nat → Chars
    | s, _, 0 => s
    | [], _, _ => []
    | s@(c :: rest), prev, fuel + 1 =>
        let tryHere : Option Chars :=
          if !wordBoundaryBefore prev then none
          else
            match (dropLit "func".data s).bind (fun r => wsPlus r) with
            | some r0 =>
                (match takeIdent r0 with
                 | some (name, r1) =>
                     (match wsSkip r1 with
                      | '(' :: r2 =>
                          some ("function ".data ++ name ++ '(' ::
                            go r2 (some '(') fuel)
                      | _ => none)
                 | none => none)
            | none => none
        match tryHere with
        | some out => out
        | none => c :: go rest (some c) fuel

/-- The group-1 signature of the class-method header patterns
(lines 621–623, 1098–1101):
`(?:async\s+)?(?:static\s+)?(?:(?:get|set)\s+)?(?:constructor|ident)\s*\([^)]*\)`.
Returns the matched signature text and the rest after the close paren.
The optional keyword groups backtrack: `get (` lets `get` itself be the
method name. -/
def classMethodSig (s : Chars) : Option (Chars × Chars) :=
  optKw "async" (fun r => optKw "static" (fun r2 => optGetSet r2) r) s where
  /-- One optional `(?:kw\s+)?` group with backtracking. -/
  optKw (kw : String) (next : Chars → Option (Chars × Chars)) (s : Chars) :
      Option (Chars × Chars) :=
    match (dropLit kw.data s).bind (fun r => wsPlus r) with
    | some r1 =>
        let consumed := s.take (s.length - r1.length)
        (match next r1 with
         | some (sig, rest) => some (consumed ++ sig, rest)
         | none => next s)
    | none => next s
  /-- `(?:(?:get|set)\s+)?` with backtracking, then the name and parens. -/
  optGetSet (s : Chars) : Option (Chars × Chars) :=
    let withGet :=
      match (dropLit "get".data s).bind (fun r => wsPlus r) with
      | some r1 =>
          let consumed := s.take (s.length - r1.length)
          (nameParens r1).map (fun (pr : Chars × Chars) => (consumed ++ pr.1, pr.2))
      | none => none
    match withGet with
    | some pr => some pr
    | none =>
        let withSet :=
          match (dropLit "set".data s).bind (fun r => wsPlus r) with
          | some r1 =>
              let consumed := s.take (s.length - r1.length)
              (nameParens r1).map (fun (pr : Chars × Chars) => (consumed ++ pr.1, pr.2))
          | none => none
        match withSet with
        | some pr => some pr
        | none => nameParens s
  /-- `(?:constructor|ident)\s*\([^)]*\)`. -/
  nameParens (s : Chars) : Option (Chars × Chars) :=
    match identParens s with
    | some (name, params, rest) =>
        some (name ++
          (s.drop name.length).take
            ((s.drop name.length).length - (params.length + 1 + rest.length + 1)) ++
          '(' :: params ++ [')'], rest)
    | none => none

/-- Line 621: strip a same-line-brace class-method return type,
`^\s*(SIG)\s*::\s*([^{}\n]+)\s*\{ → "SIG {"` (plus the rest of the line after
the brace; the leading whitespace is outside the group and is dropped). -/
def rewriteMethodRetSameLine (s : Chars) : Chars :=
  match classMethodSig (wsSkip s) with
  | some (sig, r) =>
      (match dropLit "::".data (wsSkip r) with
       | some r1 =>
           let gap := r1.takeWhile (fun d => d ≠ '\x7b' && d ≠ '\n')
           if gap.isEmpty then s
           else
             (match r1.drop gap.length with
              | '\x7b' :: r2 => sig ++ ' ' :: '\x7b' :: r2
              | _ => s)
       | none => s)
  | none => s

/-- Line 623: strip a next-line-brace class-method return type,
`^\s*(SIG)\s*::\s*([^{}\n]+)\s*(?:(//.*))?$ → "SIG"` (comment group dead as in
`retTailToEol`; here the character class excludes only `{` and newline). -/
def rewriteMethodRetNextLine (s : Chars) : Chars :=
  match classMethodSig (wsSkip s) with
  | some (sig, r) =>
      (match dropLit "::".data (wsSkip r) with
       | some r1 =>
           if !r1.isEmpty && r1.all (fun d => d ≠ '\x7b') then sig else s
       | none => s)
  | none => s

/-- `L.replace(/\bcall\s+([A-Za-z_$][\w$]*)\s*\(([^)]*)\)/g, ...)` (line 626):
`call Name(args)` becomes `Name(args)` (or `Name()` when the arguments are
blank). -/
def rewriteCall (s : Chars) : Chars :=
  go s none s.length where
  go : Chars → Option Char → Nat → Chars
    | s, _, 0 => s
    | [], _, _ => []
    | s@(c :: rest), prev, fuel + 1 =>
        let tryHere : Option Chars :=
          if !wordBoundaryBefore prev then none
          else
            match (dropLit "call".data s).bind (fun r => wsPlus r) with
            | some r0 =>
                (match identParens r0 with
                 | some (name, params, r2) =>
                     if (trimChars params).isEmpty then
                       some (name ++ '(' :: ')' :: go r2 (some ')') fuel)
                     else
                       some (name ++ '(' :: params ++ ')' :: go r2 (some ')') fuel)
                 | none => none)
            | none => none
        match tryHere with
        | some out => out
        | none => c :: go rest (some c) fuel

/-- Lines 632 and 635: `^\s*mut\s+(id)\s*=\s*(.+);?` (resp. `inmut`) becomes
`id = expr.trim();` — the greedy `(.+)` captures the rest of the line
including any trailing `;`. -/
def rewriteMutAssign (kw : String) (s : Chars) : Chars :=
  match (dropLit kw.data (wsSkip s)).bind (fun r => wsPlus r) with
  | some r0 =>
      (match takeIdent r0 with
       | some (name, r1) =>
           (match wsSkip r1 with
            | '=' :: r2 =>
                let tail := wsSkip r2
                if tail.isEmpty then s
                else name ++ " = ".data ++ trimChars tail ++ [';']
            | _ => s)
       | none => s)
  | none => s

/-- Line 636: `^\s*inmut\s+(id);? → "/* inmut id */"` — only the matched part
is replaced, anything after the optional `;` is kept. -/
def rewriteInmutBare (s : Chars) : Chars :=
  match (dropLit "inmut".data (wsSkip s)).bind (fun r => wsPlus r) with
  | some r0 =>
      (match takeIdent r0 with
       | some (name, r1) =>
           let r2 := match r1 with
             | ';' :: t => t
             | t => t
           "/* inmut ".data ++ name ++ " */".data ++ r2
       | none => s)
  | none => s

/-- Test `^\s*$`, `^\s*//` or `^\s*/\*` (line 573). -/
def isBlankOrComment (l : Chars) : Bool :=
  let r := wsSkip l
  r.isEmpty || startsWithLit "//".data r || startsWithLit "/*".data r

/-- Test `^\s*type\s+([A-Za-z_$][\w$]*)\s*=` (line 598). -/
def isTypeAliasLine (l : Chars) : Bool :=
  match (dropLit "type".data (wsSkip l)).bind (fun r => wsPlus r) with
  | some r0 =>
      (match takeIdent r0 with
       | some (_, r1) => (wsSkip r1).head? = some '='
       | none => false)
  | none => false

/-- The whole per-line preprocessing pipeline of phase 1
(transpiler.ts lines 570–639). -/
def preprocessLine (l : Chars) : Chars :=
  if isBlankOrComment l then l
  else
    let l := rewriteFromDs l
    let l := rewriteExportFromDs l
    let l := rewriteImportCallDs l
    let l := rewriteImportBareDs l
    if isTypeAliasLine l then []
    else
      let l := stripInlineTypes l
      let l := expandMaybe l
      let l := rewriteFuncRetSameLine false l
      let l := rewriteFuncRetSameLine true l
      let l := rewriteFuncRetNextLine true l
      let l := rewriteFuncRetNextLine false l
      let l := rewriteGenericFunc l
      let l := rewriteMethodRetSameLine l
      let l := rewriteMethodRetNextLine l
      let l := rewriteCall l
      let l := rewriteMutAssign "mut" l
      let l := rewriteMutAssign "inmut" l
      let l := rewriteInmutBare l
      l

/-- `cleanedForParse` (lines 567–641). -/
def cleanedForParse (cleanedWork : Chars) : Chars :=
  joinLines ((splitLines cleanedWork).map preprocessLine)

/-! ## Phase 2: host-grammar gate and line map (transpiler.ts lines 643–677) -/

/-- Test `^\s*interface\s+[A-Za-z_$][\w$]*\s*\{` (line 653). -/
def isIfaceHeaderLine (l : Chars) : Bool :=
  match (dropLit "interface".data (wsSkip l)).bind (fun r => wsPlus r) with
  | some r0 =>
      (match takeIdent r0 with
       | some (_, r1) => (wsSkip r1).head? = some '\x7b'
       | none => false)
  | none => false

/-- `buildParsedToSourceMap` (line 645): simulate the interface stripping
line by line; every kept line records its original 1-based line number. -/
def buildParsedToSourceMap (src : Chars) : List Nat :=
  go (splitLines src) false 0 0 where
  /-- `braceStep` handling of one in-interface line (lines 656–660). -/
  braceLine : Chars → Int → Bool → Int × Bool
    | [], depth, inIface => (depth, inIface)
    | c :: rest, depth, inIface =>
        if c = '\x7b' then braceLine rest (depth + 1) inIface
        else if c = '\x7d' then
          let d := depth - 1
          braceLine rest d (if d = 0 then false else inIface)
        else braceLine rest depth inIface
  go : List Chars → Bool → Int → Nat → List Nat
    | [], _, _, _ => []
    | l :: ls, inIface, depth, i =>
        if !inIface && isIfaceHeaderLine l then
          go ls true 1 (i + 1)
        else if inIface then
          let (d, stillIn) := braceLine l depth true
          go ls stillIn d (i + 1)
        else
          (i + 1) :: go ls inIface depth (i + 1)

/-- `parsedToSourceMap[parsedLine - 1] || parsedLine` (line 674). -/
def mapParsedLine (m : List Nat) (parsedLine : Nat) : Nat :=
  match m.get? (parsedLine - 1) with
  | some v => if v = 0 then parsedLine else v
  | none => parsedLine

/-- The failure report of the host-grammar validation oracle (acorn):
`err.loc` and `err.message`. -/
structure AcornErr where
  line : Nat
  column : Nat
  msg : String
deriving DecidableEq

/-- The vendored ECMAScript parser, modelled as an oracle: `none` means the
text parses, `some e` is the reported syntax error. -/
abbrev Oracle := String → Option AcornErr

/-! ## Pre-scan of function declarations (transpiler.ts lines 1005–1043) -/

/-- JS `str.split(sep)` for a multi-character separator. -/
def splitOnLit (sep : Chars) (s : Chars) : List Chars :=
  go s [] s.length where
  go : Chars → Chars → Nat → List Chars
    | s, acc, 0 => [acc.reverse ++ s]
    | [], acc, _ => [acc.reverse]
    | s@(c :: rest), acc, fuel + 1 =>
        match dropLit sep s with
        | some r => acc.reverse :: go r [] fuel
        | none => go rest (c :: acc) fuel

/-- Per-parameter extraction of the pre-scan (lines 1012–1018): strip any
default value at the first `=`, split at `::`, and take the name and
optional declared type. -/
def parseTypedParam (p : Chars) : FuncParam :=
  let noDefault := trimChars (p.takeWhile (fun c => c ≠ '='))
  let parts := (splitOnLit "::".data noDefault).map (fun x => trimChars x)
  let name := parts.head?.getD []
  let ty := match parts.get? 1 with
    | some t =>
        let t2 := trimChars (t.takeWhile (fun c => c ≠ '='))
        if t2.isEmpty then none else some (String.mk t2)
    | none => none
  ⟨String.mk (trimChars name), ty⟩

/-- `paramsRaw.split(",").map(trim).filter(Boolean).map(...)` of line 1012. -/
def parseTypedParams (paramsRaw : Chars) : List FuncParam :=
  if (trimChars paramsRaw).isEmpty then []
  else
    (((splitOnChar ',' paramsRaw).map (fun p => trimChars p)).filter
      (fun p => !p.isEmpty)).map parseTypedParam

/-- The `\s*(?:::\s*([^{}\n]+))?\s*\{` tail of `funcDeclRx` (line 1006):
given the text after the close paren, return the optional raw return type and
the number of characters consumed up to and including the `{`. -/
def funcDeclTail (r : Chars) : Option (Option String × Nat) :=
  let r1 := wsSkip r
  match dropLit "::".data r1 with
  | some r2 =>
      let r3 := wsSkip r2
      let run := r3.takeWhile (fun c => c ≠ '\x7b' && c ≠ '\x7d' && c ≠ '\n')
      if run.isEmpty then none
      else
        (match wsSkip (r3.drop run.length) with
         | '\x7b' :: r4 =>
             some (some (String.mk (trimChars run)), r.length - r4.length)
         | _ => none)
  | none =>
      match r1 with
      | '\x7b' :: r4 => some (none, r.length - r4.length)
      | _ => none

/-- Last index of `'\n'` in a prefix, as the JS `-1`-defaulting
`lastIndexOf` (line 1028). -/
def lastNewlineIdx (s : Chars) : Option Nat :=
  (idxOfChar '\n' s.reverse).map (fun j => s.length - 1 - j)

/-- The column of the first `::` of a `funcDeclRx` match (lines 1022–1031):
`abs - lastNl` with `lastNl = -1` when the prefix holds no newline.  Note the
source takes the first `::` anywhere in the matched head — for a function
with typed parameters this is the first parameter annotation. -/
def returnTypeColOf (src : Chars) (start : Nat) (matchLen : Nat) : Option Nat :=
  let head := (src.drop start).take matchLen
  match idxOfLit "::".data head with
  | some rel =>
      let abs := start + rel
      (match lastNewlineIdx (src.take abs) with
       | some k => some (abs - k)
       | none => some (abs + 1))
  | none => none

/-- The `funcDeclRx` pre-scan (lines 1006–1033): register every
`\bfunc\s+name\s*\(params\)\s*(?:::\s*ret)?\s*\{` match, later matches
overwriting earlier ones of the same name. -/
def funcDeclScan (src : Chars) : List (String × FuncInfo) :=
  go src none 0 (src.length + 1) [] where
  go : Chars → Option Char → Nat → Nat → List (String × FuncInfo) →
      List (String × FuncInfo)
    | _, _, _, 0, funcs => funcs
    | [], _, _, _, funcs => funcs
    | s@(c :: rest), prev, pos, fuel + 1, funcs =>
        let tryHere : Option (String × FuncInfo × Nat) :=
          if !wordBoundaryBefore prev then none
          else
            match (dropLit "func".data s).bind (fun r => wsPlus r) with
            | some r0 =>
                (match identParens r0 with
                 | some (fname, paramsRaw, r2) =>
                     (match funcDeclTail r2 with
                      | some (retRaw, tailLen) =>
                          let matchLen := s.length - r2.length + tailLen
                          let declaredLine := lineOfPrefix (src.take pos)
                          let info : FuncInfo :=
                            ⟨String.mk fname, parseTypedParams paramsRaw,
                              declaredLine, retRaw,
                              returnTypeColOf src pos matchLen⟩
                          some (String.mk fname, info, matchLen)
                      | none => none)
                 | none => none)
            | none => none
        match tryHere with
        | some (fname, info, matchLen) =>
            go (s.drop matchLen) (some '\x7b') (pos + matchLen) fuel
              (mapSet funcs fname info)
        | none => go rest (some c) (pos + 1) fuel funcs

/-- The `jsFuncRx` follow-up scan over the cleaned text (lines 1036–1043):
`\bfunction\s+(name)\s*\(([^)]*)\)\s*\{`, parameters untyped, only names not
already registered are added. -/
def jsFuncScan (cleaned : Chars) (funcs0 : List (String × FuncInfo)) :
    List (String × FuncInfo) :=
  go cleaned none 0 (cleaned.length + 1) funcs0 where
  go : Chars → Option Char → Nat → Nat → List (String × FuncInfo) →
      List (String × FuncInfo)
    | _, _, _, 0, funcs => funcs
    | [], _, _, _, funcs => funcs
    | s@(c :: rest), prev, pos, fuel + 1, funcs =>
        let tryHere : Option (String × List FuncParam × Nat) :=
          if !wordBoundaryBefore prev then none
          else
            match (dropLit "function".data s).bind (fun r => wsPlus r) with
            | some r0 =>
                (match identParens r0 with
                 | some (fname, paramsRaw, r2) =>
                     (match wsSkip r2 with
                      | '\x7b' :: r3 =>
                          let params :=
                            if (trimChars paramsRaw).isEmpty then []
                            else
                              (((splitOnChar ',' paramsRaw).map
                                  (fun p => trimChars p)).filter
                                (fun p => !p.isEmpty)).map
                                (fun p => (⟨String.mk p, none⟩ : FuncParam))
                          some (String.mk fname, params, s.length - r3.length)
                      | _ => none)
                 | none => none)
            | none => none
        match tryHere with
        | some (fname, params, matchLen) =>
            let declaredLine := lineOfPrefix (cleaned.take pos)
            let funcs' :=
              if mapHas funcs fname then funcs
              else mapSet funcs fname ⟨fname, params, declaredLine, none, none⟩
            go (s.drop matchLen) (some '\x7b') (pos + matchLen) fuel funcs'
        | none => go rest (some c) (pos + 1) fuel funcs

/-! ## Semantic pass: state and line-shape classification
(transpiler.ts lines 1045–1101) -/

/-- An entry of `funcContextStack` (line 1056). -/
structure FuncCtx where
  name : String
  expected : Option String
  hasValueReturn : Bool
  sawReturnAttempt : Bool := false
  startLine : Nat
  headerLine : Option Nat := none
  headerCol : Option Nat := none
deriving DecidableEq

/-- The mutable state of the semantic loop (lines 1045–1058 and the output
arrays of lines 708–719).  Stacks are head-first.  Every emitted line carries
its `outLineToSourceLine` entry: `some` when produced through `emit`
(line 710), `none` when pushed directly onto `outLines`. -/
structure LoopSt where
  scopes : List Scope
  scopeTypeStack : List String
  funcCtxStack : List FuncCtx
  calledViaCall : List (String × Nat)
  funcs : List (String × FuncInfo)
  inIface : Bool
  ifaceDepth : Int
  pendingOpen : Option String
  pendingFunctionName : Option String
  pendingMethodName : Option String
  pendingMethodReturnType : Option String
  inFunction : Bool
  out : List (Chars × Option Nat)
  diags : List Diag
deriving DecidableEq

/-- The initial loop state (funcs from the pre-scan). -/
def LoopSt.init (funcs : List (String × FuncInfo)) : LoopSt :=
  ⟨ScopeManager.init, [], [], [], funcs, false, 0, none, none, none, none,
    false, [], []⟩

/-- `emit` (line 710): split at newlines, mapping each part to its source line. -/
def LoopSt.emit (st : LoopSt) (text : Chars) (srcLine : Nat) : LoopSt :=
  { st with out := st.out ++
      ((splitLines text).enum.map (fun p => (p.2, some (srcLine + p.1)))) }

/-- `outLines.push` without a mapping entry. -/
def LoopSt.push (st : LoopSt) (text : Chars) : LoopSt :=
  { st with out := st.out ++ [(text, none)] }

/-- `(func|function)\s+` with the alternation order of the source. -/
def funcKw (s : Chars) : Option Chars :=
  match (dropLit "func".data s).bind (fun r => wsPlus r) with
  | some r => some r
  | none => (dropLit "function".data s).bind (fun r => wsPlus r)

/-- `^\s*(?:async\s+)?(func|function)\s+(name)\s*\([^)]*\)`: the shared core of
the function-header patterns (lines 1091–1092, 1110).  Returns the captured
name and the rest after the close paren. -/
def funcHeaderCore (l : Chars) : Option (String × Chars) :=
  let s0 := wsSkip l
  let s1 := match (dropLit "async".data s0).bind (fun r => wsPlus r) with
    | some r => r
    | none => s0
  match funcKw s1 with
  | some r0 =>
      (match identParens r0 with
       | some (name, _, r2) => some (String.mk name, r2)
       | none => none)
  | none => none

/-- `\s*(?:::\s*[^{]+)?\s*\{` (also used with `[^{\n]+` on single lines):
after the close paren, an optional return annotation then an opening brace. -/
def tailOptRetBrace (r : Chars) : Bool :=
  let r0 := wsSkip r
  if r0.head? = some '\x7b' then true
  else
    match dropLit "::".data r0 with
    | some r1 =>
        (match idxOfChar '\x7b' r1 with
         | some j => j ≥ 1
         | none => false)
    | none => false

/-- `\s*(?:::\s*[^{}\n]+)?\s*$` (funcHeaderNoBrace tail, line 1092). -/
def tailOptRetEolNoBraces (r : Chars) : Bool :=
  let r0 := wsSkip r
  if r0.isEmpty then true
  else
    match dropLit "::".data r0 with
    | some r1 =>
        !r1.isEmpty && r1.all (fun d => d ≠ '\x7b' && d ≠ '\x7d')
    | none => false

/-- `\s*(?:::\s*[^\{\n]+)?\s*$` (classMethodNoBrace tail, line 1101 — unlike
the function form this class allows `}`). -/
def tailOptRetEolNoOpen (r : Chars) : Bool :=
  let r0 := wsSkip r
  if r0.isEmpty then true
  else
    match dropLit "::".data r0 with
    | some r1 => !r1.isEmpty && r1.all (fun d => d ≠ '\x7b')
    | none => false

/-- `funcHeaderWithBrace` (line 1091). -/
def funcHeaderWithBrace (l : Chars) : Bool :=
  match funcHeaderCore l with
  | some (_, r) => tailOptRetBrace r
  | none => false

/-- `funcHeaderNoBrace` (line 1092). -/
def funcHeaderNoBrace (l : Chars) : Bool :=
  match funcHeaderCore l with
  | some (_, r) => tailOptRetEolNoBraces r
  | none => false

/-- `^\s*(?:export\s+)?(?:default\s+)?class\s+[A-Za-z_$][\w$]*`: shared core of
the class-header patterns (lines 1093–1094); returns the rest after the name. -/
def classHeaderCore (l : Chars) : Option Chars :=
  let s0 := wsSkip l
  let s1 := match (dropLit "export".data s0).bind (fun r => wsPlus r) with
    | some r => r
    | none => s0
  let s2 := match (dropLit "default".data s1).bind (fun r => wsPlus r) with
    | some r => r
    | none => s1
  match (dropLit "class".data s2).bind (fun r => wsPlus r) with
  | some r0 => (takeIdent r0).map (·.2)
  | none => none

/-- `classHeaderWithBrace` (line 1093). -/
def classHeaderWithBrace (l : Chars) : Bool :=
  match classHeaderCore l with
  | some r => (wsSkip r).head? = some '\x7b'
  | none => false

/-- `classHeaderNoBrace` (line 1094). -/
def classHeaderNoBrace (l : Chars) : Bool :=
  match classHeaderCore l with
  | some r => (wsSkip r).isEmpty
  | none => false

/-- The control keywords of lines 1095–1096. -/
def controlKws : List String :=
  ["if", "else", "for", "while", "try", "catch", "finally", "switch"]

/-- `^\s*(if|else|…)\b` and return the rest after the keyword. -/
def controlKwAt (l : Chars) : Option Chars :=
  let s0 := wsSkip l
  controlKws.firstM (fun kw =>
    match dropLit kw.data s0 with
    | some r => if wordBoundaryAfter r.head? then some r else none
    | none => none)

/-- `controlHeaderWithBrace` (line 1095): control keyword then `[^\{]*\{`. -/
def controlHeaderWithBrace (l : Chars) : Bool :=
  match controlKwAt l with
  | some r => r.contains '\x7b'
  | none => false

/-- `controlHeaderNoBrace` (line 1096): control keyword anywhere to the end,
and the trimmed line ends with `(`. -/
def controlHeaderNoBrace (l : Chars) : Bool :=
  (controlKwAt l).isSome && (trimChars l).getLast? = some '('

/-- `classMethodWithBrace` (lines 1098–1099). -/
def classMethodWithBrace (l : Chars) : Bool :=
  match classMethodSig (wsSkip l) with
  | some (_, r) => tailOptRetBrace r
  | none => false

/-- `classMethodNoBrace` (lines 1100–1101). -/
def classMethodNoBrace (l : Chars) : Bool :=
  match classMethodSig (wsSkip l) with
  | some (_, r) => tailOptRetEolNoOpen r
  | none => false

/-- The class-method capture of lines 1116 and 1140:
`^\s*(?:async\s+)?(?:static\s+)?(?:(?:get|set)\s+)?([A-Za-z_$][\w$]*)\s*\([^)]*\)`
followed by the optional `::\s*([^\{\n]+)` return capture. Returns
`(method name, optional trimmed return type)`. -/
def classMethodNameRet (l : Chars) : Option (String × Option String) :=
  match classMethodSig (wsSkip l) with
  | some (sig, r) =>
      -- the method name is the identifier just before the parameter list
      let name :=
        match idxOfChar '(' sig with
        | some i =>
            let beforeParen := trimChars (sig.take i)
            (beforeParen.reverse.takeWhile (fun c => identChar c)).reverse
        | none => []
      let ret : Option String :=
        match dropLit "::".data (wsSkip r) with
        | some r1 =>
            let gap := r1.takeWhile (fun d => d ≠ '\x7b')
            if gap.isEmpty then none
            else some (String.mk (trimChars gap))
        | none => none
      some (String.mk name, ret)
  | none => none

/-- `^\s*\}+` with the object-literal-continuation heuristic (lines 1172–1175):
returns the number of closing braces when the line is treated as a real
block close. -/
def closeBraceCount (l : Chars) : Option Nat :=
  let s0 := wsSkip l
  let braces := s0.takeWhile (fun c => c = '\x7d')
  if braces.isEmpty then none
  else
    let remainder := trimChars (s0.drop braces.length)
    let looksLikeObjectContinuation :=
      remainder.head? = some ',' || remainder.head? = some ':' ||
        hasCommaBeforeEnd remainder
    if looksLikeObjectContinuation then none else some braces.length
where
  /-- `/,\s*(?:$|\/\/)/` (line 1175). -/
  hasCommaBeforeEnd : Chars → Bool
    | [] => false
    | c :: rest =>
        (c = ',' &&
          (let r := wsSkip rest
           r.isEmpty || startsWithLit "//".data r)) || hasCommaBeforeEnd rest

/-! ## Semantic pass: scope transitions (transpiler.ts lines 679–705, 1104–1195) -/

/-- `validateTypeRef` (lines 680–705), with fuel over union/array structure
(each recursion is on a strictly shorter type text). -/
def validateTypeRef (filePath : String) (ifaces : List (String × InterfaceInfo))
    (aliases : List (String × String)) :
    Nat → Option String → Nat → Nat → Except CompileErr Unit
  | 0, _, _, _ => .ok ()
  | _, none, _, _ => .ok ()
  | fuel + 1, some typeStr, lineNo, col =>
      let t := trimChars typeStr.data
      if t.isEmpty then .ok ()
      else if t.contains '|' then
        (splitUnion t).forM (fun p =>
          validateTypeRef filePath ifaces aliases fuel (some p) lineNo col)
      else if (t.head? = some '"' && t.getLast? = some '"') ||
          (t.head? = some '\x27' && t.getLast? = some '\x27') then .ok ()
      else
        match dropLit "arr<".data t with
        | some inner =>
            if inner.length ≥ 2 && inner.getLast? = some '>' then
              validateTypeRef filePath ifaces aliases fuel
                (some (String.mk (trimChars inner.dropLast))) lineNo col
            else checkName (String.mk t) lineNo col
        | none => checkName (String.mk t) lineNo col
where
  checkName (n : String) (lineNo col : Nat) : Except CompileErr Unit :=
    if builtinTypes.contains n then .ok ()
    else if mapHas ifaces n then .ok ()
    else if mapHas aliases n then .ok ()
    else if reservedTypeNames.contains n then
      .error ⟨filePath, lineNo, col,
        "Invalid type reference " ++ sq ++ n ++ sq ++ ": reserved keyword"⟩
    else .error ⟨filePath, lineNo, col, "Unknown type " ++ sq ++ n ++ sq⟩

/-- `L.indexOf(pat) + 1` as used for diagnostic columns (JS returns `-1` when
absent, giving column `0`). -/
def colOf (pat : String) (l : Chars) : Nat :=
  match idxOfLit pat.data l with
  | some i => i + 1
  | none => 0

/-- `L.indexOf('::') + 3` (the column passed to `validateTypeRef` at
lines 1120 and 1144). -/
def colOfDoubleColonPlus3 (l : Chars) : Nat :=
  match idxOfLit "::".data l with
  | some i => i + 3
  | none => 2

/-- The header-classification and scope-opening step
(transpiler.ts lines 1090–1168), acting on the raw line. -/
def scopeOpenStep (filePath : String) (ifaces : List (String × InterfaceInfo))
    (aliases : List (String × String)) (lineNo : Nat) (l : Chars)
    (st : LoopSt) : Except (CompileErr × LoopSt) LoopSt := do
  let fHWB := funcHeaderWithBrace l
  let fHNB := funcHeaderNoBrace l
  let cHWB := classHeaderWithBrace l
  let cHNB := classHeaderNoBrace l
  let ctWB := controlHeaderWithBrace l
  let ctNB := controlHeaderNoBrace l
  let mWB := classMethodWithBrace l
  let mNB := classMethodNoBrace l
  -- lines 1104–1129: same-line opening
  let st ←
    if fHWB || mWB then
      let st := { st with scopes := enterScope st.scopes "function",
                          scopeTypeStack := "function" :: st.scopeTypeStack,
                          inFunction := true }
      if fHWB then
        let fname := match funcHeaderCore l with
          | some (n, _) => n
          | none => ""
        let fmeta := mapGet st.funcs fname
        pure { st with funcCtxStack :=
          (⟨fname, fmeta.bind (fun (f : FuncInfo) => f.returnType), false, false, lineNo,
            fmeta.map (fun (f : FuncInfo) => f.declaredLine),
            fmeta.bind (fun (f : FuncInfo) => f.returnTypeCol)⟩ : FuncCtx)
            :: st.funcCtxStack }
      else
        match classMethodNameRet l with
        | some (mname, mret0) =>
            let mret := if mname = "constructor" then none else mret0
            (match mret with
             | some r =>
                 (match validateTypeRef filePath ifaces aliases
                     (r.length + 1) (some r) lineNo (colOfDoubleColonPlus3 l) with
                  | .ok _ =>
                      pure { st with funcCtxStack :=
                        (⟨mname, mret, false, false, lineNo, none, none⟩ : FuncCtx)
                          :: st.funcCtxStack }
                  | .error e => throw (e, st))
             | none =>
                 pure { st with funcCtxStack :=
                   (⟨mname, none, false, false, lineNo, none, none⟩ : FuncCtx)
                     :: st.funcCtxStack })
        | none =>
            pure { st with funcCtxStack :=
              (⟨"", none, false, false, lineNo, none, none⟩ : FuncCtx)
                :: st.funcCtxStack }
    else if cHWB then
      pure { st with scopes := enterScope st.scopes "class",
                     scopeTypeStack := "class" :: st.scopeTypeStack }
    else if ctWB then
      pure { st with scopes := enterScope st.scopes "block",
                     scopeTypeStack := "block" :: st.scopeTypeStack }
    else pure st
  -- lines 1131–1148: mark a pending opening
  let st := if fHNB || mNB then { st with pendingOpen := some "function" } else st
  let st ←
    if fHNB then
      pure { st with
        pendingFunctionName := (funcHeaderCore l).map (·.1),
        pendingMethodName := none,
        pendingMethodReturnType := none }
    else if mNB then
      match classMethodNameRet l with
      | some (mname, mret0) =>
          let mret := if mname = "constructor" then none else mret0
          let st := { st with pendingMethodName := some mname,
                              pendingMethodReturnType := mret }
          (match mret with
           | some r =>
               (match validateTypeRef filePath ifaces aliases (r.length + 1)
                   (some r) lineNo (colOfDoubleColonPlus3 l) with
                | .ok _ => pure { st with pendingFunctionName := none }
                | .error e => throw (e, st))
           | none => pure { st with pendingFunctionName := none })
      | none =>
          pure { st with pendingMethodName := none,
                         pendingMethodReturnType := none,
                         pendingFunctionName := none }
    else if cHNB then pure { st with pendingOpen := some "class" }
    else if ctNB then pure { st with pendingOpen := some "block" }
    else pure st
  -- lines 1150–1168: a pending opening meets a `{` line
  match st.pendingOpen with
  | some ty =>
      if (wsSkip l).head? = some '\x7b' then
        let st := { st with scopes := enterScope st.scopes ty,
                            scopeTypeStack := ty :: st.scopeTypeStack,
                            inFunction := st.inFunction || ty = "function" }
        if ty = "function" then
          let st :=
            match st.pendingMethodName with
            | some pm =>
                { st with funcCtxStack :=
                    (⟨pm, st.pendingMethodReturnType, false, false, lineNo,
                      none, none⟩ : FuncCtx) :: st.funcCtxStack }
            | none =>
                let fname := st.pendingFunctionName.getD ""
                let fmeta := mapGet st.funcs fname
                { st with funcCtxStack :=
                    (⟨fname, fmeta.bind (fun (f : FuncInfo) => f.returnType), false, false,
                      lineNo, fmeta.map (fun (f : FuncInfo) => f.declaredLine),
                      fmeta.bind (fun (f : FuncInfo) => f.returnTypeCol)⟩ :
                      FuncCtx) :: st.funcCtxStack }
          pure { st with pendingFunctionName := none, pendingMethodName := none,
                         pendingMethodReturnType := none, pendingOpen := none }
        else pure { st with pendingOpen := none }
      else pure st
  | none => pure st

/-- One scope pop of the close-brace loop (lines 1178–1192). -/
def popOneScope (filePath : String) (lineNo : Nat) (st : LoopSt) :
    Except (CompileErr × LoopSt) LoopSt :=
  match st.scopeTypeStack with
  | [] => .ok st
  | lastScope :: restTypes =>
      let st := { st with scopeTypeStack := restTypes,
                          scopes := exitScope st.scopes }
      if lastScope = "function" then
        let st := { st with inFunction := false }
        match st.funcCtxStack with
        | [] => .ok st
        | ctx :: restCtx =>
            let st := { st with funcCtxStack := restCtx }
            -- line 1186: `ctx.expected &&` is a JS truthiness test, so a
            -- stored empty-string return type raises nothing
            match ctx.expected with
            | some exp =>
                if exp ≠ "" && exp ≠ "void" && !ctx.sawReturnAttempt then
                  .error
                    (⟨filePath, (ctx.headerLine.filter (· ≠ 0)).getD lineNo,
                      (ctx.headerCol.filter (· ≠ 0)).getD 1,
                      "Function " ++ sq ++ ctx.name ++ sq ++
                        " declares return type " ++ exp ++ " but has no return"⟩,
                     st)
                else .ok st
            | none => .ok st
      else .ok st

/-- The close-brace handling (lines 1170–1195): pop one scope per brace of the
leading `}` run, stopping the loop at a missing-return error. -/
def closeBracesStep (filePath : String) (lineNo : Nat) (l : Chars)
    (st : LoopSt) : Except (CompileErr × LoopSt) LoopSt :=
  match closeBraceCount l with
  | none => .ok st
  | some n => go n st
where
  go : Nat → LoopSt → Except (CompileErr × LoopSt) LoopSt
    | 0, st => .ok st
    | n + 1, st =>
        match popOneScope filePath lineNo st with
        | .ok st' => go n st'
        | .error e => .error e

/-! ## Semantic pass: per-line emission rewrites and the return check
(transpiler.ts lines 1205–1318) -/

/-- `L.replace(/\basync\s+func\s+([A-Za-z_$][\w$]*)\s*\(/g, "async function $1(")`
(line 1209). -/
def rewriteGenericAsyncFunc (s : Chars) : Chars :=
  go s none s.length where
  go : Chars → Option Char → Nat → Chars
    | s, _, 0 => s
    | [], _, _ => []
    | s@(c :: rest), prev, fuel + 1 =>
        let tryHere : Option Chars :=
          if !wordBoundaryBefore prev then none
          else
            match (dropLit "async".data s).bind (fun r => wsPlus r) |>.bind
                (fun r => (dropLit "func".data r).bind (fun r2 => wsPlus r2)) with
            | some r0 =>
                (match takeIdent r0 with
                 | some (name, r1) =>
                     (match wsSkip r1 with
                      | '(' :: r2 =>
                          some ("async function ".data ++ name ++ '(' ::
                            go r2 (some '(') fuel)
                      | _ => none)
                 | none => none)
            | none => none
        match tryHere with
        | some out => out
        | none => c :: go rest (some c) fuel

/-- `::[A-Za-z_$<>\[\]]+` stripped globally (the defensive strip of
lines 1552, 2018, 2039, 2048, 2055 — unlike phase 1 this form has no
identifier before the `::`). -/
def stripColonTypes (s : Chars) : Chars :=
  go s s.length where
  go : Chars → Nat → Chars
    | s, 0 => s
    | [], _ => []
    | s@(c :: rest), fuel + 1 =>
        match dropLit "::".data s with
        | some r0 =>
            let run := r0.takeWhile (fun d => typeAnnChar d)
            if run.isEmpty then c :: go rest fuel
            else go (r0.drop run.length) fuel
        | none => c :: go rest fuel

/-- The in-loop emission rewrites of lines 1205–1228 (`async` before plain,
unlike phase 1) followed by the import rewrites. -/
def rewriteLineForEmit (l : Chars) : Chars :=
  let l := rewriteFuncRetSameLine true l
  let l := rewriteFuncRetSameLine false l
  let l := rewriteGenericAsyncFunc l
  let l := rewriteGenericFunc l
  let l := rewriteFromDs l
  let l := rewriteExportFromDs l
  let l := rewriteImportCallDs l
  let l := rewriteImportBareDs l
  l

/-- One attempt of `(^|[;{])\s*return\b` at a position: the match length. -/
def matchReturnAt (atStart : Bool) (s : Chars) : Option Nat :=
  if atStart then
    let w := s.takeWhile (fun c => jsWs c)
    match dropLit "return".data (s.drop w.length) with
    | some r => if wordBoundaryAfter r.head? then some (w.length + 6) else none
    | none => none
  else
    match s with
    | c :: rest =>
        if c = ';' || c = '\x7b' then
          let w := rest.takeWhile (fun d => jsWs d)
          match dropLit "return".data (rest.drop w.length) with
          | some r =>
              if wordBoundaryAfter r.head? then some (1 + w.length + 6) else none
          | none => none
        else none
    | [] => none

/-- The end position of the last `(^|[;{])\s*return\b` match (lines 1258,
1262–1267), scanning matches non-overlappingly as `matchAll` does. -/
def lastReturnEnd (l : Chars) : Option Nat :=
  go l 0 true none (l.length + 1) where
  go : Chars → Nat → Bool → Option Nat → Nat → Option Nat
    | _, _, _, acc, 0 => acc
    | s, pos, atStart, acc, fuel + 1 =>
        match matchReturnAt atStart s with
        | some len => go (s.drop len) (pos + len) false (some (pos + len)) fuel
        | none =>
            match s with
            | [] => acc
            | _ :: rest => go rest (pos + 1) false acc fuel

/-- The inline-declaration scan `declRx` of lines 1286–1300:
`(^|[;{])\s*(let|const)\s+(id)\s*(?:::\s*([A-Za-z_$<>\[\]]+))?\s*=\s*([^;]*)`
collected globally over the text before a `return`.  Yields
`(name, kind, declaredType)`. -/
def inlineDeclScan (before : Chars) : List (String × String × Option String) :=
  go before true (before.length + 1) where
  attempt : Chars → Option ((String × String × Option String) × Nat)
    | s =>
        let w := s.takeWhile (fun c => jsWs c)
        let s1 := s.drop w.length
        let kindRest : Option (String × Chars) :=
          match (dropLit "let".data s1).bind (fun r => wsPlus r) with
          | some r => some ("let", r)
          | none =>
              match (dropLit "const".data s1).bind (fun r => wsPlus r) with
              | some r => some ("const", r)
              | none => none
        match kindRest with
        | some (kind, r0) =>
            (match takeIdent r0 with
             | some (vname, r1) =>
                 let r2 := wsSkip r1
                 let tyAndRest : Option (Option String × Chars) :=
                   match dropLit "::".data r2 with
                   | some r3 =>
                       let r4 := wsSkip r3
                       let run := r4.takeWhile (fun d => typeAnnChar d)
                       if run.isEmpty then none
                       else
                         (match wsSkip (r4.drop run.length) with
                          | '=' :: r5 => some (some (String.mk run), r5)
                          | _ => none)
                   | none => none
                 let noTy : Option (Option String × Chars) :=
                   match r2 with
                   | '=' :: r5 => some (none, r5)
                   | _ => none
                 (match tyAndRest.orElse (fun _ => noTy) with
                  | some (tyRaw, r5) =>
                      let r6 := wsSkip r5
                      let value := r6.takeWhile (fun d => d ≠ ';')
                      let vty : Option String := tyRaw.map (fun t =>
                        if t.data.length ≥ 2 && t.data.getLast? = some ']' &&
                            (t.data.dropLast).getLast? = some '[' then "arr" else t)
                      some ((String.mk vname, kind, vty),
                        s.length - r6.length + value.length)
                  | none => none)
             | none => none)
        | none => none
  go : Chars → Bool → Nat → List (String × String × Option String)
    | _, _, 0 => []
    | s, atStart, fuel + 1 =>
        let tryHere : Option ((String × String × Option String) × Nat) :=
          if atStart then attempt s
          else
            match s with
            | c :: rest =>
                if c = ';' || c = '\x7b' then
                  (attempt rest).map (fun pr => (pr.1, pr.2 + 1))
                else none
            | [] => none
        match tryHere with
        | some (d, len) => d :: go (s.drop len) false fuel
        | none =>
            match s with
            | [] => []
            | _ :: rest => go rest false fuel

/-- The return-statement check (transpiler.ts lines 1256–1318). -/
def returnCheckStep (filePath : String) (ifaces : List (String × InterfaceInfo))
    (aliases : List (String × String)) (lineNo : Nat) (l : Chars)
    (st : LoopSt) : Except (CompileErr × LoopSt) LoopSt :=
  match lastReturnEnd l with
  | none => .ok st
  | some retIdx =>
      match st.funcCtxStack with
      | [] => .ok st
      | ctx0 :: restCtx =>
          match ctx0.expected with
          | none => .ok st
          -- line 1260: `ctx && ctx.expected` is a JS truthiness test, so a
          -- stored empty-string return type skips every return check (and
          -- does not even record the attempt)
          | some expected =>
            if expected = "" then .ok st else
              let after := l.drop retIdx
              let before := l.take retIdx
              let exprText := cleanExpr after
              let hasValue := !exprText.isEmpty
              -- line 1274: the attempt is recorded before any throw
              let ctx := { ctx0 with sawReturnAttempt := true }
              let st := { st with funcCtxStack := ctx :: restCtx }
              if expected = "void" then
                if hasValue then
                  .error (⟨filePath, lineNo, 1,
                    "Return type mismatch: function " ++ sq ++ ctx.name ++ sq ++
                      " expects void"⟩, st)
                else .ok st
              else if !hasValue then
                .error (⟨filePath, lineNo, 1,
                  "Return type mismatch: function " ++ sq ++ ctx.name ++ sq ++
                    " expects " ++ expected⟩, st)
              else
                let av0 := getAllAccessibleVariables st.scopes
                let accessibleVars := (inlineDeclScan before).foldl
                  (fun av d => mapSet av d.1
                    ⟨d.1, d.2.1, d.2.2, d.2.1 = "let", none, lineNo, false⟩) av0
                let inferred := inferTypeFromExpr exprText accessibleVars ifaces
                match mapGet ifaces expected with
                | some iface =>
                    if (trimChars exprText).head? = some '\x7b' then
                      let req := if !iface.requiredKeys.isEmpty then iface.requiredKeys
                        else (mapKeys iface.fields).filter
                          (fun k => !iface.optionalFields.contains k)
                      if !objectLiteralHasKeys exprText req then
                        .error (⟨filePath, lineNo, 1,
                          "Return type mismatch: function " ++ sq ++ ctx.name ++
                            sq ++ " expects " ++ expected ++
                            " (missing required: " ++ String.intercalate ", " req ++
                            ")"⟩, st)
                      else
                        match validateObjectFieldTypes filePath aliases ifaces
                            exprText iface accessibleVars lineNo ctx.name with
                        | .ok _ =>
                            .ok { st with funcCtxStack :=
                              { ctx with hasValueReturn := true } :: restCtx }
                        | .error e => .error (e, st)
                    else if !matchesSimple aliases expected inferred
                        (String.mk exprText) then
                      .error (⟨filePath, lineNo, 1,
                        "Return type mismatch: function " ++ sq ++ ctx.name ++
                          sq ++ " expects " ++ expected⟩, st)
                    else .ok { st with funcCtxStack :=
                      { ctx with hasValueReturn := true } :: restCtx }
                | none =>
                    if !matchesSimple aliases expected inferred
                        (String.mk exprText) then
                      .error (⟨filePath, lineNo, 1,
                        "Return type mismatch: function " ++ sq ++ ctx.name ++
                          sq ++ " expects " ++ expected⟩, st)
                    else .ok { st with funcCtxStack :=
                      { ctx with hasValueReturn := true } :: restCtx }

/-! ## Semantic pass: statement matchers (transpiler.ts lines 1321–1362,
1564, 1712, 1777, 1939, 1959) -/

/-- `^\s*(func|function)\s+([A-Za-z_$][\w$]*)\s*\(([^)]*)\)\s*\{` (line 1321):
the in-loop function-header match (no `async` prefix here). -/
def funcHeaderLineMatch (l : Chars) : Option (String × Chars) :=
  match funcKw (wsSkip l) with
  | some r0 =>
      (match identParens r0 with
       | some (name, params, r2) =>
           if (wsSkip r2).head? = some '\x7b' then
             some (String.mk name, params)
           else none
       | none => none)
  | none => none

/-- The method parameter capture of line 1344:
`^\s*…(?:constructor|id)\s*\(([^)]*)\)\s*(?:\{)?$`. -/
def classMethodParamsMatch (l : Chars) : Option Chars :=
  match classMethodSig (wsSkip l) with
  | some (sig, r) =>
      let params :=
        match idxOfChar '(' sig with
        | some i => (sig.drop (i + 1)).dropLast
        | none => []
      let rA := wsSkip r
      let rB := match rA with
        | '\x7b' :: t => t
        | t => t
      if (rA.head? = some '\x7b' && rB.isEmpty) || rA.isEmpty then some params
      else none
  | none => none

/-- Register a raw parameter list into the current scope (lines 1327–1338,
1347–1357).  A type annotation that trims to nothing is recorded as absent
(the source stores the falsy `''`). -/
def registerParams (paramsRaw : Chars) (lineNo : Nat) (scopes : List Scope) :
    List Scope :=
  let params :=
    if (trimChars paramsRaw).isEmpty then []
    else ((splitOnChar ',' paramsRaw).map (fun p => trimChars p)).filter
      (fun p => !p.isEmpty)
  params.foldl (fun sc p =>
    let noDefault := trimChars (p.takeWhile (fun c => c ≠ '='))
    let parts := splitOnLit "::".data noDefault
    let pname := String.mk (trimChars (parts.head?.getD []))
    let pty : Option String :=
      if containsLit "::".data noDefault then
        let t := trimChars (((parts.get? 1).getD []).takeWhile (fun c => c ≠ '='))
        if t.isEmpty then none else some (String.mk t)
      else none
    addVariable sc pname ⟨pname, "let", pty, true, none, lineNo, false⟩) scopes

/-- `^\s*(let|const)\s+([A-Za-z_$][\w$]*)\s*(?:::([A-Za-z_$<>\[\]]+))?\s*=\s*(.*)$`
(line 1362).  Returns `(kind, name, typeRaw, exprStart)`. -/
def varDeclMatch (l : Chars) : Option (String × String × Option String × Chars) :=
  let s0 := wsSkip l
  let kindRest : Option (String × Chars) :=
    match (dropLit "let".data s0).bind (fun r => wsPlus r) with
    | some r => some ("let", r)
    | none =>
        match (dropLit "const".data s0).bind (fun r => wsPlus r) with
        | some r => some ("const", r)
        | none => none
  match kindRest with
  | some (kind, r0) =>
      (match takeIdent r0 with
       | some (name, r1) =>
           let r2 := wsSkip r1
           let withTy : Option (Option String × Chars) :=
             match dropLit "::".data r2 with
             | some r3 =>
                 let run := r3.takeWhile (fun d => typeAnnChar d)
                 if run.isEmpty then none
                 else
                   (match wsSkip (r3.drop run.length) with
                    | '=' :: r5 => some (some (String.mk run), r5)
                    | _ => none)
             | none => none
           let noTy : Option (Option String × Chars) :=
             match r2 with
             | '=' :: r5 => some (none, r5)
             | _ => none
           (match withTy.orElse (fun _ => noTy) with
            | some (tyRaw, r5) =>
                some (kind, String.mk name, tyRaw, wsSkip r5)
            | none => none)
       | none => none)
  | none => none

/-- `^\s*kw\s+([A-Za-z_$][\w$]*)\s*=\s*(.+);?\s*$` for `mut` (line 1564): the
greedy `(.+)` captures everything after the `=` (the optional trailing `;`
included). -/
def mutAssignMatch (kw : String) (l : Chars) : Option (String × Chars) :=
  match (dropLit kw.data (wsSkip l)).bind (fun r => wsPlus r) with
  | some r0 =>
      (match takeIdent r0 with
       | some (name, r1) =>
           (match wsSkip r1 with
            | '=' :: r2 =>
                let tail := wsSkip r2
                if tail.isEmpty then none else some (String.mk name, tail)
            | _ => none)
       | none => none)
  | none => none

/-- `^\s*inmut\s+(id)(?:\s*=\s*(.+))?;?\s*(\/\/.*)?$` (line 1712).  Returns
`(name, value?, trailing comment?)`; with a value the greedy `(.+)` captures
the rest of the line and the comment group stays empty. -/
def inmutStmtMatch (l : Chars) : Option (String × Option Chars × Option String) :=
  match (dropLit "inmut".data (wsSkip l)).bind (fun r => wsPlus r) with
  | some r0 =>
      (match takeIdent r0 with
       | some (name, r1) =>
           let withEq : Option (String × Option Chars × Option String) :=
             match wsSkip r1 with
             | '=' :: r3 =>
                 let tail := wsSkip r3
                 if tail.isEmpty then none
                 else some (String.mk name, some tail, none)
             | _ => none
           (match withEq with
            | some res => some res
            | none =>
                let rA := match r1 with
                  | ';' :: t => t
                  | t => t
                let rB := wsSkip rA
                if rB.isEmpty then some (String.mk name, none, none)
                else if startsWithLit "//".data rB then
                  some (String.mk name, none, some (String.mk rB))
                else none)
       | none => none)
  | none => none

/-- `^\s*([A-Za-z_$][\w$]*)\s*=\s*(.+);?\s*$` (line 1777). -/
def assignStmtMatch (l : Chars) : Option (String × Chars) :=
  match takeIdent (wsSkip l) with
  | some (name, r1) =>
      (match wsSkip r1 with
       | '=' :: r2 =>
           let tail := wsSkip r2
           if tail.isEmpty then none else some (String.mk name, tail)
       | _ => none)
  | none => none

/-- `\)\s*;?\s*(\/\/.*)?$`: the statement tail of the call matchers
(lines 1939, 1959).  `some none`: matches with no comment; `some (some c)`:
matches with trailing comment `c`. -/
def callTail (t : Chars) : Option (Option String) :=
  let rA := wsSkip t
  let rB := match rA with
    | ';' :: x => x
    | _ => rA
  let rC := wsSkip rB
  if rC.isEmpty then some none
  else if startsWithLit "//".data rC then some (some (String.mk rC))
  else none

/-- `^\s*call\s+([A-Za-z_$][\w$]*)\s*\(([^)]*)\)\s*;?\s*(\/\/.*)?$` (line 1939). -/
def callStmtMatch (l : Chars) : Option (String × Chars × Option String) :=
  match (dropLit "call".data (wsSkip l)).bind (fun r => wsPlus r) with
  | some r0 =>
      (match identParens r0 with
       | some (fname, argsRaw, r2) =>
           (callTail r2).map (fun com => (String.mk fname, argsRaw, com))
       | none => none)
  | none => none

/-- `^\s*([A-Za-z_$][\w$]*)\s*\((.*)\)\s*;?\s*(\/\/.*)?$` (line 1959): the
greedy `(.*)` picks the last `)` whose tail matches. -/
def normalCallMatch (l : Chars) : Option (String × Chars × Option String) :=
  match takeIdent (wsSkip l) with
  | some (name, r1) =>
      (match wsSkip r1 with
       | '(' :: rest =>
           (findClose rest.reverse []).map (fun pr =>
             (String.mk name, rest.take pr.1, pr.2))
       | _ => none)
  | none => none
where
  /-- scan backwards for the last `)` with a matching statement tail; the
  first component is the index of that `)` in the forward string. -/
  findClose : Chars → Chars → Option (Nat × Option String)
    | [], _ => none
    | c :: revRest, tail =>
        if c = ')' then
          match callTail tail with
          | some com => some (revRest.length, com)
          | none => findClose revRest (c :: tail)
        else findClose revRest (c :: tail)

/-! ## Semantic pass: the statement branches (transpiler.ts lines 1362–2057) -/

/-- The interface/alias environment threaded through the semantic pass. -/
structure SemEnv where
  filePath : String
  ifaces : List (String × InterfaceInfo)
  aliases : List (String × String)
deriving DecidableEq

/-- The array-literal right-hand-side inference used by every assignment-like
branch (e.g. lines 1414–1423): `arr<T>` when all known element types agree,
plain `arr` otherwise. -/
def arrayLitRhsType (expr : Chars) (vars : List (String × VarInfo)) : String :=
  let elementTypes := inferArrayElementTypes expr vars
  let (allSame, ty) := allElementsSameType elementTypes
  match ty with
  | some t => if allSame then "arr<" ++ t ++ ">" else "arr"
  | none => "arr"

/-- The element-wise literal-array validation shared by the branches
(lines 1484–1505, 1680–1702, 1893–1914).  `exprKeyType` is
`accessibleVars.get(expr)?.declaredType` (the source keys the lookup by the
whole expression text). -/
def elementwiseArrayCheck (filePath : String) (ifaces : List (String × InterfaceInfo))
    (vars : List (String × VarInfo)) (expr : Chars) (inner : String)
    (lineNo col : Nat) : Except CompileErr Unit := do
  let elementTypes := inferArrayElementTypes expr vars
  let exprKeyType := (mapGet vars (String.mk expr)).bind (fun v => v.declaredType)
  for elementType? in elementTypes do
    match elementType? with
    | none => pure ()
    | some elementType =>
        match exprKeyType with
        | some elementVarType =>
            if elementVarType ≠ inner &&
                !(inner = "obj" && mapHas ifaces elementVarType) then
              throw ⟨filePath, lineNo, col,
                "Type error: array element type " ++ elementVarType ++
                  " does not match array type arr<" ++ inner ++ ">"⟩
        | none =>
            if elementType ≠ inner &&
                !(inner = "obj" && mapHas ifaces elementType) then
              throw ⟨filePath, lineNo, col,
                "Type error: array element type " ++ elementType ++
                  " does not match array type arr<" ++ inner ++ ">"⟩
  pure ()

/-- The incompatible-element test of the `arr<T> = arr` literal case
(lines 1453–1464 etc.). -/
def hasIncompatibleElement (ifaces : List (String × InterfaceInfo))
    (vars : List (String × VarInfo)) (expr : Chars) (inner : String) : Bool :=
  (inferArrayElementTypes expr vars).any (fun et? =>
    match et? with
    | some et =>
        if inner = "obj" && mapHas ifaces et then false
        else et ≠ inner
    | none => false)

/-- The declaration-time type checking of the `let`/`const` branch
(transpiler.ts lines 1410–1520). -/
def varDeclTypeChecks (env : SemEnv) (funcs : List (String × FuncInfo))
    (accessibleVars : List (String × VarInfo)) (declaredType : String)
    (expr : Chars) (l : Chars) (name : String) (lineNo : Nat) :
    Except CompileErr Unit := do
  let col := colOf name l
  let isArrLit := (trimChars expr).head? = some '['
  let rhsType0 : Option String :=
    if isArrLit then some (arrayLitRhsType expr accessibleVars)
    else
      match analyzeExprType funcs accessibleVars env.ifaces expr with
      | some t => some t
      | none => (mapGet accessibleVars (String.mk expr)).bind (fun v => v.declaredType)
  let rhsType := rhsType0.getD declaredType
  let (dBase, dInner) := extractArrayType declaredType
  let (rBase, rInner) := extractArrayType rhsType
  if dBase = "arr" && rBase = "arr" then
    match dInner, rInner with
    | some di, some ri =>
        if di ≠ ri && !(di = "obj" && mapHas env.ifaces ri) then
          throw ⟨env.filePath, lineNo, col,
            "Type error: cannot assign arr<" ++ ri ++ "> to arr<" ++ di ++ "> " ++
              sq ++ name ++ sq⟩
    | some di, none =>
        if isArrLit then
          if hasIncompatibleElement env.ifaces accessibleVars expr di then
            throw ⟨env.filePath, lineNo, col,
              "Type error: cannot assign mixed array to typed array arr<" ++ di ++
                "> " ++ sq ++ name ++ sq⟩
        -- a non-literal source of unknown inner type is accepted here
    | _, _ => pure ()
  else if declaredType ≠ rhsType &&
      !(mapHas env.ifaces declaredType && rhsType = "obj") then
    throw ⟨env.filePath, lineNo, col,
      "Type error: cannot assign " ++ rhsType ++ " to " ++ declaredType ++ " " ++
        sq ++ name ++ sq⟩
  -- element-wise literal validation (lines 1484–1505)
  (match dInner with
   | some di =>
       if dBase = "arr" && isArrLit then
         elementwiseArrayCheck env.filePath env.ifaces accessibleVars expr di
           lineNo col
       else pure ()
   | none => pure ())
  -- structural interface check (lines 1507–1520)
  match mapGet env.ifaces declaredType with
  | some iface =>
      if (trimChars expr).head? = some '\x7b' then do
        let requiredKeys := if !iface.requiredKeys.isEmpty then iface.requiredKeys
          else (mapKeys iface.fields).filter
            (fun k => !iface.optionalFields.contains k)
        if !objectLiteralHasKeys expr requiredKeys then
          throw ⟨env.filePath, lineNo, 1,
            "Interface error: object assigned to " ++ sq ++ name ++ sq ++
              " does not satisfy interface " ++ sq ++ declaredType ++ sq ++
              ". Required fields: " ++ String.intercalate ", " requiredKeys⟩
        validateObjectFieldTypes env.filePath env.aliases env.ifaces expr iface
          accessibleVars lineNo name
      else pure ()
  | none => pure ()

/-- The multiline-object reconstruction of the declaration branch
(lines 1386–1402): append following original lines while braces stay open. -/
def collectMultiline (origLines : List Chars) (idx : Nat) (exprStart : Chars) :
    Chars × Nat :=
  let count : Int := (countChar '\x7b' exprStart : Int) - countChar '\x7d' exprStart
  go exprStart count idx origLines.length where
  go : Chars → Int → Nat → Nat → Chars × Nat
    | expr, _, currentIdx, 0 => (expr, currentIdx)
    | expr, count, currentIdx, fuel + 1 =>
        if count > 0 && currentIdx < origLines.length - 1 then
          let nextLine := (origLines.get? (currentIdx + 1)).getD []
          let expr' := expr ++ ' ' :: trimChars nextLine
          let count' := count + (countChar '\x7b' nextLine : Int) -
            countChar '\x7d' nextLine
          go expr' count' (currentIdx + 1) fuel
        else (expr, currentIdx)

/-- The `let`/`const` declaration branch (transpiler.ts lines 1362–1561).
Returns `none` when the line is not a declaration; otherwise the updated
state and the next line index. -/
def varDeclBranch (env : SemEnv) (origLines : List Chars) (idx lineNo : Nat)
    (l : Chars) (st : LoopSt) :
    Option (Except (CompileErr × LoopSt) (LoopSt × Nat)) :=
  match varDeclMatch l with
  | none => none
  | some (kind, name, typeRaw, exprStart) => some (do
      let upgradingImplicit ←
        if hasInCurrentScope st.scopes name then
          match st.scopes.head?.bind (fun sc => mapGet sc.vars name) with
          | some cur =>
              if cur.implicit then pure true
              else throw (⟨env.filePath, lineNo, colOf name l,
                "Redeclaration of variable " ++ sq ++ name ++ sq ++
                  " in the same scope"⟩, st)
          | none => pure true
        else pure false
      let declaredType : Option String := typeRaw.map (fun t =>
        if t.data.length ≥ 2 && t.data.getLast? = some ']' &&
            (t.data.dropLast).getLast? = some '[' then "arr" else t)
      let (expr0, currentIdx) := collectMultiline origLines idx exprStart
      let expr := cleanExpr expr0
      let accessibleVars := getAllAccessibleVariables st.scopes
      (match declaredType with
       | some dt =>
           (match varDeclTypeChecks env st.funcs accessibleVars dt expr l name
               lineNo with
            | .ok _ => pure ()
            | .error e => throw (e, st))
       | none => pure ())
      let scopes' :=
        if upgradingImplicit then
          match st.scopes with
          | sc :: rest =>
              (match mapGet sc.vars name with
               | some cur =>
                   { sc with vars := (mapSet sc.vars name
                       ({ cur with declaredKind := kind,
                                   declaredType :=
                                     declaredType.orElse (fun _ => cur.declaredType),
                                   mutable := kind = "let",
                                   implicit := false })) } :: rest
               | none => sc :: rest)
          | [] => []
        else
          addVariable st.scopes name ⟨name, kind, declaredType, kind = "let",
            none, lineNo, false⟩
      let outputLine0 :=
        if upgradingImplicit then name.data ++ " = ".data ++ expr ++ [';'] else l
      let outputLine1 :=
        if currentIdx > idx then
          joinLines ((origLines.drop idx).take (currentIdx + 1 - idx))
        else outputLine0
      let outputLine := expandMaybe (stripColonTypes outputLine1)
      return (LoopSt.push { st with scopes := scopes' } outputLine, currentIdx + 1))

/-- The `mut Name = Expr` branch (transpiler.ts lines 1563–1709). -/
def mutBranch (env : SemEnv) (lineNo : Nat) (l : Chars) (st : LoopSt) :
    Option (Except (CompileErr × LoopSt) LoopSt) :=
  match mutAssignMatch "mut" l with
  | none => none
  | some (name, exprRaw) => some (do
      let expr := cleanExpr exprRaw
      let accessibleVars := getAllAccessibleVariables st.scopes
      match findVariable st.scopes name with
      | none =>
          -- lines 1573–1603: implicit declaration
          let inferredType : Option String :=
            if (trimChars expr).head? = some '[' then
              some (arrayLitRhsType expr accessibleVars)
            else analyzeExprType st.funcs accessibleVars env.ifaces expr
          let st := { st with scopes := (addVariable st.scopes name
            ⟨name, "let", inferredType, true, none, lineNo, true⟩) }
          let outputLine := expandMaybe (name.data ++ " = ".data ++ expr ++ [';'])
          return LoopSt.emit st outputLine lineNo
      | some existingVar =>
          -- line 1606: the inmut check comes first
          (match existingVar.inmutedAtLine with
           | some k =>
               if lineNo > k then
                 throw (⟨env.filePath, lineNo, colOf name l,
                   "cannot reassign " ++ name ++ " after inmut at line " ++
                     toString k⟩, st)
               else pure ()
           | none => pure ())
          -- line 1610: mark mutable before the type checks
          let st := { st with scopes := (updateVariable st.scopes name
            (fun v => { v with mutable := true })) }
          let rhsType0 : Option String :=
            if (trimChars expr).head? = some '[' then
              some (arrayLitRhsType expr accessibleVars)
            else
              match inferTypeFromExpr expr accessibleVars env.ifaces with
              | some t => some t
              | none => (mapGet accessibleVars (String.mk expr)).bind
                  (fun v => v.declaredType)
          let rhsType := match rhsType0 with
            | some t => some t
            | none => existingVar.declaredType
          let col := colOf name l
          let (dBase, dInner) := extractArrayType (existingVar.declaredType.getD "null")
          let (_, rInner) := extractArrayType (rhsType.getD "null")
          let rBase := (extractArrayType (rhsType.getD "null")).1
          if dBase = "arr" && rBase = "arr" then
            match dInner, rInner with
            | some di, some ri =>
                if di ≠ ri && !(di = "obj" && mapHas env.ifaces ri) then
                  throw (⟨env.filePath, lineNo, col,
                    "Type error: cannot assign arr<" ++ ri ++ "> to arr<" ++ di ++
                      "> " ++ sq ++ name ++ sq⟩, st)
                else pure ()
            | some di, none =>
                if (trimChars expr).head? = some '[' then
                  if hasIncompatibleElement env.ifaces accessibleVars expr di then
                    throw (⟨env.filePath, lineNo, col,
                      "Type error: cannot assign mixed array to typed array arr<" ++
                        di ++ "> " ++ sq ++ name ++ sq⟩, st)
                  else pure ()
                else
                  -- line 1669: unlike the declaration branch this throws
                  throw (⟨env.filePath, lineNo, col,
                    "Type error: cannot assign mixed array to typed array arr<" ++
                      di ++ "> " ++ sq ++ name ++ sq⟩, st)
            | _, _ => pure ()
          else
            match existingVar.declaredType, rhsType with
            | some dt, some rt =>
                if dt ≠ rt && !(mapHas env.ifaces dt && rt = "obj") then
                  throw (⟨env.filePath, lineNo, col,
                    "Type error: cannot assign " ++ rt ++ " to " ++ dt ++ " " ++
                      sq ++ name ++ sq⟩, st)
                else pure ()
            | _, _ => pure ()
          (match dInner with
           | some di =>
               if dBase = "arr" && (trimChars expr).head? = some '[' then
                 (match elementwiseArrayCheck env.filePath env.ifaces
                     accessibleVars expr di lineNo col with
                  | .ok _ => pure ()
                  | .error e => throw (e, st))
               else pure ()
           | none => pure ())
          let outputLine := expandMaybe (name.data ++ " = ".data ++ expr ++ [';'])
          return LoopSt.push st outputLine)

/-- The `inmut` branch (transpiler.ts lines 1711–1774). -/
def inmutBranch (env : SemEnv) (lineNo : Nat) (l : Chars) (st : LoopSt) :
    Option (Except (CompileErr × LoopSt) LoopSt) :=
  match inmutStmtMatch l with
  | none => none
  | some (name, exprRaw?, comment?) => some (do
      match findVariable st.scopes name with
      | none =>
          throw (⟨env.filePath, lineNo, colOf name l,
            "inmut on undeclared variable " ++ sq ++ name ++ sq⟩, st)
      | some existingVar =>
          let accessibleVars := getAllAccessibleVariables st.scopes
          match exprRaw? with
          | some exprRaw =>
              let expr := cleanExpr exprRaw
              let rhsType0 : Option String :=
                if (trimChars expr).head? = some '[' then
                  some (arrayLitRhsType expr accessibleVars)
                else
                  match inferTypeFromExpr expr accessibleVars env.ifaces with
                  | some t => some t
                  | none => (mapGet accessibleVars (String.mk expr)).bind
                      (fun v => v.declaredType)
              let rhsType := match rhsType0 with
                | some t => some t
                | none => existingVar.declaredType
              (match existingVar.declaredType, rhsType with
               | some dt, some rt =>
                   if dt ≠ rt && !(mapHas env.ifaces dt && rt = "obj") then
                     throw (⟨env.filePath, lineNo, colOf name l,
                       "Type error: cannot assign " ++ rt ++ " to " ++ dt ++
                         " " ++ sq ++ name ++ sq⟩, st)
                   else pure ()
               | _, _ => pure ())
              let st := { st with scopes := (updateVariable st.scopes name
                (fun v => { v with inmutedAtLine := some lineNo, mutable := false })) }
              let outputLine := expandMaybe (name.data ++ " = ".data ++ expr ++ [';'])
              return LoopSt.push st outputLine
          | none =>
              let st := { st with scopes := (updateVariable st.scopes name
                (fun v => { v with inmutedAtLine := some lineNo, mutable := false })) }
              let outputLine := "/* inmut ".data ++ name.data ++ " */".data ++
                (match comment? with
                 | some com => ' ' :: com.data
                 | none => [])
              return LoopSt.push st outputLine)

/-- The implicit-declaration side of the plain-assignment branch
(transpiler.ts lines 1781–1811): an assignment to an unbound name declares it. -/
def assignImplicitDecl (env : SemEnv) (lineNo : Nat) (st : LoopSt)
    (name : String) (expr : Chars)
    (accessibleVars : List (String × VarInfo)) :
    Except (CompileErr × LoopSt) LoopSt :=
  let inferred : Option String :=
    if (trimChars expr).head? = some '[' then
      some (arrayLitRhsType expr accessibleVars)
    else analyzeExprType st.funcs accessibleVars env.ifaces expr
  let st := { st with scopes := (addVariable st.scopes name
    ⟨name, "let", inferred, true, none, lineNo, true⟩) }
  let outputLine := expandMaybe (name.data ++ " = ".data ++ expr ++ [';'])
  return LoopSt.push st outputLine

/-- The bound-name side of the plain-assignment branch (transpiler.ts
lines 1813–1936): the const check comes first, then the inmut check, then the
type-compatibility and interface checks. -/
def assignExistingCheck (env : SemEnv) (lineNo : Nat) (l : Chars) (st : LoopSt)
    (name : String) (expr : Chars)
    (accessibleVars : List (String × VarInfo)) (existingVar : VarInfo) :
    Except (CompileErr × LoopSt) LoopSt := do
          if existingVar.declaredKind = "const" then
            throw (⟨env.filePath, lineNo, colOf name l,
              "cannot reassign const " ++ name⟩, st)
          else pure ()
          (match existingVar.inmutedAtLine with
           | some k =>
               if lineNo > k then
                 throw (⟨env.filePath, lineNo, colOf name l,
                   "cannot reassign " ++ name ++ " after inmut at line " ++
                     toString k⟩, st)
               else pure ()
           | none => pure ())
          let rhsType0 : Option String :=
            if (trimChars expr).head? = some '[' then
              some (arrayLitRhsType expr accessibleVars)
            else
              match analyzeExprType st.funcs accessibleVars env.ifaces expr with
              | some t => some t
              | none => (mapGet accessibleVars (String.mk expr)).bind
                  (fun v => v.declaredType)
          let rhsType := match rhsType0 with
            | some t => some t
            | none => existingVar.declaredType
          let col := colOf name l
          let (dBase, dInner) := extractArrayType (existingVar.declaredType.getD "null")
          let (rBase, rInner) := extractArrayType (rhsType.getD "null")
          if dBase = "arr" && rBase = "arr" then
            match dInner, rInner with
            | some di, some ri =>
                if di ≠ ri && !(di = "obj" && mapHas env.ifaces ri) then
                  throw (⟨env.filePath, lineNo, col,
                    "Type error: cannot assign arr<" ++ ri ++ "> to arr<" ++ di ++
                      "> " ++ sq ++ name ++ sq⟩, st)
                else pure ()
            | some di, none =>
                if (trimChars expr).head? = some '[' then
                  if hasIncompatibleElement env.ifaces accessibleVars expr di then
                    throw (⟨env.filePath, lineNo, col,
                      "Type error: cannot assign mixed array to typed array arr<" ++
                        di ++ "> " ++ sq ++ name ++ sq⟩, st)
                  else pure ()
                else
                  throw (⟨env.filePath, lineNo, col,
                    "Type error: cannot assign mixed array to typed array arr<" ++
                      di ++ "> " ++ sq ++ name ++ sq⟩, st)
            | _, _ => pure ()
          else
            match existingVar.declaredType, rhsType with
            | some dt, some rt =>
                if dt ≠ rt && !(mapHas env.ifaces dt && rt = "obj") then
                  throw (⟨env.filePath, lineNo, col,
                    "Type error: cannot assign " ++ rt ++ " to " ++ dt ++ " " ++
                      sq ++ name ++ sq⟩, st)
                else pure ()
            | _, _ => pure ()
          (match dInner with
           | some di =>
               if dBase = "arr" && (trimChars expr).head? = some '[' then
                 (match elementwiseArrayCheck env.filePath env.ifaces
                     accessibleVars expr di lineNo col with
                  | .ok _ => pure ()
                  | .error e => throw (e, st))
               else pure ()
           | none => pure ())
          -- interface validation for object literals (lines 1917–1929;
          -- the per-field validation is disabled in the source)
          (match existingVar.declaredType.bind (fun dt => mapGet env.ifaces dt) with
           | some iface =>
               if (trimChars expr).head? = some '\x7b' then
                 let requiredKeys := if !iface.requiredKeys.isEmpty then
                     iface.requiredKeys
                   else (mapKeys iface.fields).filter
                     (fun k => !iface.optionalFields.contains k)
                 if !objectLiteralHasKeys expr requiredKeys then
                   throw (⟨env.filePath, lineNo, 1,
                     "Interface error: assignment to " ++ sq ++ name ++ sq ++
                       " does not satisfy interface " ++ sq ++
                       (existingVar.declaredType.getD "") ++ sq ++
                       ". Required fields: " ++
                       String.intercalate ", " requiredKeys⟩, st)
                 else pure ()
               else pure ()
           | none => pure ())
          -- line 1931
          let st :=
            if existingVar.declaredType.isNone && rhsType.isSome then
              { st with scopes := (updateVariable st.scopes name
                (fun v => { v with declaredType := rhsType })) }
            else st
          let outputLine := expandMaybe (name.data ++ " = ".data ++ expr ++ [';'])
          return LoopSt.emit st outputLine lineNo

/-- The plain-assignment branch (transpiler.ts lines 1776–1936). -/
def assignBranch (env : SemEnv) (lineNo : Nat) (l : Chars) (st : LoopSt) :
    Option (Except (CompileErr × LoopSt) LoopSt) :=
  match assignStmtMatch l with
  | none => none
  | some (name, exprRaw) => some (
      let expr := cleanExpr exprRaw
      let accessibleVars := getAllAccessibleVariables st.scopes
      match findVariable st.scopes name with
      | none => assignImplicitDecl env lineNo st name expr accessibleVars
      | some existingVar =>
          assignExistingCheck env lineNo l st name expr accessibleVars
            existingVar)

/-- The `call F(...)` branch (transpiler.ts lines 1938–1956). -/
def callBranch (env : SemEnv) (lineNo : Nat) (l : Chars) (st : LoopSt) :
    Option (Except (CompileErr × LoopSt) LoopSt) :=
  match callStmtMatch l with
  | none => none
  | some (fname, argsRaw, trailingComment) => some (do
      if !mapHas st.funcs fname then
        throw (⟨env.filePath, lineNo, colOf fname l,
          "call error: function " ++ sq ++ fname ++ sq ++ " not found"⟩, st)
      else pure ()
      (match mapGet st.calledViaCall fname with
       | some prev =>
           throw (⟨env.filePath, lineNo, colOf fname l,
             "call error: function " ++ sq ++ fname ++ sq ++
               " already called by " ++ sq ++ "call" ++ sq ++ " at line " ++
               toString prev⟩, st)
       | none => pure ())
      let st := { st with calledViaCall := mapSet st.calledViaCall fname lineNo }
      let args := expandMaybe (trimChars argsRaw)
      let comTxt := match trailingComment with
        | some com => ' ' :: com.data
        | none => []
      let outputLine :=
        if !args.isEmpty then fname.data ++ '(' :: args ++ ')' :: ';' :: comTxt
        else fname.data ++ "();".data ++ comTxt
      return LoopSt.emit st outputLine lineNo)

/-- The plain-invocation branch (transpiler.ts lines 1958–2021). -/
def normalCallBranch (env : SemEnv) (lineNo : Nat) (l : Chars) (st : LoopSt) :
    Option (Except (CompileErr × LoopSt) LoopSt) :=
  match normalCallMatch l with
  | none => none
  | some (fname, argsRaw, _) => some (do
      (match mapGet st.calledViaCall fname with
       | some prev =>
           throw (⟨env.filePath, lineNo, colOf fname l,
             "call error: function " ++ sq ++ fname ++ sq ++
               " was marked call-once at line " ++ toString prev ++
               " and cannot be called again"⟩, st)
       | none => pure ())
      (match mapGet st.funcs fname with
       | some finfo => do
           let argsList0 :=
             if !(trimChars argsRaw).isEmpty then
               ((splitOnChar ',' argsRaw).map (fun a => trimChars a)).filter
                 (fun a => !a.isEmpty)
             else []
           let argsList := argsList0.map (fun a => expandMaybe a)
           if argsList.length ≠ finfo.params.length then
             throw (⟨env.filePath, lineNo, colOf fname l,
               "Call error: function " ++ sq ++ fname ++ sq ++ " expects " ++
                 toString finfo.params.length ++ " args but got " ++
                 toString argsList.length⟩, st)
           else pure ()
           let accessibleVars := getAllAccessibleVariables st.scopes
           for kp in (finfo.params.zip argsList).enum do
             let k := kp.1
             let pinfo := kp.2.1
             let arg := kp.2.2
             let argType0 : Option String :=
               match inferTypeFromExpr arg accessibleVars env.ifaces with
               | some t => some t
               | none => (mapGet accessibleVars (String.mk arg)).bind
                   (fun v => v.declaredType)
             let argType : Option String :=
               match argType0 with
               | some t => some t
               | none =>
                   (match mapGet accessibleVars (String.mk arg) with
                    | some vi => vi.declaredType
                    | none => none)
             match pinfo.type.bind (fun t => (mapGet env.ifaces t).map (t, ·)) with
             | some (pt, iface) =>
                 if (trimChars arg).head? = some '\x7b' then
                   if !objectLiteralHasKeys arg (mapKeys iface.fields) then
                     throw (⟨env.filePath, lineNo, 1,
                       "Type error: argument " ++ toString (k + 1) ++ " of " ++
                         sq ++ fname ++ sq ++ " does not satisfy interface " ++
                         sq ++ pt ++ sq ++ ". Required fields: " ++
                         String.intercalate ", " (mapKeys iface.fields)⟩, st)
                   else pure ()
                 else
                   (match mapGet accessibleVars (String.mk arg) with
                    | some av =>
                        if av.declaredType ≠ some pt &&
                            !(mapHas env.ifaces (av.declaredType.getD "null") &&
                              pt = "obj") then
                          throw (⟨env.filePath, lineNo,
                            colOf (String.mk arg) l,
                            "Type error: argument " ++ toString (k + 1) ++
                              " of " ++ sq ++ fname ++ sq ++ " expects " ++ sq ++
                              pt ++ sq ++ " but got " ++ sq ++
                              (av.declaredType.getD "unknown") ++ sq⟩, st)
                        else pure ()
                    | none =>
                        throw (⟨env.filePath, lineNo, colOf (String.mk arg) l,
                          "Type error: argument " ++ toString (k + 1) ++ " of " ++
                            sq ++ fname ++ sq ++ " expects " ++ sq ++ pt ++ sq ++
                            " but got " ++ sq ++ "unknown" ++ sq⟩, st))
             | none =>
                 (match pinfo.type, argType with
                  | some pt, some at' =>
                      if pt ≠ at' && !(pt = "obj" && mapHas env.ifaces at') then
                        throw (⟨env.filePath, lineNo, colOf (String.mk arg) l,
                          "Type error: argument " ++ toString (k + 1) ++ " of " ++
                            sq ++ fname ++ sq ++ " expects " ++ pt ++
                            " but got " ++ at'⟩, st)
                      else pure ()
                  | _, _ => pure ())
       | none => pure ())
      let outputLine := expandMaybe (stripColonTypes l)
      return LoopSt.push st outputLine)

/-! ## Semantic pass: the per-line driver (transpiler.ts lines 1060–2066) -/

/-- Test `^\s*interface\s` (line 1068). -/
def startsWithIfaceKw (l : Chars) : Bool :=
  match dropLit "interface".data (wsSkip l) with
  | some (c :: _) => jsWs c
  | _ => false

/-- `L.replace(/\bfunc\b/, "function")` — first occurrence only (line 2039). -/
def replaceFirstFuncKw (s : Chars) : Chars :=
  go s none where
  go : Chars → Option Char → Chars
    | [], _ => []
    | s@(c :: rest), prev =>
        if wordBoundaryBefore prev && startsWithLit "func".data s &&
            wordBoundaryAfter (s.drop 4).head? then
          "function".data ++ s.drop 4
        else c :: go rest (some c)

/-- `^\s*func\s+([A-Za-z_$][\w$]*)\s*\(([^)]*)\)\s*\{` (line 2025). -/
def funcOnlyHeaderMatch (l : Chars) : Option (String × Chars) :=
  match (dropLit "func".data (wsSkip l)).bind (fun r => wsPlus r) with
  | some r0 =>
      (match identParens r0 with
       | some (name, params, r2) =>
           if (wsSkip r2).head? = some '\x7b' then some (String.mk name, params)
           else none
       | none => none)
  | none => none

/-- `^\s*function\s+([A-Za-z_$][\w$]*)\s*\(([^)]*)\)\s*\{` (line 2046). -/
def jsFuncHeaderMatchTest (l : Chars) : Bool :=
  match (dropLit "function".data (wsSkip l)).bind (fun r => wsPlus r) with
  | some r0 =>
      (match identParens r0 with
       | some (_, _, r2) => (wsSkip r2).head? = some '\x7b'
       | none => false)
  | none => false

/-- One iteration of the semantic loop (the `try` body, lines 1065–2057).
Returns the updated state and the next line index. -/
def semLineBody (env : SemEnv) (origLines : List Chars) (idx : Nat)
    (st : LoopSt) : Except (CompileErr × LoopSt) (LoopSt × Nat) := do
  let raw := (origLines.get? idx).getD []
  let lineNo := idx + 1
  -- interface blocks are skipped entirely (lines 1067–1088)
  if startsWithIfaceKw raw then
    let depth : Int := match idxOfChar '\x7b' raw with
      | some i =>
          1 + (countChar '\x7b' (raw.drop (i + 1)) : Int) -
            countChar '\x7d' (raw.drop (i + 1))
      | none => 1
    if depth ≤ 0 then return ({ st with inIface := false, ifaceDepth := 0 }, idx + 1)
    else return ({ st with inIface := true, ifaceDepth := depth }, idx + 1)
  else if st.inIface then
    let depth := st.ifaceDepth + (countChar '\x7b' raw : Int) - countChar '\x7d' raw
    if depth ≤ 0 then return ({ st with inIface := false, ifaceDepth := 0 }, idx + 1)
    else return ({ st with ifaceDepth := depth }, idx + 1)
  else
    let st ← scopeOpenStep env.filePath env.ifaces env.aliases lineNo raw st
    let st ← closeBracesStep env.filePath lineNo raw st
    if isBlankOrComment raw then return (LoopSt.emit st raw lineNo, idx + 1)
    else
      let l := rewriteLineForEmit raw
      let st ← returnCheckStep env.filePath env.ifaces env.aliases lineNo l st
      -- function/method parameter registration (lines 1320–1358)
      let funcHeaderM := funcHeaderLineMatch l
      let st := match funcHeaderM with
        | some (_, params) =>
            { st with scopes := registerParams params lineNo st.scopes }
        | none => st
      let st :=
        if funcHeaderM.isNone &&
            (classMethodWithBrace raw || classMethodNoBrace raw) then
          match classMethodParamsMatch l with
          | some params =>
              { st with scopes := registerParams params lineNo st.scopes }
          | none => st
        else st
      match varDeclBranch env origLines idx lineNo l st with
      | some r => r
      | none =>
      match mutBranch env lineNo l st with
      | some r => r.map (fun st' => (st', idx + 1))
      | none =>
      match inmutBranch env lineNo l st with
      | some r => r.map (fun st' => (st', idx + 1))
      | none =>
      match assignBranch env lineNo l st with
      | some r => r.map (fun st' => (st', idx + 1))
      | none =>
      match callBranch env lineNo l st with
      | some r => r.map (fun st' => (st', idx + 1))
      | none =>
      match normalCallBranch env lineNo l st with
      | some r => r.map (fun st' => (st', idx + 1))
      | none =>
      -- `func` header emission (lines 2024–2043)
      match funcOnlyHeaderMatch l with
      | some (fname, paramsRaw) =>
          let st :=
            if mapHas st.funcs fname then st
            else { st with funcs := (mapSet st.funcs fname
              ⟨fname, parseTypedParams paramsRaw, lineNo, none, none⟩) }
          let clean := expandMaybe (stripColonTypes (replaceFirstFuncKw l))
          return (LoopSt.emit st clean lineNo, idx + 1)
      | none =>
      -- already-JS function header (lines 2045–2052)
      if jsFuncHeaderMatchTest l then
        return (LoopSt.push st (expandMaybe (stripColonTypes l)), idx + 1)
      else
        -- default emission (lines 2054–2057)
        return (LoopSt.push st (expandMaybe (stripColonTypes l)), idx + 1)

/-- The semantic loop with its per-line failure boundary (lines 1061–2066):
a `CompileError` becomes a diagnostic whose message is the full
`file:line:col  message` text, and the loop continues with the next line. -/
def semLoop (env : SemEnv) (origLines : List Chars) :
    Nat → Nat → LoopSt → LoopSt
  | 0, _, st => st
  | fuel + 1, idx, st =>
      if idx ≥ origLines.length then st
      else
        match semLineBody env origLines idx st with
        | .ok (st', next) => semLoop env origLines fuel next st'
        | .error (e, st') =>
            semLoop env origLines fuel (idx + 1)
              { st' with diags := st'.diags ++ [⟨e.line, e.column, e.fullMessage⟩] }

/-! ## Post-pass typed-object interface check (transpiler.ts lines 2068–2101) -/

/-- `isInBlockComment` (lines 2071–2082). -/
def isInBlockComment (src : Chars) (idx : Nat) : Bool :=
  go src idx 0 where
  go : Chars → Nat → Nat → Bool
    | _, 0, depth => depth > 0
    | [], _, depth => depth > 0
    | '/' :: '*' :: rest, i + 1, depth =>
        if i = 0 then depth > 0 else go rest (i - 1) (depth + 1)
    | '*' :: '/' :: rest, i + 1, depth =>
        if depth > 0 then
          if i = 0 then depth > 0 else go rest (i - 1) (depth - 1)
        else go ('/' :: rest) i depth
    | _ :: rest, i + 1, depth => go rest i depth

/-- One match attempt of `typedObjRx` =
`\b(let|const)\s+(id)::(id)\s*=\s*({[\s\S]*?});` (line 2070): returns
`(varname, ifaceName, objLiteral, match length)`. -/
def typedObjAt (s : Chars) : Option (String × String × Chars × Nat) :=
  let kindRest : Option Chars :=
    match (dropLit "let".data s).bind (fun r => wsPlus r) with
    | some r => some r
    | none => (dropLit "const".data s).bind (fun r => wsPlus r)
  match kindRest with
  | some r0 =>
      (match takeIdent r0 with
       | some (varname, r1) =>
           (match dropLit "::".data r1 with
            | some r2 =>
                (match takeIdent r2 with
                 | some (ifaceName, r3) =>
                     (match wsSkip r3 with
                      | '=' :: r3b =>
                        (match wsSkip r3b with
                         | '\x7b' :: r4 =>
                           -- lazy `[\s\S]*?` to the first `};`
                           (match idxOfLit ("\x7d;").data r4 with
                            | some j =>
                                let objLiteral := '\x7b' :: (r4.take (j + 1))
                                let consumed := s.length - r4.length + j + 2
                                some (String.mk varname, String.mk ifaceName,
                                  objLiteral, consumed)
                            | none => none)
                         | _ => none)
                      | _ => none)
                 | none => none)
            | none => none)
       | none => none)
  | none => none

/-- The post-pass `typedObjRx` loop (lines 2083–2101).  Unlike the semantic
pass this check THROWS: its `CompileError` escapes `transpileSpark`. -/
def typedObjCheck (filePath : String) (src : Chars)
    (ifaces : List (String × InterfaceInfo)) : Except CompileErr Unit :=
  go src none 0 (src.length + 1) where
  go : Chars → Option Char → Nat → Nat → Except CompileErr Unit
    | _, _, _, 0 => .ok ()
    | [], _, _, _ => .ok ()
    | s@(c :: rest), prev, pos, fuel + 1 =>
        let m := if wordBoundaryBefore prev then typedObjAt s else none
        match m with
        | some (varname, ifaceName, objLiteral, consumed) =>
            -- skip `//`-commented lines and block comments (lines 2086–2091)
            let lineStart := match lastNewlineIdx (src.take pos) with
              | some k => k + 1
              | none => 0
            let pre := (src.drop lineStart).take (pos - lineStart)
            if startsWithLit "//".data (wsSkip pre) then
              go (s.drop consumed) (some ';') (pos + consumed) fuel
            else if isInBlockComment src pos then
              go (s.drop consumed) (some ';') (pos + consumed) fuel
            else
              (match mapGet ifaces ifaceName with
               | some iface =>
                   let requiredKeys :=
                     if !iface.requiredKeys.isEmpty then iface.requiredKeys
                     else mapKeys iface.fields
                   if !objectLiteralHasKeys objLiteral requiredKeys then
                     .error ⟨filePath, lineOfPrefix (src.take pos), 1,
                       "Interface error: object assigned to " ++ sq ++ varname ++
                         sq ++ " does not satisfy interface " ++ sq ++ ifaceName ++
                         sq ++ ". Required fields: " ++
                         String.intercalate ", " requiredKeys⟩
                   else go (s.drop consumed) (some ';') (pos + consumed) fuel
               | none => go (s.drop consumed) (some ';') (pos + consumed) fuel)
        | none => go rest (some c) (pos + 1) fuel

/-! ## Phase 5: assembly and final validation (transpiler.ts lines 2103–2140) -/

/-- `outCode.replace(/;{2,}/g, ";")` (line 2105). -/
def collapseSemis (s : Chars) : Chars :=
  go s s.length where
  go : Chars → Nat → Chars
    | s, 0 => s
    | [], _ => []
    | ';' :: rest, fuel + 1 => ';' :: go (rest.dropWhile (fun c => c = ';')) fuel
    | c :: rest, fuel + 1 => c :: go rest fuel

/-- `outCode.replace(/\r\n/g, "\n")` (line 2106). -/
def normalizeCrLf (s : Chars) : Chars :=
  match s with
  | [] => []
  | '\r' :: '\n' :: rest => '\n' :: normalizeCrLf rest
  | c :: rest => c :: normalizeCrLf rest

/-- The comment strip of the final-parse retry (lines 2126–2128):
`/\/\*[\s\S]*?\*\//g` then `/\/\/.*$/gm`. -/
def stripAllComments (s : Chars) : Chars :=
  joinLines ((splitLines (stripBlock s (s.length + 1))).map stripLine) where
  stripBlock : Chars → Nat → Chars
    | s, 0 => s
    | [], _ => []
    | s@(c :: rest), fuel + 1 =>
        if startsWithLit "/*".data s then
          match idxOfLit "*/".data (s.drop 2) with
          | some j => stripBlock (s.drop (j + 4)) fuel
          | none => c :: stripBlock rest fuel
        else c :: stripBlock rest fuel
  stripLine : Chars → Chars
    | l => match idxOfLit "//".data l with
      | some i => l.take i
      | none => l

/-- `outLineToSourceLine[jsLine - 1] || jsLine` over the out entries, any
missing entry defaulting to its own index (lines 2108–2113, 2135). -/
def outMapLookup (out : List (Chars × Option Nat)) (jsLine : Nat) : Nat :=
  match out.get? (jsLine - 1) with
  | some (_, some v) => if v = 0 then jsLine else v
  | some (_, none) => jsLine   -- normalized to its own index (line 2111)
  | none => jsLine

/-- The fast path of `transpileSpark` (lines 466–476): when the whole trimmed
file matches `^\{[\s\S]*\}$` and the wrapped form parses, return it as a
default-exported object; a parse failure falls through to the pipeline. -/
def fastPathResult (oracle : Oracle) (sourceCode : String) :
    Option TranspileResult :=
  let trimmed := trimChars sourceCode.data
  if trimmed.head? = some '\x7b' && trimmed.getLast? = some '\x7d' then
    let wrapped := String.mk ("export default ".data ++ trimmed)
    if (oracle wrapped).isNone then some ⟨wrapped, []⟩ else none
  else none

/-- `transpileSpark` (transpiler.ts lines 462–2140), with the host-grammar
oracle as a parameter.  A thrown `CompileError` is `Except.error`. -/
def transpileSpark (oracle : Oracle) (sourceCode : String)
    (filePath : String := "<input>.sp") : Except CompileErr TranspileResult :=
  let src := sourceCode.data
  match fastPathResult oracle sourceCode with
  | some res => .ok res
  | none => do
      let (ifaces, cleanedWork) ← extractInterfaces filePath src
      let aliases ← extractTypeAliases filePath src ifaces
      let cleaned := cleanedForParse cleanedWork
      let m := buildParsedToSourceMap src
      match oracle (String.mk cleaned) with
      | some e =>
          -- phase-3 hard gate (lines 669–677)
          let parsedLine := if e.line = 0 then 1 else e.line
          let line := mapParsedLine m parsedLine
          return ⟨"", [⟨line, e.column, "Syntax error (mapped): " ++ e.msg⟩]⟩
      | none =>
          let funcs0 := funcDeclScan src
          let funcs1 := jsFuncScan cleaned funcs0
          let origLines := splitLines src
          let env : SemEnv := ⟨filePath, ifaces, aliases⟩
          let stEnd := semLoop env origLines (origLines.length + 1) 0
            (LoopSt.init funcs1)
          -- post-pass typed-object check (lines 2068–2101; throws)
          typedObjCheck filePath src ifaces
          let outCode := String.mk
            (collapseSemis (normalizeCrLf (joinLines (stEnd.out.map (·.1)))))
          if !stEnd.diags.isEmpty then return ⟨outCode, stEnd.diags⟩
          else
            match oracle outCode with
            | none => return ⟨outCode, []⟩
            | some err =>
                let noComments := String.mk (stripAllComments outCode.data)
                if (oracle noComments).isNone then return ⟨outCode, []⟩
                else
                  let jsLine := if err.line = 0 then 1 else err.line
                  let srcLine := outMapLookup stEnd.out jsLine
                  return ⟨outCode,
                    [⟨srcLine, err.column, "Emitted JS Syntax error: " ++ err.msg⟩]⟩

/-- The always-accepting host-grammar oracle, used to run the embedded
pipeline on concrete well-formed programs. -/
def trivialOracle : Oracle := fun _ => none

/-! ## Configuration loader (src/src/config.ts) -/

/-- `SparkConfig` (config.ts lines 5–12). -/
structure SparkConfig where
  module : Option String := none
  outDir : Option String := none
  entry : Option String := none
  -- the TS field `include` is a reserved word in Lean
  includeKey : Option (List String) := none
  exclude : Option (List String) := none
  builtins : Option Bool := none
deriving DecidableEq

/-- The fixed default configuration `{ module: "cjs", builtins: true }`
(config.ts lines 18 and 35). -/
def defaultConfig : SparkConfig :=
  { module := some "cjs", builtins := some true }

/-- `raw.replace(/^\s*export\s+default\s+/, "")` (config.ts line 23). -/
def stripExportDefault (s : Chars) : Chars :=
  match (dropLit "export".data (wsSkip s)).bind (fun r => wsPlus r) with
  | some r1 =>
      (match (dropLit "default".data r1).bind (fun r => wsPlus r) with
       | some r2 => r2
       | none => s)
  | none => s

/-- `.replace(/;\s*$/, "")` (config.ts line 24): drop one `;` that is followed
only by whitespace, together with that whitespace. -/
def stripTrailingSemi (s : Chars) : Chars :=
  let r := s.reverse.dropWhile (fun c => jsWs c)
  match r with
  | ';' :: rest => rest.reverse
  | _ => s

/-- `.replace(/\/\/.*$/gm, "")` (config.ts line 25). -/
def stripLineCommentsAllLines (s : Chars) : Chars :=
  joinLines ((splitLines s).map (fun l =>
    match idxOfLit "//".data l with
    | some i => l.take i
    | none => l))

/-- `.replace(/([a-zA-Z0-9_]+)\s*:/g, '"$1":')` (config.ts line 26). -/
def quoteBarewords (s : Chars) : Chars :=
  go s s.length where
  go : Chars → Nat → Chars
    | s, 0 => s
    | [], _ => []
    | s@(c :: _), fuel + 1 =>
        if jsWord c then
          let run := s.takeWhile (fun d => jsWord d)
          let r0 := s.drop run.length
          (match wsSkip r0 with
           | ':' :: r1 => '"' :: run ++ '"' :: ':' :: go r1 fuel
           | _ => run ++ go r0 fuel)
        else c :: go (s.drop 1) fuel

/-- `.replace(/'/g, '"')` (config.ts line 27). -/
def normalizeQuotes (s : Chars) : Chars :=
  s.map (fun c => if c = '\x27' then '"' else c)

/-- The `jsonLike` normalization chain of `loadConfig` (config.ts
lines 22–27). -/
def configJsonLike (raw : String) : String :=
  String.mk (normalizeQuotes (quoteBarewords (stripLineCommentsAllLines
    (stripTrailingSemi (stripExportDefault raw.data)))))

/-- `loadConfig` (config.ts lines 14–37).  The filesystem and `JSON.parse` are
oracles: `configRaw = none` models a missing `dsk.config.ds`; `jsonParse`
returning `none` models a parse failure (the thrown `SyntaxError`, caught at
line 32).  The console warnings are I/O and are not modelled. -/
def loadConfig (jsonParse : String → Option SparkConfig)
    (configRaw : Option String) : SparkConfig :=
  match configRaw with
  | none => defaultConfig
  | some raw =>
      match jsonParse (configJsonLike raw) with
      | some parsed =>
          if parsed.builtins.isNone then { parsed with builtins := some true }
          else parsed
      | none => defaultConfig

/-! ## CLI helper: `resolveDsDependencyGraph` (CLI source lines 772–795) -/

/-- One lazy search step of
`\b(?:import|export)\b[\s\S]*?\bfrom\b\s*['"]([^'"]+\.ds)['"]`: after the
keyword, find the earliest `from` (word-bounded) followed by `\s*`, a quote,
a quote-free specifier ending in `.ds`, and a closing quote.  Returns the
specifier and the rest after the closing quote. -/
def findFromDsSpec (s : Chars) : Option (Chars × Chars) :=
  go s none (s.length + 1) where
  go : Chars → Option Char → Nat → Option (Chars × Chars)
    | [], _, _ => none
    | _, _, 0 => none
    | s@(c :: rest), prev, fuel + 1 =>
        let tryHere : Option (Chars × Chars) :=
          if wordBoundaryBefore prev && startsWithLit "from".data s &&
              wordBoundaryAfter (s.drop 4).head? then
            let r0 := wsSkip (s.drop 4)
            match r0 with
            | q :: r1 =>
                if q = '"' || q = '\x27' then
                  let span := r1.takeWhile (fun d => d ≠ '"' && d ≠ '\x27')
                  let r2 := r1.drop span.length
                  (match r2 with
                   | q2 :: r3 =>
                       if (q2 = '"' || q2 = '\x27') && span.length ≥ 4 &&
                           startsWithLit ".ds".data
                             (span.drop (span.length - 3)) then
                         some (span, r3)
                       else none
                   | [] => none)
                else none
            | [] => none
          else none
        match tryHere with
        | some res => some res
        | none => go rest (some c) fuel

/-- `extractDsImports`: all specifiers matched by the import/export regex of
CLI source line 784, in match order. -/
def extractDsImports (content : Chars) : List String :=
  go content none (content.length + 1) where
  go : Chars → Option Char → Nat → List String
    | [], _, _ => []
    | _, _, 0 => []
    | s@(c :: rest), prev, fuel + 1 =>
        let kwLen : Option Nat :=
          if wordBoundaryBefore prev then
            if startsWithLit "import".data s &&
                wordBoundaryAfter (s.drop 6).head? then some 6
            else if startsWithLit "export".data s &&
                wordBoundaryAfter (s.drop 6).head? then some 6
            else none
          else none
        match kwLen with
        | some k =>
            (match findFromDsSpec (s.drop k) with
             | some (spec, r) => String.mk spec :: go r (some '"') fuel
             | none => go rest (some c) fuel)
        | none => go rest (some c) fuel

mutual

/-- The `visit` closure of `resolveDsDependencyGraph` (CLI source
lines 776–792), fuel-indexed.  `readFile` models `fs.readFileSync` (a `none`
is the caught throw of line 781); `pathResolve`, `dirname` and `resolve2`
model `path.resolve` and `path.dirname`.  The DFS marks a file seen before
visiting its imports and appends it to the order after them. -/
def visitDs (readFile : String → Option String) (pathResolve : String → String)
    (dirname : String → String) (resolve2 : String → String → String) :
    Nat → String → List String × List String → List String × List String
  | 0, _, st => st
  | fuel + 1, absPath, (seen, order) =>
      let real := pathResolve absPath
      if seen.contains real then (seen, order)
      else
        let seen := real :: seen
        match readFile real with
        | none => (seen, order)
        | some content =>
            let dir := dirname real
            let children := (extractDsImports content.data).map
              (fun spec => resolve2 dir spec)
            let (seen2, order2) :=
              visitDsList readFile pathResolve dirname resolve2 fuel children
                (seen, order)
            (seen2, order2 ++ [real])
  termination_by fuel _ _ => (fuel, 0)

/-- The `while`-loop over the regex matches of `visit` (CLI source
lines 786–790): visit each child in order, threading the state. -/
def visitDsList (readFile : String → Option String)
    (pathResolve : String → String) (dirname : String → String)
    (resolve2 : String → String → String) :
    Nat → List String → List String × List String →
    List String × List String
  | _, [], st => st
  | fuel, c :: cs, st =>
      visitDsList readFile pathResolve dirname resolve2 fuel cs
        (visitDs readFile pathResolve dirname resolve2 fuel c st)
  termination_by fuel cs _ => (fuel, cs.length)

end

/-- The order returned by `resolveDsDependencyGraph` on `entryAbs`. -/
def resolveDsDependencyGraph (readFile : String → Option String)
    (pathResolve : String → String) (dirname : String → String)
    (resolve2 : String → String → String) (fuel : Nat) (entryAbs : String) :
    List String :=
  (visitDs readFile pathResolve dirname resolve2 fuel entryAbs ([], [])).2

/-! ## CLI helper: `injectSpectralImports` (CLI source lines 805–840) -/

/-- `/import\s+.*from\s+['"]<lit>/`: an `import`, at least one whitespace, a
newline-free gap, `from`, whitespace, a quote and the literal (the marker
tests of lines 808–809). -/
def importFromMarker (lit : String) (s : Chars) : Bool :=
  go s (s.length + 1) where
  findFrom : Chars → Nat → Bool
    | [], _ => false
    | _, 0 => false
    | s@(c :: rest), fuel + 1 =>
        (startsWithLit "from".data s &&
          (match wsPlus (s.drop 4) with
           | some (q :: r1) =>
               (q = '"' || q = '\x27') && startsWithLit lit.data r1
           | _ => false)) ||
        (c ≠ '\n' && c ≠ '\r' && findFrom rest fuel)
  matchAt : Chars → Bool
    | s =>
        match dropLit "import".data s with
        | some r0 =>
            let w := r0.takeWhile (fun c => jsWs c)
            !w.isEmpty && findFrom (r0.drop w.length) (r0.length + 1)
        | none => false
  go : Chars → Nat → Bool
    | [], _ => false
    | _, 0 => false
    | s@(_ :: rest), fuel + 1 => matchAt s || go rest fuel

/-- `/const\s+spec\s*=\s*\(\(\)\s*=>/` (line 810). -/
def shimMarker (s : Chars) : Bool :=
  go s (s.length + 1) where
  matchAt : Chars → Bool
    | s =>
        match (dropLit "const".data s).bind (fun r => wsPlus r) with
        | some r0 =>
            (match dropLit "spec".data r0 with
             | some r1 =>
                 (match wsSkip r1 with
                  | '=' :: r2 =>
                      (match dropLit "(()".data (wsSkip r2) with
                       | some r3 => startsWithLit "=>".data (wsSkip r3)
                       | none => false)
                  | _ => false)
             | none => false)
        | none => false
  go : Chars → Nat → Bool
    | [], _ => false
    | _, 0 => false
    | s@(_ :: rest), fuel + 1 => matchAt s || go rest fuel

/-- `hasExisting` (lines 808–810). -/
def hasExistingSpectral (s : Chars) : Bool :=
  importFromMarker "https://esm.sh/spectrallogs" s ||
  importFromMarker "spectrallogs" s ||
  shimMarker s

/-- The two CDN import lines (lines 814–815). -/
def cdn1 : String := "import spec from \"https://esm.sh/spectrallogs\""

/-- Second CDN import (line 815). -/
def cdn2 : String := "import specweb from \"https://esm.sh/spectrallogs/web\""

/-- The two package import lines (lines 823–824). -/
def pkg1 : String := "import spec from " ++ sq ++ "spectrallogs" ++ sq

/-- Second package import (line 824). -/
def pkg2 : String := "import specweb from " ++ sq ++ "spectrallogs/web" ++ sq

/-- The inline shim (lines 830–838), starting with `const spec = (() => {`. -/
def shimText : String :=
  "const spec = (() => " ++ ob ++ "\n" ++
  "  const mk = (lvl) => (...a) => (console[lvl] ? console[lvl](...a) : console.log(...a));\n" ++
  "  const input = async (q) => " ++ ob ++ "\n" ++
  "    if (typeof window !== " ++ sq ++ "undefined" ++ sq ++
    " && typeof window.prompt === " ++ sq ++ "function" ++ sq ++ ") " ++ ob ++
    " return window.prompt(q) ?? " ++ sq ++ sq ++ "; " ++ cb ++ "\n" ++
  "    try " ++ ob ++ " const rl = await import(" ++ sq ++
    "node:readline/promises" ++ sq ++ "); const " ++ ob ++ " stdin, stdout " ++
    cb ++ " = await import(" ++ sq ++ "node:process" ++ sq ++ ");\n" ++
  "      const r = rl.createInterface(" ++ ob ++ " input: stdin, output: stdout " ++
    cb ++ "); const ans = await r.question(q + " ++ sq ++ " " ++ sq ++
    "); r.close(); return ans; " ++ cb ++ " catch " ++ ob ++ " return " ++ sq ++
    sq ++ "; " ++ cb ++ "\n" ++
  "  " ++ cb ++ ";\n" ++
  "  return " ++ ob ++ " log: mk(" ++ sq ++ "log" ++ sq ++ "), error: mk(" ++ sq ++
    "error" ++ sq ++ "), warn: mk(" ++ sq ++ "warn" ++ sq ++ "), info: mk(" ++
    sq ++ "info" ++ sq ++ "), debug: mk(" ++ sq ++ "debug" ++ sq ++
    "), success: (...a) => console.log(...a), input " ++ cb ++ ";\n" ++
  cb ++ ")();"

/-- `injectSpectralImports` (CLI source lines 805–840).  `pkgInstalled` models
the `fs.existsSync` check on `node_modules/spectrallogs/package.json`
(line 822; a thrown error is caught and behaves as `false`). -/
def injectSpectralImports (js : String) (useCdn : Bool) (pkgInstalled : Bool) :
    String :=
  if hasExistingSpectral js.data then js
  else if useCdn then cdn1 ++ "\n" ++ cdn2 ++ "\n" ++ js
  else if pkgInstalled then pkg1 ++ "\n" ++ pkg2 ++ "\n" ++ js
  else shimText ++ "\n" ++ js

/-! ## Equality on compilation results -/

/-- Decidable equality of `Except` results, used to evaluate the pipeline on
concrete programs inside proofs. -/
instance {e a : Type} [DecidableEq e] [DecidableEq a] : DecidableEq (Except e a)
  | .ok x, .ok y =>
      if h : x = y then .isTrue (by rw [h]) else .isFalse (by simp [h])
  | .ok _, .error _ => .isFalse (by simp)
  | .error _, .ok _ => .isFalse (by simp)
  | .error x, .error y =>
      if h : x = y then .isTrue (by rw [h]) else .isFalse (by simp [h])

/-! ## Derived views of the pipeline used by the claim statements -/

/-- The text handed to the phase-3 host-grammar oracle (the preprocessed,
interface-free copy), composed from the same pipeline pieces as
`transpileSpark`; `none` when an earlier phase throws. -/
def phase3Input (filePath : String) (src : Chars) : Option String :=
  match extractInterfaces filePath src with
  | .error _ => none
  | .ok (ifaces, cleanedWork) =>
      match extractTypeAliases filePath src ifaces with
      | .error _ => none
      | .ok _ => some (String.mk (cleanedForParse cleanedWork))

/-- The diagnostics accumulated by the semantic pass (phase 4) alone, composed
from the same pipeline pieces as `transpileSpark`.  It lets us observe the
per-line recovery of the pass even on files where a later phase throws the
diagnostics away. -/
def semPassDiags (sourceCode : String) (filePath : String := "<input>.sp") :
    List Diag :=
  let src := sourceCode.data
  match extractInterfaces filePath src with
  | .error _ => []
  | .ok (ifaces, cleanedWork) =>
      match extractTypeAliases filePath src ifaces with
      | .error _ => []
      | .ok aliases =>
          let cleaned := cleanedForParse cleanedWork
          let funcs1 := jsFuncScan cleaned (funcDeclScan src)
          let origLines := splitLines src
          (semLoop ⟨filePath, ifaces, aliases⟩ origLines
            (origLines.length + 1) 0 (LoopSt.init funcs1)).diags

/-! ## Concrete programs used by the claim theorems -/

/-- Interface `Q` with two required fields, a declaration whose object literal
misses one of them, and an unrelated type error on the next line. -/
def c1CounterProg : String :=
  "interface Q \x7b\n  a::num;\n  b::num;\n\x7d\nlet p::Q = \x7ba: 1\x7d;\nlet r::str = 5;"

/-- Two independent type errors on two lines, nothing that the post-pass
typed-object check matches. -/
def c1TwoErrProg : String := "let a::str = 5;\nlet b::num = \"x\";"

/-- Interface `P` with required `a` and optional `b?`, and a call passing an
object literal that supplies `a` only. -/
def c2CounterProg : String :=
  "interface P \x7b\n  a::num;\n  b?::num;\n\x7d\nfunc G(p::P) \x7b\n\x7d\nG(\x7ba: 1\x7d);"

/-- Interface `P` with required `a` and optional `b?`; the literal omitting
`b` is used at a typed declaration, a plain assignment and a return. -/
def c2PosProg : String :=
  "interface P \x7b\n  a::num;\n  b?::num;\n\x7d\nlet v::P = \x7ba: 1\x7d;\nv = \x7ba: 2\x7d;\nfunc H()::P \x7b\n  return \x7ba: 3\x7d;\n\x7d"

/-- The claim\x27s own example, written on a single line, the closing brace not
starting a line of its own. -/
def c3SingleProg : String := "func NoReturn()::str \x7b let x = 1 \x7d"

/-- The same function with the closing brace on its own line. -/
def c3MultiProg : String := "func NoReturn()::str \x7b\n  let x = 1\n\x7d"

/-- A missing-return function whose head also carries a typed parameter, so
the first `::` of the head is the parameter annotation, not the return
marker. -/
def c3TypedParamProg : String := "func Bad(a::num)::str \x7b\n  let x = 1\n\x7d"

/-- `call F(1)` followed by a plain `F(2)`. -/
def c5CallThenPlainProg : String := "func F(a::num) \x7b\n\x7d\ncall F(1);\nF(2);"

/-- `call F(1)` followed by a second `call F(2)`. -/
def c5CallTwiceProg : String := "func F(a::num) \x7b\n\x7d\ncall F(1);\ncall F(2);"

/-- A plain `F(2)` with no prior `call F` anywhere. -/
def c5PlainOnlyProg : String := "func F(a::num) \x7b\n\x7d\nF(2);"

/-- The claim\x27s example: `mut` before and after an `inmut` line. -/
def c6Prog : String := "let x::num = 1;\nmut x = 2;\ninmut x;\nmut x = 3;"

/-- A `mut` reassignment of a `const` binding. -/
def c10MutConstProg : String := "const y::num = 1;\nmut y = 2;"

/-- A plain reassignment of a `const` binding. -/
def c10AssignConstProg : String := "const z::num = 1;\nz = 2;"

/-- A `mut` reassignment of a `const` binding after an `inmut`. -/
def c10MutInmutConstProg : String := "const w::num = 1;\ninmut w;\nmut w = 2;"

/-! ## Fixtures for the dependency-graph claim -/

/-- Diamond import graph: `E` imports `B` and `C`, which both import `D`. -/
def diamondFs : String → Option String
  | "E" => some "import \x7bb\x7d from \"B.ds\"\nimport \x7bc\x7d from \"C.ds\"\n"
  | "B" => some "import \x7bd\x7d from \"D.ds\"\n"
  | "C" => some "import \x7bd\x7d from \"D.ds\"\n"
  | "D" => some "let d = 1;\n"
  | _ => none

/-- The diamond graph with a cycle closed: `D` imports the entry `E`. -/
def cycleFs : String → Option String
  | "E" => some "import \x7bb\x7d from \"B.ds\"\nimport \x7bc\x7d from \"C.ds\"\n"
  | "B" => some "import \x7bd\x7d from \"D.ds\"\n"
  | "C" => some "import \x7bd\x7d from \"D.ds\"\n"
  | "D" => some "import \x7be\x7d from \"E.ds\"\n"
  | _ => none

/-- Specifier resolution for the fixtures: strip the trailing `.ds`. -/
def childResolve : String → String → String :=
  fun _ spec => String.mk (spec.data.take (spec.data.length - 3))

/-! ## Fixtures for the witnesses -/

/-- An oracle that rejects every input with a fixed syntax error at 1:8. -/
def rejectingOracle : Oracle := fun _ => some ⟨1, 8, "Unexpected token"⟩

/-- A three-line interface followed by an unparsable line: the parse error at
parsed line 1 maps back to source line 4. -/
def c4Prog : String := "interface I \x7b\n  a::num;\n\x7d\nlet b = )"

/-- A function context for `NoReturn` with declared return type `str`, no
return attempt, header at line 1 column 16. -/
def c3WitnessCtx : FuncCtx := ⟨"NoReturn", some "str", false, false, 1, some 1, some 16⟩

/-- A loop state inside one function scope carrying `c3WitnessCtx`. -/
def c3WitnessSt : LoopSt :=
  { LoopSt.init [] with scopeTypeStack := ["function"],
                        funcCtxStack := [c3WitnessCtx] }

/-- A loop state in which `F` was consumed by a `call` at line 3. -/
def c5WitnessSt : LoopSt := { LoopSt.init [] with calledViaCall := [("F", 3)] }

/-- An untyped `let` binding `x`, inmuted at line 3. -/
def c6WitnessVar : VarInfo := ⟨"x", "let", none, true, some 3, 1, false⟩

/-- A loop state whose global scope holds `c6WitnessVar`. -/
def c6WitnessSt : LoopSt :=
  { LoopSt.init [] with scopes := [⟨[("x", c6WitnessVar)], "global"⟩] }

/-- A `const` binding `z` of type `num`, never inmuted. -/
def c10WitnessVar : VarInfo := ⟨"z", "const", some "num", false, none, 1, false⟩

/-- A loop state whose global scope holds `c10WitnessVar`. -/
def c10WitnessSt : LoopSt :=
  { LoopSt.init [] with scopes := [⟨[("z", c10WitnessVar)], "global"⟩] }

/-! ## Shared helper lemmas -/

/-- Binding an `Except.ok` applies the continuation. -/
theorem exceptBindOk {e a b : Type} (x : a) (f : a → Except e b) :
    (Except.ok x : Except e a) >>= f = f x := rfl

/-- `String.append` concatenates the character lists. -/
theorem strDataAppend (a b : String) : (a ++ b).data = a.data ++ b.data := rfl

/-- The CDN marker regex accepts any text that starts with the injector\x27s
first CDN line. -/
theorem importFromMarker_cdn (rest : Chars) :
    importFromMarker "https://esm.sh/spectrallogs" (cdn1.data ++ rest) =
      true := rfl

/-- The package marker regex accepts any text that starts with the first
package import line. -/
theorem importFromMarker_pkg (rest : Chars) :
    importFromMarker "spectrallogs" (pkg1.data ++ rest) = true := rfl

/-- The shim marker regex accepts any text that starts with the shim. -/
theorem shimMarker_shim (rest : Chars) :
    shimMarker (shimText.data ++ rest) = true := rfl

/-- `hasExisting` accepts any text that starts with the first CDN import. -/
theorem hasExistingSpectral_cdn (rest : Chars) :
    hasExistingSpectral (cdn1.data ++ rest) = true := by
  simp [hasExistingSpectral, importFromMarker_cdn]

/-- `hasExisting` accepts any text that starts with the injector\x27s first
package line. -/
theorem hasExistingSpectral_pkg (rest : Chars) :
    hasExistingSpectral (pkg1.data ++ rest) = true := by
  simp [hasExistingSpectral, importFromMarker_pkg]

/-- `hasExisting` accepts any text that starts with the shim. -/
theorem hasExistingSpectral_shim (rest : Chars) :
    hasExistingSpectral (shimText.data ++ rest) = true := by
  simp [hasExistingSpectral, shimMarker_shim]

/-- The DFS invariant of `visitDs`: the seen set only grows, and a visit
appends to the order a duplicate-free batch of files that were not yet seen
when the visit started (and are seen afterwards).  Proved by induction on the
fuel, with an inner induction on the child list. -/
theorem visitDs_extend (rf : String → Option String) (pr : String → String)
    (dn : String → String) (r2 : String → String → String) :
    ∀ fuel : Nat, ∀ (p : String) (seen order : List String),
      (∀ x, x ∈ seen → x ∈ (visitDs rf pr dn r2 fuel p (seen, order)).1) ∧
      ∃ new, (visitDs rf pr dn r2 fuel p (seen, order)).2 = order ++ new ∧
        new.Nodup ∧
        ∀ x ∈ new, x ∉ seen ∧
          x ∈ (visitDs rf pr dn r2 fuel p (seen, order)).1 := by
  intro fuel
  induction fuel with
  | zero =>
      intro p seen order
      refine ⟨fun x hx => by simpa [visitDs] using hx,
        ⟨[], by simp [visitDs], List.nodup_nil, by simp⟩⟩
  | succ f ih =>
      have hlist : ∀ (cs : List String) (seen order : List String),
          (∀ x, x ∈ seen →
            x ∈ (visitDsList rf pr dn r2 f cs (seen, order)).1) ∧
          ∃ new, (visitDsList rf pr dn r2 f cs (seen, order)).2 =
              order ++ new ∧
            new.Nodup ∧
            ∀ x ∈ new, x ∉ seen ∧
              x ∈ (visitDsList rf pr dn r2 f cs (seen, order)).1 := by
        intro cs
        induction cs with
        | nil =>
            intro seen order
            refine ⟨fun x hx => by simpa [visitDsList] using hx,
              ⟨[], by simp [visitDsList], List.nodup_nil, by simp⟩⟩
        | cons c cs ihc =>
            intro seen order
            have hstep : visitDsList rf pr dn r2 f (c :: cs) (seen, order) =
                visitDsList rf pr dn r2 f cs
                  ((visitDs rf pr dn r2 f c (seen, order)).1,
                   (visitDs rf pr dn r2 f c (seen, order)).2) := by
              rw [Prod.mk.eta]
              simp [visitDsList]
            obtain ⟨hs1, n1, ho1, hn1, hf1⟩ := ih c seen order
            obtain ⟨hs2, n2, ho2, hn2, hf2⟩ :=
              ihc (visitDs rf pr dn r2 f c (seen, order)).1
                (visitDs rf pr dn r2 f c (seen, order)).2
            rw [hstep]
            refine ⟨fun x hx => hs2 x (hs1 x hx), ⟨n1 ++ n2, ?_, ?_, ?_⟩⟩
            · rw [ho2, ho1, List.append_assoc]
            · refine List.Nodup.append hn1 hn2 (List.disjoint_left.mpr ?_)
              intro a ha1 ha2
              exact (hf2 a ha2).1 ((hf1 a ha1).2)
            · intro x hx
              rcases List.mem_append.mp hx with hx1 | hx2
              · exact ⟨(hf1 x hx1).1, hs2 x (hf1 x hx1).2⟩
              · exact ⟨fun hxs => (hf2 x hx2).1 (hs1 x hxs), (hf2 x hx2).2⟩
      intro p seen order
      by_cases hmem : pr p ∈ seen
      · refine ⟨fun x hx => ?_, ⟨[], ?_, List.nodup_nil, by simp⟩⟩
        · simpa [visitDs, hmem] using hx
        · simp [visitDs, hmem]
      · cases hrf : rf (pr p) with
        | none =>
            refine ⟨fun x hx => ?_, ⟨[], ?_, List.nodup_nil, by simp⟩⟩
            · simp [visitDs, hmem, hrf]
              exact Or.inr hx
            · simp [visitDs, hmem, hrf]
        | some content =>
            obtain ⟨hs, n, ho, hn, hf⟩ :=
              hlist ((extractDsImports content.data).map
                  (fun spec => r2 (dn (pr p)) spec))
                (pr p :: seen) order
            have hgoal : visitDs rf pr dn r2 (f + 1) p (seen, order) =
                ((visitDsList rf pr dn r2 f
                    ((extractDsImports content.data).map
                      (fun spec => r2 (dn (pr p)) spec))
                    (pr p :: seen, order)).1,
                 (visitDsList rf pr dn r2 f
                    ((extractDsImports content.data).map
                      (fun spec => r2 (dn (pr p)) spec))
                    (pr p :: seen, order)).2 ++ [pr p]) := by
              simp [visitDs, hmem, hrf]
            rw [hgoal]
            refine ⟨fun x hx => hs x (List.mem_cons_of_mem _ hx),
              ⟨n ++ [pr p], ?_, ?_, ?_⟩⟩
            · simp only [ho, List.append_assoc]
            · refine List.Nodup.append hn (List.nodup_singleton _)
                (List.disjoint_left.mpr ?_)
              intro a ha1 ha2
              rw [List.mem_singleton] at ha2
              subst ha2
              exact (hf _ ha1).1 (List.mem_cons_self _ _)
            · intro x hx
              rcases List.mem_append.mp hx with hx1 | hx2
              · exact ⟨fun hxs => (hf x hx1).1 (List.mem_cons_of_mem _ hxs),
                  (hf x hx1).2⟩
              · rw [List.mem_singleton] at hx2
                subst hx2
                exact ⟨hmem, hs _ (List.mem_cons_self _ _)⟩

/-! ## Claim theorems -/

/-- C1 (counterexample): on `c1CounterProg` the semantic pass records its
diagnostics, but `transpileSpark` does not return them: the post-pass
typed-object interface re-check throws, so the call ends in `Except.error`
instead of a `TranspileResult` listing the diagnostics. -/
theorem C1_counterexample :
    transpileSpark trivialOracle c1CounterProg =
      .error ⟨"<input>.sp", 5, 1, "Interface error: object assigned to " ++
        sq ++ "p" ++ sq ++ " does not satisfy interface " ++ sq ++ "Q" ++
        sq ++ ". Required fields: a, b"⟩ := by decide

/-- C1 (amended): within the semantic pass each per-line error is recorded as
a diagnostic and the pass continues with the next line, so one file can
surface many diagnostics — `c1TwoErrProg` returns both of its type errors,
and even on `c1CounterProg` (where `transpileSpark` later throws) the pass
itself records the line-5 interface error and still reaches line 6.  The
original claim fails only in asserting that `transpileSpark` always returns
these diagnostics. -/
theorem C1_per_line_recovery :
    ((transpileSpark trivialOracle c1TwoErrProg).map
        (fun r => r.diagnostics) =
      .ok [⟨1, 5, "<input>.sp:1:5  Type error: cannot assign num to str " ++
              sq ++ "a" ++ sq⟩,
           ⟨2, 5, "<input>.sp:2:5  Type error: cannot assign str to num " ++
              sq ++ "b" ++ sq⟩]) ∧
    semPassDiags c1CounterProg =
      [⟨5, 1, "<input>.sp:5:1  Interface error: object assigned to " ++ sq ++
          "p" ++ sq ++ " does not satisfy interface " ++ sq ++ "Q" ++ sq ++
          ". Required fields: a, b"⟩,
       ⟨6, 5, "<input>.sp:6:5  Type error: cannot assign num to str " ++
          sq ++ "r" ++ sq⟩] := by
  constructor
  · decide
  · decide

/-- C2 (counterexample): at a function-argument site the structural interface
check requires every field of the interface, optional ones included: passing
`{a: 1}` for a parameter of interface type `P` (required `a`, optional `b?`)
produces a diagnostic listing `a, b` as required, so a missing optional field
alone does produce a diagnostic there. -/
theorem C2_counterexample :
    (transpileSpark trivialOracle c2CounterProg).map
        (fun r => r.diagnostics) =
      .ok [⟨7, 1, "<input>.sp:7:1  Type error: argument 1 of " ++ sq ++ "G" ++
              sq ++ " does not satisfy interface " ++ sq ++ "P" ++ sq ++
              ". Required fields: a, b"⟩] := by decide

/-- C2 (amended): an object literal supplying all required fields of an
interface but omitting optional ones passes the structural checks at a typed
declaration, a plain assignment and a return (`c2PosProg` compiles with no
diagnostics), but the argument-site check keys on all interface fields, so
the same literal passed as an argument is rejected with a message listing the
optional field among the required ones. -/
theorem C2_optional_fields :
    ((transpileSpark trivialOracle c2PosProg).map
        (fun r => r.diagnostics) = .ok []) ∧
    (transpileSpark trivialOracle c2CounterProg).map
        (fun r => (r.diagnostics.map (fun d => d.line),
                   r.diagnostics.map (fun d => d.column))) =
      .ok ([7], [1]) := by
  constructor
  · decide
  · decide

/-- C3 (counterexample): on the claim\x27s own example, written on one line,
compilation yields no missing-return diagnostic at all — the close-brace scope
pop only runs for lines whose leading text is `}`. -/
theorem C3_counterexample :
    (transpileSpark trivialOracle c3SingleProg).map
      (fun r => r.diagnostics) = .ok [] := by decide

/-- C3 (amended): when the function\x27s closing brace starts its own line,
compilation yields exactly one missing-return diagnostic anchored at the
header: line of the declaration and column of the first `::` of the matched
head — the return-type marker for `NoReturn()::str` (column 16), but the
parameter annotation for `Bad(a::num)::str` (column 11).  In general, for a
context whose stored return type is non-empty (the source tests JS
truthiness, so a whitespace-only `::` annotation stores `""` and raises
nothing) and not `void`, the error raised on scope pop carries the header
line and column stored in the function context, independent of the line of
the closing brace. -/
theorem C3_missing_return_at_header :
    ((transpileSpark trivialOracle c3MultiProg).map
        (fun r => r.diagnostics) =
      .ok [⟨1, 16, "<input>.sp:1:16  Function " ++ sq ++ "NoReturn" ++ sq ++
              " declares return type str but has no return"⟩]) ∧
    ((transpileSpark trivialOracle c3TypedParamProg).map
        (fun r => r.diagnostics) =
      .ok [⟨1, 11, "<input>.sp:1:11  Function " ++ sq ++ "Bad" ++ sq ++
              " declares return type str but has no return"⟩]) ∧
    (∀ (fp : String) (lineNo : Nat) (st : LoopSt) (ctx : FuncCtx)
        (rest : List String) (restCtx : List FuncCtx) (exp : String)
        (hl hc : Nat),
      st.scopeTypeStack = "function" :: rest →
      st.funcCtxStack = ctx :: restCtx →
      ctx.expected = some exp →
      exp ≠ "" →
      exp ≠ "void" →
      ctx.sawReturnAttempt = false →
      ctx.headerLine = some hl → hl ≠ 0 →
      ctx.headerCol = some hc → hc ≠ 0 →
      ∃ st', popOneScope fp lineNo st = .error
        (⟨fp, hl, hc, "Function " ++ sq ++ ctx.name ++ sq ++
          " declares return type " ++ exp ++ " but has no return"⟩, st')) := by
  refine ⟨by decide, by decide, ?_⟩
  intro fp lineNo st ctx rest restCtx exp hl hc hst hctx hexp hne hnv hsr hhl
    hl0 hhc hc0
  simp only [popOneScope, hst, hctx, hexp]
  simp [hsr, decide_eq_true hne, decide_eq_true hnv, Option.filter, hhl, hhc,
    hl0, hc0]

/-- C3 witness for the general part: popping the function scope of
`c3WitnessSt` at close-brace line 3 raises the missing-return error at the
stored header position 1:16, not at line 3. -/
theorem C3_missing_return_at_header_witness :
    ∃ st', popOneScope "<input>.sp" 3 c3WitnessSt = .error
      (⟨"<input>.sp", 1, 16, "Function " ++ sq ++ "NoReturn" ++ sq ++
        " declares return type str but has no return"⟩, st') :=
  C3_missing_return_at_header.2.2 "<input>.sp" 3 c3WitnessSt c3WitnessCtx
    [] [] "str" 1 16 (by decide) (by decide) (by decide) (by decide)
    (by decide) (by decide) (by decide) (by decide) (by decide) (by decide)

/-- C4: whenever the fast path does not apply and the preprocessed,
interface-free copy of the input (phase-3 text) is rejected by the
host-grammar oracle, `transpileSpark` returns code `""` with exactly one
diagnostic — the syntax error, its line mapped back through the
parsed-to-source line map — and the semantic pass never runs. -/
theorem C4_phase3_hard_gate (oracle : Oracle) (sourceCode fp cleaned : String)
    (e : AcornErr)
    (hfast : fastPathResult oracle sourceCode = none)
    (hin : phase3Input fp sourceCode.data = some cleaned)
    (hor : oracle cleaned = some e) :
    transpileSpark oracle sourceCode fp = .ok ⟨"",
      [⟨mapParsedLine (buildParsedToSourceMap sourceCode.data)
          (if e.line = 0 then 1 else e.line), e.column,
        "Syntax error (mapped): " ++ e.msg⟩]⟩ := by
  unfold transpileSpark
  rw [hfast]
  unfold phase3Input at hin
  cases hA : extractInterfaces fp sourceCode.data with
  | error err => simp [hA] at hin
  | ok pr =>
      obtain ⟨ifaces, cw⟩ := pr
      cases hB : extractTypeAliases fp sourceCode.data ifaces with
      | error err => simp [hA, hB] at hin
      | ok al =>
          simp only [hA, hB] at hin
          simp only [Option.some.injEq] at hin
          subst hin
          simp only [hA, hB, exceptBindOk]
          rw [hor]
          rfl

/-- C4 witness: with the always-rejecting oracle on `c4Prog`, the error
reported at parsed position 1:8 comes back as the single diagnostic, mapped
to source line 4, and the emitted code is empty. -/
theorem C4_phase3_hard_gate_witness :
    transpileSpark rejectingOracle c4Prog "<input>.sp" = .ok ⟨"",
      [⟨4, 8, "Syntax error (mapped): Unexpected token"⟩]⟩ :=
  C4_phase3_hard_gate rejectingOracle c4Prog "<input>.sp" "\nlet b = )"
    ⟨1, 8, "Unexpected token"⟩ (by decide) (by decide) rfl

/-- C5: a function consumed by `call` cannot be invoked again.  Concretely,
`call F(1)` followed by a plain `F(2)` errors citing the original `call`
line 3; a second `call F(2)` errors likewise; and a plain `F(2)` with no
prior `call` produces no diagnostics.  In general, whenever the
`calledViaCall` table holds a prior line for the name, both the plain-call
branch and the `call` branch raise a call error whose message cites exactly
that stored line. -/
theorem C5_call_once :
    ((transpileSpark trivialOracle c5CallThenPlainProg).map
        (fun r => r.diagnostics) =
      .ok [⟨4, 1, "<input>.sp:4:1  call error: function " ++ sq ++ "F" ++
              sq ++ " was marked call-once at line 3 and cannot be called" ++
              " again"⟩]) ∧
    ((transpileSpark trivialOracle c5CallTwiceProg).map
        (fun r => r.diagnostics) =
      .ok [⟨4, 6, "<input>.sp:4:6  call error: function " ++ sq ++ "F" ++
              sq ++ " already called by " ++ sq ++ "call" ++ sq ++
              " at line 3"⟩]) ∧
    ((transpileSpark trivialOracle c5PlainOnlyProg).map
        (fun r => r.diagnostics) = .ok []) ∧
    (∀ (env : SemEnv) (lineNo : Nat) (l : Chars) (st : LoopSt)
        (fname : String) (argsRaw : Chars) (com : Option String) (prev : Nat),
      normalCallMatch l = some (fname, argsRaw, com) →
      mapGet st.calledViaCall fname = some prev →
      normalCallBranch env lineNo l st = some (.error
        (⟨env.filePath, lineNo, colOf fname l,
          "call error: function " ++ sq ++ fname ++ sq ++
            " was marked call-once at line " ++ toString prev ++
            " and cannot be called again"⟩, st))) ∧
    (∀ (env : SemEnv) (lineNo : Nat) (l : Chars) (st : LoopSt)
        (fname : String) (argsRaw : Chars) (com : Option String) (prev : Nat),
      callStmtMatch l = some (fname, argsRaw, com) →
      mapHas st.funcs fname = true →
      mapGet st.calledViaCall fname = some prev →
      callBranch env lineNo l st = some (.error
        (⟨env.filePath, lineNo, colOf fname l,
          "call error: function " ++ sq ++ fname ++ sq ++
            " already called by " ++ sq ++ "call" ++ sq ++ " at line " ++
            toString prev⟩, st))) := by
  refine ⟨by decide, by decide, by decide, ?_, ?_⟩
  · intro env lineNo l st fname argsRaw com prev hm hp
    simp only [normalCallBranch, hm, hp]
    rfl
  · intro env lineNo l st fname argsRaw com prev hm hf hp
    simp only [callBranch, hm, hf, Bool.not_true, hp]
    rw [if_neg (by decide : ¬ (false = true))]
    rfl

/-- C5 witness for the general part: in a state where `F` was consumed by
`call` at line 3, the plain invocation `F(2);` at line 4 raises the call
error citing line 3. -/
theorem C5_call_once_witness :
    normalCallBranch ⟨"<input>.sp", [], []⟩ 4 ("F(2);".data) c5WitnessSt =
      some (.error (⟨"<input>.sp", 4, 1, "call error: function " ++ sq ++
        "F" ++ sq ++ " was marked call-once at line 3 and cannot be" ++
        " called again"⟩, c5WitnessSt)) :=
  C5_call_once.2.2.2.1 ⟨"<input>.sp", [], []⟩ 4 ("F(2);".data) c5WitnessSt
    "F" ("2".data) none 3 (by decide) (by decide)

/-- C6: reassignment is rejected exactly for lines strictly after the
binding\x27s `inmut` line.  On the claim\x27s example only the final `mut`
(line 4, after `inmut` at line 3) is diagnosed.  In general, for a bound name
with `inmutedAtLine = k`, the `mut` branch errors precisely when the current
line is `> k` (and accepts `≤ k`, shown for untyped bindings), and the
plain-assignment branch of a non-`const` binding errors likewise for
lines `> k`. -/
theorem C6_inmut_ordering :
    ((transpileSpark trivialOracle c6Prog).map (fun r => r.diagnostics) =
      .ok [⟨4, 5, "<input>.sp:4:5  cannot reassign x after inmut at" ++
              " line 3"⟩]) ∧
    (∀ (env : SemEnv) (lineNo : Nat) (l : Chars) (st : LoopSt)
        (name : String) (exprRaw : Chars) (v : VarInfo) (k : Nat),
      mutAssignMatch "mut" l = some (name, exprRaw) →
      findVariable st.scopes name = some v →
      v.inmutedAtLine = some k →
      (lineNo > k →
        mutBranch env lineNo l st = some (.error
          (⟨env.filePath, lineNo, colOf name l,
            "cannot reassign " ++ name ++ " after inmut at line " ++
              toString k⟩, st))) ∧
      (lineNo ≤ k → v.declaredType = none →
        ∃ st', mutBranch env lineNo l st = some (.ok st'))) ∧
    (∀ (env : SemEnv) (lineNo : Nat) (l : Chars) (st : LoopSt)
        (name : String) (exprRaw : Chars) (v : VarInfo) (k : Nat),
      assignStmtMatch l = some (name, exprRaw) →
      findVariable st.scopes name = some v →
      v.declaredKind ≠ "const" →
      v.inmutedAtLine = some k →
      lineNo > k →
      assignBranch env lineNo l st = some (.error
        (⟨env.filePath, lineNo, colOf name l,
          "cannot reassign " ++ name ++ " after inmut at line " ++
            toString k⟩, st))) := by
  refine ⟨by decide, ?_, ?_⟩
  · intro env lineNo l st name exprRaw v k hm hv hk
    constructor
    · intro hgt
      simp only [mutBranch, hm, hv, hk]
      rw [if_pos hgt]
      rfl
    · intro hle hdt
      simp only [mutBranch, hm, hv, hk, hdt]
      rw [if_neg (Nat.not_lt.mpr hle)]
      exact ⟨_, rfl⟩
  · intro env lineNo l st name exprRaw v k ha hv hnc hk hgt
    unfold assignBranch
    simp only [ha]
    simp only [hv]
    unfold assignExistingCheck
    rw [if_neg hnc]
    simp only [hk]
    rw [if_pos hgt]
    rfl

/-- C6 witness for the general part: with `x` inmuted at line 3,
`mut x = 3;` at line 4 raises the inmut error citing line 3. -/
theorem C6_inmut_ordering_witness :
    mutBranch ⟨"<input>.sp", [], []⟩ 4 ("mut x = 3;".data) c6WitnessSt =
      some (.error (⟨"<input>.sp", 4, 5,
        "cannot reassign x after inmut at line 3"⟩, c6WitnessSt)) :=
  (C6_inmut_ordering.2.1 ⟨"<input>.sp", [], []⟩ 4 ("mut x = 3;".data)
    c6WitnessSt "x" ("3;".data) c6WitnessVar 3 (by decide) (by decide)
    (by decide)).1 (by decide)

/-- C7: the dependency resolver visits each reachable file at most once —
the returned order never repeats a file, for every filesystem and fuel — and
on the diamond graph `D` appears exactly once, before `B` and `C`, with the
entry last; closing the cycle (`D` imports `E`) still terminates with the
same order for every sufficient fuel. -/
theorem C7_dependency_graph :
    (resolveDsDependencyGraph diamondFs id (fun _ => "") childResolve 10
        "E" = ["D", "B", "C", "E"]) ∧
    (∀ (rf : String → Option String) (pr : String → String)
        (dn : String → String) (r2 : String → String → String)
        (fuel : Nat) (entry : String),
      (resolveDsDependencyGraph rf pr dn r2 fuel entry).Nodup) ∧
    (∀ n : Nat,
      resolveDsDependencyGraph cycleFs id (fun _ => "") childResolve (n + 6)
        "E" = ["D", "B", "C", "E"]) := by
  refine ⟨?_, ?_, ?_⟩
  · have hE : extractDsImports ("import \x7bb\x7d from \"B.ds\"\nimport \x7bc\x7d from \"C.ds\"\n" : String).data = ["B.ds", "C.ds"] := by decide
    have hB : extractDsImports ("import \x7bd\x7d from \"D.ds\"\n" : String).data = ["D.ds"] := by decide
    have hD : extractDsImports ("let d = 1;\n" : String).data = ([] : List String) := by decide
    have r1 : childResolve "" "B.ds" = "B" := by decide
    have r2 : childResolve "" "C.ds" = "C" := by decide
    have r3 : childResolve "" "D.ds" = "D" := by decide
    simp +decide [resolveDsDependencyGraph, visitDs, visitDsList, diamondFs,
      hE, hB, hD, r1, r2, r3]
  · intro rf pr dn r2 fuel entry
    obtain ⟨-, n, ho, hn, -⟩ := visitDs_extend rf pr dn r2 fuel entry [] []
    unfold resolveDsDependencyGraph
    rw [ho]
    simpa using hn
  · intro n
    have hE : extractDsImports ("import \x7bb\x7d from \"B.ds\"\nimport \x7bc\x7d from \"C.ds\"\n" : String).data = ["B.ds", "C.ds"] := by decide
    have hB : extractDsImports ("import \x7bd\x7d from \"D.ds\"\n" : String).data = ["D.ds"] := by decide
    have hD : extractDsImports ("import \x7be\x7d from \"E.ds\"\n" : String).data = ["E.ds"] := by decide
    have r1 : childResolve "" "B.ds" = "B" := by decide
    have r2 : childResolve "" "C.ds" = "C" := by decide
    have r3 : childResolve "" "D.ds" = "D" := by decide
    have r4 : childResolve "" "E.ds" = "E" := by decide
    simp +decide [resolveDsDependencyGraph, visitDs, visitDsList, cycleFs,
      hE, hB, hD, r1, r2, r3, r4]

/-- C7 witness: the diamond order itself is duplicate-free, by the general
at-most-once part applied at the diamond fixture. -/
theorem C7_dependency_graph_witness :
    (resolveDsDependencyGraph diamondFs id (fun _ => "") childResolve 10
      "E").Nodup :=
  C7_dependency_graph.2.1 diamondFs id (fun _ => "") childResolve 10 "E"

/-- C8: `loadConfig` is a total function of its oracles (it never throws):
with no config file it returns the fixed default
`{ module := "cjs", builtins := true }`; when the normalized text fails to
parse it returns the same default; and when parsing succeeds with `builtins`
absent, the result is the parsed config with `builtins := true`. -/
theorem C8_loadConfig_defaults :
    (∀ jsonParse : String → Option SparkConfig,
      loadConfig jsonParse none = defaultConfig) ∧
    (∀ (jsonParse : String → Option SparkConfig) (raw : String),
      jsonParse (configJsonLike raw) = none →
      loadConfig jsonParse (some raw) = defaultConfig) ∧
    (∀ (jsonParse : String → Option SparkConfig) (raw : String)
        (parsed : SparkConfig),
      jsonParse (configJsonLike raw) = some parsed →
      parsed.builtins = none →
      loadConfig jsonParse (some raw) =
        { parsed with builtins := some true }) := by
  refine ⟨fun jp => rfl, fun jp raw h => by simp [loadConfig, h], ?_⟩
  intro jp raw parsed h hb
  simp [loadConfig, h, hb]

/-- C8 witness: a parser that fails on everything yields the default for a
present-but-invalid config file. -/
theorem C8_loadConfig_defaults_witness :
    loadConfig (fun _ => none) (some "garbage") = defaultConfig :=
  C8_loadConfig_defaults.2.1 (fun _ => none) "garbage" rfl

/-- C9: `injectSpectralImports` is idempotent for every input and flag
setting: the first application either leaves the text alone (marker already
present) or prepends the CDN imports, the package imports or the shim, each
of which makes `hasExisting` true, so the second application is the
identity. -/
theorem C9_inject_idempotent (js : String) (u1 p1 u2 p2 : Bool) :
    injectSpectralImports (injectSpectralImports js u1 p1) u2 p2 =
      injectSpectralImports js u1 p1 := by
  by_cases h : hasExistingSpectral js.data = true
  · simp [injectSpectralImports, h]
  · cases u1 with
    | true =>
        simp [injectSpectralImports, h, strDataAppend, List.append_assoc,
          hasExistingSpectral_cdn]
    | false =>
        cases p1 with
        | true =>
            simp [injectSpectralImports, h, strDataAppend, List.append_assoc,
              hasExistingSpectral_pkg]
        | false =>
            simp [injectSpectralImports, h, strDataAppend, List.append_assoc,
              hasExistingSpectral_shim]

/-- C9 witness: a concrete double application on plain text with the shim
branch then the CDN branch. -/
theorem C9_inject_idempotent_witness :
    injectSpectralImports (injectSpectralImports "console.log(1);" false false)
        true false =
      injectSpectralImports "console.log(1);" false false :=
  C9_inject_idempotent "console.log(1);" false false true false

/-- C10: the const-reassignment check applies only to plain assignments: a
plain `z = 2;` on a `const` binding is diagnosed `cannot reassign const z`,
while `mut y = 2;` on a `const` binding produces no diagnostics, and the
inmut check still runs on the `mut` path (`c10MutInmutConstProg`).  In
general the `mut` branch accepts a never-inmuted untyped `const` binding,
whereas the plain-assignment branch always rejects a `const` binding with
the const error. -/
theorem C10_mut_skips_const_check :
    ((transpileSpark trivialOracle c10MutConstProg).map
        (fun r => r.diagnostics) = .ok []) ∧
    ((transpileSpark trivialOracle c10AssignConstProg).map
        (fun r => r.diagnostics) =
      .ok [⟨2, 1, "<input>.sp:2:1  cannot reassign const z"⟩]) ∧
    ((transpileSpark trivialOracle c10MutInmutConstProg).map
        (fun r => r.diagnostics) =
      .ok [⟨3, 5, "<input>.sp:3:5  cannot reassign w after inmut at" ++
              " line 2"⟩]) ∧
    (∀ (env : SemEnv) (lineNo : Nat) (l : Chars) (st : LoopSt)
        (name : String) (exprRaw : Chars) (v : VarInfo),
      mutAssignMatch "mut" l = some (name, exprRaw) →
      findVariable st.scopes name = some v →
      v.declaredKind = "const" →
      v.inmutedAtLine = none →
      v.declaredType = none →
      ∃ st', mutBranch env lineNo l st = some (.ok st')) ∧
    (∀ (env : SemEnv) (lineNo : Nat) (l : Chars) (st : LoopSt)
        (name : String) (exprRaw : Chars) (v : VarInfo),
      assignStmtMatch l = some (name, exprRaw) →
      findVariable st.scopes name = some v →
      v.declaredKind = "const" →
      assignBranch env lineNo l st = some (.error
        (⟨env.filePath, lineNo, colOf name l,
          "cannot reassign const " ++ name⟩, st))) := by
  refine ⟨by decide, by decide, by decide, ?_, ?_⟩
  · intro env lineNo l st name exprRaw v hm hv hconst hk hdt
    simp only [mutBranch, hm, hv, hk, hdt]
    exact ⟨_, rfl⟩
  · intro env lineNo l st name exprRaw v ha hv hc
    unfold assignBranch
    simp only [ha]
    simp only [hv]
    unfold assignExistingCheck
    rw [if_pos hc]
    rfl

/-- C10 witness for the general part: a plain `z = 2;` at line 2 on the
`const` binding `z` raises the const error. -/
theorem C10_mut_skips_const_check_witness :
    assignBranch ⟨"<input>.sp", [], []⟩ 2 ("z = 2;".data) c10WitnessSt =
      some (.error (⟨"<input>.sp", 2, 1, "cannot reassign const z"⟩,
        c10WitnessSt)) :=
  C10_mut_skips_const_check.2.2.2.2 ⟨"<input>.sp", [], []⟩ 2 ("z = 2;".data)
    c10WitnessSt "z" ("2;".data) c10WitnessVar (by decide) (by decide)
    (by decide)

end DeltaScript
